import Mathlib

/-!
# Verification of the ScriptsPITA document pipeline

Shallow embedding of the document-classification, field-extraction and
cross-validation engine of `script-popular-master/verificar_prestamos_v3.py`
(plus the monetary fallback of `verificar_prestamos_v2.py`) and of the
file-based processing state machine of `pipeline.py`, together with theorems
settling the specification claims about them.

Python strings are modelled as Lean `String`/`List Char`; Python `float`
arithmetic on the short decimal numerals appearing in these scripts is
modelled exactly over `ℚ` (the scripts only parse, compare and re-render
numbers whose decimal expansions are far from any binary-rounding boundary);
`re` regular expressions are modelled by a small backtracking engine below
whose match order (leftmost position, lazy/greedy alternative order) follows
CPython's `re` semantics for the constructs these scripts use.
-/

namespace PITA

/-! ## Python string primitives -/

/-- `str.upper` restricted to the alphabet these scripts manipulate:
ASCII plus the Spanish accented letters appearing in the document registry. -/
def pyUpperChar (c : Char) : Char :=
  if c = 'á' then 'Á' else if c = 'é' then 'É' else if c = 'í' then 'Í'
  else if c = 'ó' then 'Ó' else if c = 'ú' then 'Ú' else if c = 'ñ' then 'Ñ'
  else if c = 'ü' then 'Ü' else c.toUpper

/-- `str.lower` on the same alphabet. -/
def pyLowerChar (c : Char) : Char :=
  if c = 'Á' then 'á' else if c = 'É' then 'é' else if c = 'Í' then 'í'
  else if c = 'Ó' then 'ó' else if c = 'Ú' then 'ú' else if c = 'Ñ' then 'ñ'
  else if c = 'Ü' then 'ü' else c.toLower

def pyUpper (s : String) : String := ⟨s.data.map pyUpperChar⟩

def pyLower (s : String) : String := ⟨s.data.map pyLowerChar⟩

/-- Python `\s` / `str.split()` whitespace (the ASCII part, which is all the
pipeline ever feeds it). -/
def isPySpace (c : Char) : Bool :=
  c = ' ' || c = '\t' || c = '\n' || c = '\r' || c = '\x0b' || c = '\x0c'

/-- Substring test on character lists: Python's `needle in haystack`. -/
def listContains (needle haystack : List Char) : Bool :=
  match haystack with
  | [] => needle.isEmpty
  | _ :: t => needle.isPrefixOf haystack || listContains needle t

/-- Python `needle in haystack` on strings. -/
def strContains (needle haystack : String) : Bool :=
  listContains needle.data haystack.data

/-- Case-insensitive containment, as the classifier computes it:
`needle.upper() in haystack.upper()`. -/
def ciContains (needle haystack : String) : Bool :=
  strContains (pyUpper needle) (pyUpper haystack)

/-- Split a character list at every occurrence of characters satisfying
`p` (Python `str.split(sep)` semantics: `n` separators give `n+1`
fields). -/
def splitOnPred (p : Char → Bool) : List Char → List (List Char)
  | [] => [[]]
  | c :: t =>
    let r := splitOnPred p t
    if p c then [] :: r
    else
      match r with
      | [] => [[c]]
      | h :: t2 => (c :: h) :: t2

/-- Python `s.split(sep)` for a one-character separator. -/
def pySplitChar (sep : Char) (s : String) : List String :=
  (splitOnPred (fun c => c = sep) s.data).map (fun l => (⟨l⟩ : String))

/-- Join with a separator (Python `sep.join` / f-string interpolation). -/
def unirCon (sep : String) : List String → String
  | [] => ""
  | [x] => x
  | x :: xs => x ++ sep ++ unirCon sep xs

/-- Python `s.startswith(pref)`. -/
def empiezaCon (pref s : String) : Bool := pref.data.isPrefixOf s.data

/-- Python `str.split()` with no argument: split on whitespace runs,
dropping empty fields. -/
def pySplitWS (s : String) : List String :=
  ((splitOnPred (fun c => isPySpace c) s.data).map (fun l => (⟨l⟩ : String))).filter
    (fun w => w ≠ "")

/-- Python `str.strip()` (whitespace both ends). -/
def pyStrip (s : String) : String :=
  ⟨(s.data.dropWhile (fun c => isPySpace c)).reverse.dropWhile
      (fun c => isPySpace c) |>.reverse⟩

/-- `re.sub(r'\s+', ' ', s)`: collapse each whitespace run to one space.
The Boolean flag records whether the previous character was part of a
whitespace run already rendered as a single space. -/
def collapseWS (s : String) : String :=
  ⟨go false s.data⟩
where
  go : Bool → List Char → List Char
  | _, [] => []
  | inRun, c :: t =>
    if isPySpace c then
      if inRun then go true t else ' ' :: go true t
    else c :: go false t

/-! ## A small backtracking regular-expression engine

The scripts use CPython `re` with a limited construct set: character
classes, literals, bounded/unbounded repetition of single-character
classes, alternation, optional groups, capture groups, a lookahead and
the `$` anchor.  `reM` below implements exactly the backtracking order of
CPython for these constructs (leftmost starting position; alternatives
tried left to right; greedy repetition tries longest first, lazy
repetition shortest first), so each Python pattern is transliterated
into a `Re` term next to its original text. -/

inductive Re where
  | eps
  | cls (p : Char → Bool)
  | lit (s : String)
  | liti (s : String)
  | seq (a b : Re)
  | alt (a b : Re)
  | rep (p : Char → Bool) (lo : Nat) (hi : Option Nat) (lz : Bool)
  | grp (n : Nat) (r : Re)
  | look (r : Re)
  | eos
  | eosM

/-- Captured groups of one match: group number paired with captured text. -/
abbrev Caps := List (Nat × String)

/-- Case-sensitive literal consumption. -/
def dropPref : List Char → List Char → Option (List Char)
  | [], cs => some cs
  | _ :: _, [] => none
  | p :: ps, c :: cs => if p = c then dropPref ps cs else none

/-- Case-insensitive literal consumption (`re.IGNORECASE` literals). -/
def dropPrefCI : List Char → List Char → Option (List Char)
  | [], cs => some cs
  | _ :: _, [] => none
  | p :: ps, c :: cs =>
    if pyLowerChar p = pyLowerChar c then dropPrefCI ps cs else none

/-- The remainders a single-character-class repetition can leave, in the
order a backtracking engine tries them (lazy: fewest repetitions first;
greedy: most first). -/
def repTries (p : Char → Bool) (lo : Nat) (hi : Option Nat) (lz : Bool)
    (cs : List Char) : List (List Char) :=
  let m := (cs.takeWhile p).length
  let m := match hi with | none => m | some h => min m h
  if lo > m then []
  else
    let js := (List.range (m - lo + 1)).map (· + lo)
    let js := if lz then js else js.reverse
    js.map (fun j => cs.drop j)

/-- Try each remainder with the continuation, first success wins. -/
def tryRems (k : List Char → Option (Caps × List Char)) :
    List (List Char) → Option (Caps × List Char)
  | [] => none
  | r :: rs =>
    match k r with
    | some x => some x
    | none => tryRems k rs

/-- Continuation-passing matcher at a fixed starting position. -/
def reM : Re → List Char → Caps →
    (List Char → Caps → Option (Caps × List Char)) → Option (Caps × List Char)
  | .eps, cs, caps, k => k cs caps
  | .cls p, cs, caps, k =>
    match cs with
    | [] => none
    | c :: t => if p c then k t caps else none
  | .lit s, cs, caps, k =>
    match dropPref s.data cs with
    | some rest => k rest caps
    | none => none
  | .liti s, cs, caps, k =>
    match dropPrefCI s.data cs with
    | some rest => k rest caps
    | none => none
  | .seq a b, cs, caps, k =>
    reM a cs caps (fun cs1 caps1 => reM b cs1 caps1 k)
  | .alt a b, cs, caps, k =>
    match reM a cs caps k with
    | some x => some x
    | none => reM b cs caps k
  | .rep p lo hi lz, cs, caps, k =>
    tryRems (fun rest => k rest caps) (repTries p lo hi lz cs)
  | .grp n r, cs, caps, k =>
    reM r cs caps (fun cs1 caps1 =>
      k cs1 ((n, (⟨cs.take (cs.length - cs1.length)⟩ : String)) :: caps1))
  | .look r, cs, caps, k =>
    match reM r cs caps (fun cs2 caps2 => some (caps2, cs2)) with
    | some (caps2, _) => k cs caps2
    | none => none
  | .eos, cs, caps, k =>
    if cs.isEmpty || cs = ['\n'] then k cs caps else none
  | .eosM, cs, caps, k =>
    if cs.isEmpty || cs.head? = some '\n' then k cs caps else none

/-- `re.search`: try each starting position left to right; returns the
captures and the remainder of the string after the match. -/
def reSearchAux (r : Re) (cs : List Char) : Option (Caps × List Char) :=
  match reM r cs [] (fun rest caps => some (caps, rest)) with
  | some x => some x
  | none =>
    match cs with
    | [] => none
    | _ :: t => reSearchAux r t

def reSearch (r : Re) (s : String) : Option Caps :=
  (reSearchAux r s.data).map (·.1)

/-- Like `reSearchAux` but also reports the starting position of the
match (used to model a single-match `re.sub`). -/
def reSearchPosAux (r : Re) (pos : Nat) (cs : List Char) :
    Option (Nat × Caps × List Char) :=
  match reM r cs [] (fun rest caps => some (caps, rest)) with
  | some x => some (pos, x.1, x.2)
  | none =>
    match cs with
    | [] => none
    | _ :: t => reSearchPosAux r (pos + 1) t

/-- `re.sub(r, '', s)` for a pattern anchored at `$` (at most one match):
delete the matched span, keep prefix and suffix; `none` when there is no
match. -/
def reSubUna (r : Re) (s : String) : Option String :=
  (reSearchPosAux r 0 s.data).map (fun res =>
    (⟨s.data.take res.1 ++ res.2.2⟩ : String))

def reTest (r : Re) (s : String) : Bool :=
  (reSearch r s).isSome

/-- `match.group(n)` (for the single-shot groups these patterns use). -/
def grupo (n : Nat) (caps : Caps) : Option String :=
  (caps.find? (fun kv => kv.1 = n)).map (·.2)

/-- `re.findall`, collecting the capture lists of successive
non-overlapping matches.  All patterns the scripts feed to `findall`
match at least one character, so the fuel `|s| + 1` is never exhausted. -/
def reFindAllAux (r : Re) : Nat → List Char → List Caps
  | 0, _ => []
  | fuel + 1, cs =>
    match reSearchAux r cs with
    | none => []
    | some (caps, rest) => caps :: reFindAllAux r fuel rest

def reFindAll (r : Re) (s : String) : List Caps :=
  reFindAllAux r (s.data.length + 1) s.data

/-! ### Character classes used by the scripts' patterns -/

def isDigitC (c : Char) : Bool := '0' ≤ c && c ≤ '9'

def isUpperAZ (c : Char) : Bool := 'A' ≤ c && c ≤ 'Z'

def isLowerAZ (c : Char) : Bool := 'a' ≤ c && c ≤ 'z'

def esAcentoMayus (c : Char) : Bool :=
  c = 'Á' || c = 'É' || c = 'Í' || c = 'Ó' || c = 'Ú' || c = 'Ñ'

def esAcentoMinus (c : Char) : Bool :=
  c = 'á' || c = 'é' || c = 'í' || c = 'ó' || c = 'ú' || c = 'ñ'

/-- `[A-ZÁÉÍÓÚÑ]` as compiled under `re.IGNORECASE`. -/
def clsNombreInicio (c : Char) : Bool :=
  isUpperAZ c || isLowerAZ c || esAcentoMayus c || esAcentoMinus c

/-- `[A-Za-záéíóúñÁÉÍÓÚÑ\s]`. -/
def clsNombreCuerpo (c : Char) : Bool :=
  isUpperAZ c || isLowerAZ c || esAcentoMayus c || esAcentoMinus c || isPySpace c

/-- `[^A-Z]` as compiled under `re.IGNORECASE` (excludes both cases). -/
def clsNoLetraAZ (c : Char) : Bool := !(isUpperAZ c || isLowerAZ c)

/-- `[^\n]`. -/
def clsNoNL (c : Char) : Bool := c ≠ '\n'

/-- `[:\s]`. -/
def clsColonWS (c : Char) : Bool := c = ':' || isPySpace c

/-- `[\d,]`. -/
def clsDigitoComa (c : Char) : Bool := isDigitC c || c = ','

/-- `[\w\.\-]` (ASCII plus the accented letters, the alphabet these
emails are drawn from). -/
def clsWordEmail (c : Char) : Bool :=
  isUpperAZ c || isLowerAZ c || isDigitC c || c = '_' || c = '.' || c = '-' ||
    esAcentoMayus c || esAcentoMinus c

/-! ### Pattern combinators mirroring common regex fragments -/

/-- Concatenation of a pattern list. -/
def Re.cat (rs : List Re) : Re := rs.foldr Re.seq Re.eps

/-- `(?:r)?` (greedy optional). -/
def Re.opt (r : Re) : Re := Re.alt r Re.eps

/-- Alternation over a nonempty list, left to right. -/
def Re.altL : List Re → Re
  | [] => Re.eps
  | [r] => r
  | r :: rs => Re.alt r (Re.altL rs)

/-- `\s*`. -/
def reWS0 : Re := Re.rep isPySpace 0 none false

/-- `\s+`. -/
def reWS1 : Re := Re.rep isPySpace 1 none false

/-- `[:\s]*`. -/
def reColonWS : Re := Re.rep clsColonWS 0 none false

/-- `\d{lo,hi}` (greedy). -/
def reDig (lo : Nat) (hi : Nat) : Re := Re.rep isDigitC lo (some hi) false

/-! ## Numeric parsing and currency formatting

`float(...)` on the comma-stripped numerals these scripts capture
(digit runs with at most one decimal point) is modelled exactly by
`Dec`, a nonnegative decimal `mant / 10 ^ exp` kept in the canonical
form with no factor of 10 left in the mantissa while `exp > 0` (so
structural equality is value equality, matching Python's `set()` of
floats); `f-string` `,.2f` formatting is modelled as round-half-even to
cents followed by thousands grouping.  The numerals the claims exercise
are exact at two decimals, where the binary-float and exact-decimal
models agree. -/

/-- An exact nonnegative decimal number `mant / 10 ^ exp`. -/
structure Dec where
  mant : Nat
  exp : Nat
deriving DecidableEq, Repr

/-- Strip factors of 10 from the mantissa into the exponent. -/
def Dec.normalizar : Nat → Nat → Dec
  | m, 0 => ⟨m, 0⟩
  | m, e + 1 => if m % 10 = 0 then Dec.normalizar (m / 10) e else ⟨m, e + 1⟩

/-- Value order: `a ≤ b ↔ a.mant / 10^a.exp ≤ b.mant / 10^b.exp`. -/
def Dec.le (a b : Dec) : Prop := a.mant * 10 ^ b.exp ≤ b.mant * 10 ^ a.exp

def Dec.lt (a b : Dec) : Prop := a.mant * 10 ^ b.exp < b.mant * 10 ^ a.exp

instance : LE Dec := ⟨Dec.le⟩

instance : LT Dec := ⟨Dec.lt⟩

instance (a b : Dec) : Decidable (a ≤ b) := Nat.decLe _ _

instance (a b : Dec) : Decidable (a < b) := Nat.decLt _ _

/-- The integer `n` as a `Dec`. -/
def Dec.deNat (n : Nat) : Dec := ⟨n, 0⟩

instance : IsTotal Dec (· ≤ ·) := ⟨fun x y => Nat.le_total (x.mant * 10 ^ y.exp) (y.mant * 10 ^ x.exp)⟩

instance : IsRefl Dec (· ≤ ·) := ⟨fun _ => Nat.le_refl _⟩

instance : IsTrans Dec (· ≤ ·) := ⟨by
  intro a b c hab hbc
  have hpos : 0 < 10 ^ b.exp := Nat.pow_pos (by norm_num)
  have h3 : 10 ^ b.exp * (a.mant * 10 ^ c.exp)
      ≤ 10 ^ b.exp * (c.mant * 10 ^ a.exp) := by
    calc 10 ^ b.exp * (a.mant * 10 ^ c.exp)
        = a.mant * 10 ^ b.exp * 10 ^ c.exp := by ring
      _ ≤ b.mant * 10 ^ a.exp * 10 ^ c.exp := Nat.mul_le_mul_right _ hab
      _ = b.mant * 10 ^ c.exp * 10 ^ a.exp := by ring
      _ ≤ c.mant * 10 ^ b.exp * 10 ^ a.exp := Nat.mul_le_mul_right _ hbc
      _ = 10 ^ b.exp * (c.mant * 10 ^ a.exp) := by ring
  exact Nat.le_of_mul_le_mul_left h3 hpos⟩

def digitosANat (ds : List Char) : Nat :=
  ds.foldl (fun acc c => acc * 10 + (c.toNat - '0'.toNat)) 0

/-- `float(s)` for strings of shape `digits`, `digits.digits`, `digits.`
or `.digits`; `none` models a raised `ValueError`. -/
def parseDecimal (s : String) : Option Dec :=
  match splitOnPred (fun c => c = '.') s.data with
  | [ip] =>
    if ip ≠ [] ∧ ip.all isDigitC then some (Dec.normalizar (digitosANat ip) 0)
    else none
  | [ip, fp] =>
    if (ip ≠ [] ∨ fp ≠ []) ∧ ip.all isDigitC ∧ fp.all isDigitC then
      some (Dec.normalizar (digitosANat ip * 10 ^ fp.length + digitosANat fp)
        fp.length)
    else none
  | _ => none

/-- Round-half-even of `100 · value` to whole cents (what `"%.2f"` does
to these exactly representable amounts). -/
def Dec.aCentavos (d : Dec) : Nat :=
  let n := d.mant * 100
  let den := 10 ^ d.exp
  let q := n / den
  let r := n % den
  if 2 * r < den then q
  else if den < 2 * r then q + 1
  else if q % 2 = 0 then q else q + 1

/-- Group reversed decimal digits in threes with commas. -/
def agruparTres : List Char → List Char
  | [] => []
  | [a] => [a]
  | [a, b] => [a, b]
  | [a, b, c] => [a, b, c]
  | a :: b :: c :: rest => a :: b :: c :: ',' :: agruparTres rest

/-- Decimal digits of `n` grouped in threes with commas (`f"{n:,}"`). -/
def agruparMiles (n : Nat) : String :=
  ⟨(agruparTres (toString n).data.reverse).reverse⟩

/-- `f"${num:,.2f}"` for the nonnegative amounts these scripts format. -/
def formatMoney (d : Dec) : String :=
  let cents := d.aCentavos
  let ip := cents / 100
  let fp := cents % 100
  "$" ++ agruparMiles ip ++ "." ++ (if fp < 10 then "0" else "") ++ toString fp

/-- A single-quote character, used inside alert strings. -/
def sq : String := String.singleton (Char.ofNat 39)

end PITA

namespace PITA.V3

/-! ## verificar_prestamos_v3.py — utilities -/

open PITA

/-- `limpiar`: collapse whitespace and strip. -/
def limpiar (texto : String) : String := pyStrip (collapseWS texto)

/-- `valor.replace(',', '').replace(' ', '')`. -/
def quitarComasEspacios (v : String) : String :=
  ⟨v.data.filter (fun c => c ≠ ',' ∧ c ≠ ' ')⟩

/-- `formatear_precio`: strip thousands separators and spaces, parse, and
re-render as `$X,XXX.XX` — but only when the value exceeds 1000
(`if num > 1000`); otherwise (or on parse failure) return `None`. -/
def formatear_precio (valor : Option String) : Option String :=
  match valor with
  | none => none
  | some v =>
    if v = "" then none
    else
      match parseDecimal (quitarComasEspacios v) with
      | some num => if Dec.deNat 1000 < num then some (formatMoney num) else none
      | none => none

/-- `[uú]` under `re.IGNORECASE`. -/
def clsUU (c : Char) : Bool := c = 'u' || c = 'ú' || c = 'U' || c = 'Ú'

/-- `[oó]` under `re.IGNORECASE`. -/
def clsOO (c : Char) : Bool := c = 'o' || c = 'ó' || c = 'O' || c = 'Ó'

/-- `[eé]` under `re.IGNORECASE`. -/
def clsEE (c : Char) : Bool := c = 'e' || c = 'é' || c = 'E' || c = 'É'

/-- `([\w\.\-]+@[\w\.\-]+\.[a-z]{2,})` (`re.IGNORECASE`). -/
def patEmailAddr : Re :=
  Re.grp 1 (Re.cat [Re.rep clsWordEmail 1 none false, Re.lit "@",
    Re.rep clsWordEmail 1 none false, Re.lit ".",
    Re.rep (fun c => isLowerAZ c || isUpperAZ c) 2 none false])

/-- `limpiar_email`: drop OCR pipe noise, remove all whitespace, then
extract an e-mail address (lowercased); otherwise keep the content
lowercased only when it contains an `@`. -/
def limpiar_email (contenido : Option String) : Option String :=
  match contenido with
  | none => none
  | some c0 =>
    if c0 = "" then none
    else
      let c1 := pyStrip (⟨c0.data.filter (fun ch => ch ≠ '|')⟩ : String)
      let c : String := ⟨c1.data.filter (fun ch => !isPySpace ch)⟩
      match reSearch patEmailAddr c with
      | some caps => (grupo 1 caps).map pyLower
      | none => if strContains "@" c then some (pyLower c) else none

/-! ## Field-extraction patterns (transliterated from TIPOS_DOCUMENTO)

Each `Re` term carries its original Python pattern in the doc comment;
all `campos` patterns are compiled by `extraer_campo` with
`re.IGNORECASE | re.MULTILINE`. -/

/-- `Nombre\s+del\s+Solicitante[:\s]*([A-ZÁÉÍÓÚÑ][A-Za-záéíóúñÁÉÍÓÚÑ\s]+?)(?=\n|Nombre\s+del\s+Co|$)` -/
def patNombreSolicitante : Re :=
  Re.cat [Re.liti "Nombre", reWS1, Re.liti "del", reWS1, Re.liti "Solicitante",
    reColonWS,
    Re.grp 1 (Re.cat [Re.cls clsNombreInicio, Re.rep clsNombreCuerpo 1 none true]),
    Re.look (Re.altL [Re.lit "\n",
      Re.cat [Re.liti "Nombre", reWS1, Re.liti "del", reWS1, Re.liti "Co"],
      Re.eosM])]

/-- `N[uú]mero\s+de\s+Solicitud[:\s]*(\d{10})` -/
def patNumSolicitud10 : Re :=
  Re.cat [Re.liti "N", Re.cls clsUU, Re.liti "mero", reWS1, Re.liti "de", reWS1,
    Re.liti "Solicitud", reColonWS, Re.grp 1 (reDig 10 10)]

/-- `N[uú]mero\s+de\s+pr[eé]stamo[:\s]*(\d{10})` -/
def patNumPrestamo10 : Re :=
  Re.cat [Re.liti "N", Re.cls clsUU, Re.liti "mero", reWS1, Re.liti "de", reWS1,
    Re.liti "pr", Re.cls clsEE, Re.liti "stamo", reColonWS, Re.grp 1 (reDig 10 10)]

/-- `Direcci[oó]n\s+Postal[:\s]*([^\n]+(?:\n[^\n]*(?:PR|00\d{3}))?)` -/
def patDireccionPostal : Re :=
  Re.cat [Re.liti "Direcci", Re.cls clsOO, Re.liti "n", reWS1, Re.liti "Postal",
    reColonWS,
    Re.grp 1 (Re.cat [Re.rep clsNoNL 1 none false,
      Re.opt (Re.cat [Re.lit "\n", Re.rep clsNoNL 0 none false,
        Re.alt (Re.liti "PR") (Re.cat [Re.lit "00", reDig 3 3])])])]

/-- `(\d{3}-\d{2}-\d{4})` (the capture shared by both SSN patterns). -/
def patSSNCore : Re :=
  Re.grp 1 (Re.cat [reDig 3 3, Re.lit "-", reDig 2 2, Re.lit "-", reDig 4 4])

/-- `N[uú]mero\s+de\s+Seguro\s+Social\s+del\s+Solicitante[:\s]*(\d{3}-\d{2}-\d{4})` -/
def patSSNEtiqueta : Re :=
  Re.cat [Re.liti "N", Re.cls clsUU, Re.liti "mero", reWS1, Re.liti "de", reWS1,
    Re.liti "Seguro", reWS1, Re.liti "Social", reWS1, Re.liti "del", reWS1,
    Re.liti "Solicitante", reColonWS, patSSNCore]

/-- `Correo\s+Electr[oó]nico[:\s]*([^\n]+)` -/
def patCorreo : Re :=
  Re.cat [Re.liti "Correo", reWS1, Re.liti "Electr", Re.cls clsOO, Re.liti "nico",
    reColonWS, Re.grp 1 (Re.rep clsNoNL 1 none false)]

/-- `([\d,]+\.?\d*)` — the money capture shared by the amount patterns. -/
def patMontoCore : Re :=
  Re.grp 1 (Re.cat [Re.rep clsDigitoComa 1 none false,
    Re.rep (fun c => c = '.') 0 (some 1) false,
    Re.rep isDigitC 0 none false])

/-- `Cantidad\s+de\s+la\s+Hipoteca[:\s]*\$?\s*([\d,]+\.?\d*)` -/
def patCantidadHipoteca1 : Re :=
  Re.cat [Re.liti "Cantidad", reWS1, Re.liti "de", reWS1, Re.liti "la", reWS1,
    Re.liti "Hipoteca", reColonWS, Re.opt (Re.lit "$"), reWS0, patMontoCore]

/-- `Hipoteca[:\s]*\$?\s*([\d,]+\.?\d*)` -/
def patCantidadHipoteca2 : Re :=
  Re.cat [Re.liti "Hipoteca", reColonWS, Re.opt (Re.lit "$"), reWS0, patMontoCore]

/-- `Precio\s+de\s+Venta[:\s]*\$?\s*([\d,]+\.?\d*)` -/
def patPrecioVenta : Re :=
  Re.cat [Re.liti "Precio", reWS1, Re.liti "de", reWS1, Re.liti "Venta",
    reColonWS, Re.opt (Re.lit "$"), reWS0, patMontoCore]

/-- `Tipo\s+de\s+Pr[eé]stamo[:\s]*([^\n]+)` -/
def patTipoPrestamo : Re :=
  Re.cat [Re.liti "Tipo", reWS1, Re.liti "de", reWS1, Re.liti "Pr", Re.cls clsEE,
    Re.liti "stamo", reColonWS, Re.grp 1 (Re.rep clsNoNL 1 none false)]

/-- `(\d{1,2}/\d{1,2}/\d{4})` -/
def patFechaNum : Re :=
  Re.grp 1 (Re.cat [reDig 1 2, Re.lit "/", reDig 1 2, Re.lit "/", reDig 4 4])

/-- `Fecha\s+estimada\s+de\s+cierre[:\s]*(\d{1,2}/\d{1,2}/\d{4})` -/
def patFechaCierre : Re :=
  Re.cat [Re.liti "Fecha", reWS1, Re.liti "estimada", reWS1, Re.liti "de", reWS1,
    Re.liti "cierre", reColonWS, patFechaNum]

/-- `FINCA\s*[:\s]*(?:N[uú]mero\s*)?([\d,]+)` -/
def patFinca1 : Re :=
  Re.cat [Re.liti "FINCA", reWS0, reColonWS,
    Re.opt (Re.cat [Re.liti "N", Re.cls clsUU, Re.liti "mero", reWS0]),
    Re.grp 1 (Re.rep clsDigitoComa 1 none false)]

/-- `Finca\s+n[uú]mero\s+([\d,]+)` -/
def patFinca2 : Re :=
  Re.cat [Re.liti "Finca", reWS1, Re.liti "n", Re.cls clsUU, Re.liti "mero",
    reWS1, Re.grp 1 (Re.rep clsDigitoComa 1 none false)]

/-! ## Document-type registry (TIPOS_DOCUMENTO) -/

/-- A field specification: an ordered pattern list or one of the named
special-case extractors (`"DETECTAR_TIPO"`, `"ULTIMA_FECHA"`,
`"ULTIMA_FECHA_ESTUDIO"`, `"VERIFICAR_BLANCO"`). -/
inductive EspecCampo where
  | patrones (ps : List Re)
  | detectarTipo
  | ultimaFecha
  | ultimaFechaEstudio
  | verificarBlanco

structure TipoDoc where
  nombre : String
  identificadores : List String
  identificadores_negativos : List String
  campos : List (String × EspecCampo)
  requiere_firma : Bool
  incluir_continuaciones : Bool := false
  es_continuacion_de : Option String := none

/-- The declaration-ordered registry; the dict's insertion order is the
evaluation order of `detectar_tipo_documento`. -/
def TIPOS_DOCUMENTO : List TipoDoc := [
  { nombre := "AUTORIZACION_SEGUROS",
    identificadores := ["Autorización para referir los seguros",
                        "Autorización para referir"],
    identificadores_negativos := [],
    campos := [("nombre_solicitante", .patrones [patNombreSolicitante]),
               ("num_solicitud", .patrones [patNumSolicitud10]),
               ("linea_rechazo", .verificarBlanco)],
    requiere_firma := true },
  { nombre := "DIVULGACIONES_TITULO",
    identificadores := ["Divulgaciones Seguro de Título",
                        "Divulgaciones Seguro de Titulo"],
    identificadores_negativos := [],
    campos := [("num_solicitud", .patrones [patNumSolicitud10, patNumPrestamo10])],
    requiere_firma := true },
  { nombre := "DIVULGACIONES_PRODUCTOS",
    identificadores := ["Divulgaciones relacionadas a los productos de seguro"],
    identificadores_negativos := [],
    campos := [("num_solicitud", .patrones [patNumPrestamo10, patNumSolicitud10])],
    requiere_firma := true },
  { nombre := "CARTA_SOLICITUD",
    identificadores := ["Solicitud de Cotización Póliza de Título",
                        "Solicitud de Cotización",
                        "popularMortgage.com"],
    identificadores_negativos := ["Autorización para referir", "Divulgaciones"],
    campos := [("nombre_solicitante", .patrones [patNombreSolicitante]),
               ("direccion_postal", .patrones [patDireccionPostal]),
               ("ssn", .patrones [patSSNEtiqueta, patSSNCore]),
               ("email", .patrones [patCorreo]),
               ("cantidad_hipoteca",
                 .patrones [patCantidadHipoteca1, patCantidadHipoteca2]),
               ("precio_venta", .patrones [patPrecioVenta]),
               ("tipo_prestamo", .patrones [patTipoPrestamo]),
               ("fecha_estimada_cierre", .patrones [patFechaCierre])],
    requiere_firma := false },
  { nombre := "ESTUDIO_TITULO",
    identificadores := ["ESTUDIO", "Capital Title", "CAPITAL TITLE"],
    identificadores_negativos := ["Divulgaciones Seguro de Título",
                                  "popularMortgage.com",
                                  "Continuación"],
    campos := [("finca", .patrones [patFinca1, patFinca2]),
               ("tipo_propiedad", .detectarTipo),
               ("fecha_documento", .ultimaFechaEstudio)],
    requiere_firma := false,
    incluir_continuaciones := true },
  { nombre := "ESTUDIO_TITULO_CONTINUACION",
    identificadores := ["Continuación", "Continuacion"],
    identificadores_negativos := ["Autorización", "Divulgaciones"],
    campos := [],
    requiere_firma := false,
    es_continuacion_de := some "ESTUDIO_TITULO" }]

/-! ## Page classifier (detectar_tipo_documento) -/

/-- The registry loop of `detectar_tipo_documento`: the negative check
(`any(neg.upper() in texto_upper ...)`) and positive check are evaluated
for each entry in declared order; the first entry with positive evidence
and no negative evidence wins. -/
def buscarTipo (texto_upper : String) : List TipoDoc → Option String
  | [] => none
  | t :: ts =>
    let tiene_negativo :=
      t.identificadores_negativos.any (fun neg => strContains (pyUpper neg) texto_upper)
    let tiene_positivo :=
      t.identificadores.any (fun ident => strContains (pyUpper ident) texto_upper)
    if tiene_positivo && !tiene_negativo then some t.nombre
    else buscarTipo texto_upper ts

/-- `detectar_tipo_documento`. -/
def detectar_tipo_documento (texto : String) : Option String :=
  buscarTipo (pyUpper texto) TIPOS_DOCUMENTO

/-- `extraer_campo`: try each pattern in order
(`re.IGNORECASE | re.MULTILINE` are baked into the transliterated
patterns); the first match whose cleaned group 1 is nonempty wins. -/
def extraer_campo (texto : String) : List Re → Option String
  | [] => none
  | p :: ps =>
    match reSearch p texto with
    | some caps =>
      let valor := limpiar ((grupo 1 caps).getD "")
      if valor ≠ "" then some valor else extraer_campo texto ps
    | none => extraer_campo texto ps

/-! ## Special-case extractors -/

/-- `detectar_tipo_propiedad`: keyword presence decides CASA vs
APARTAMENTO. -/
def detectar_tipo_propiedad (texto : String) : String :=
  let texto_upper := pyUpper texto
  let indicadores_apartamento :=
    ["PROPIEDAD HORIZONTAL", "APARTAMENTO", "CONDOMINIO", "APT"]
  let indicadores_casa := ["SOLAR", "CASA", "TERRENO", "URBANIZACIÓN", "URBANA"]
  if indicadores_apartamento.any (fun i => strContains i texto_upper) then
    "APARTAMENTO"
  else if indicadores_casa.any (fun i => strContains i texto_upper) then "CASA"
  else "INDETERMINADO"

/-- `(\d{1,2}\s+de\s+(?:enero|...|diciembre)\s+de\s+\d{4})` (`re.IGNORECASE`). -/
def patFechaLarga : Re :=
  Re.grp 1 (Re.cat [reDig 1 2, reWS1, Re.liti "de", reWS1,
    Re.altL (["enero", "febrero", "marzo", "abril", "mayo", "junio", "julio",
      "agosto", "septiembre", "octubre", "noviembre", "diciembre"].map Re.liti),
    reWS1, Re.liti "de", reWS1, reDig 4 4])

/-- `extraer_ultima_fecha`: last long-form Spanish date, else last numeric
date, else `None`. -/
def extraer_ultima_fecha (texto : String) : Option String :=
  let fechas := (reFindAll patFechaLarga texto).filterMap (grupo 1)
  match fechas.getLast? with
  | some f => some f
  | none => ((reFindAll patFechaNum texto).filterMap (grupo 1)).getLast?

/-- `extraer_ultima_fecha_estudio`: appends the continuation-page
accumulator (the module global `_texto_continuaciones_estudio`, threaded
here explicitly) before scanning. -/
def extraer_ultima_fecha_estudio (texto_cont : String) (texto : String) :
    Option String :=
  extraer_ultima_fecha (texto ++ "\n" ++ texto_cont)

/-- `que\s+no\s+desea\s+que\s+Popular[^:]*gestione[:\s]*([^\n]{0,100})` -/
def patRechazo1 : Re :=
  Re.cat [Re.liti "que", reWS1, Re.liti "no", reWS1, Re.liti "desea", reWS1,
    Re.liti "que", reWS1, Re.liti "Popular",
    Re.rep (fun c => c ≠ ':') 0 none false, Re.liti "gestione", reColonWS,
    Re.grp 1 (Re.rep clsNoNL 0 (some 100) false)]

/-- `favor\s+indicar\s+el\s+seguro\s+que\s+no\s+desea[^:]*:[:\s]*([^\n]{0,100})` -/
def patRechazo2 : Re :=
  Re.cat [Re.liti "favor", reWS1, Re.liti "indicar", reWS1, Re.liti "el", reWS1,
    Re.liti "seguro", reWS1, Re.liti "que", reWS1, Re.liti "no", reWS1,
    Re.liti "desea", Re.rep (fun c => c ≠ ':') 0 none false, Re.lit ":",
    reColonWS, Re.grp 1 (Re.rep clsNoNL 0 (some 100) false)]

/-- `Insurance\s+gestione[:\s]*([^\n]{0,100})` -/
def patRechazo3 : Re :=
  Re.cat [Re.liti "Insurance", reWS1, Re.liti "gestione", reColonWS,
    Re.grp 1 (Re.rep clsNoNL 0 (some 100) false)]

/-- `verificar_linea_rechazo`: checks whether the insurance-rejection
line is blank; form-boilerplate content also counts as blank. -/
def verificar_linea_rechazo (texto : String) : String :=
  go [patRechazo1, patRechazo2, patRechazo3]
where
  go : List Re → String
  | [] => "NO LOCALIZADO"
  | p :: ps =>
    match reSearch p texto with
    | none => go ps
    | some caps =>
      let contenido := pyStrip ((grupo 1 caps).getD "")
      let contenido_limpio := pyLower
        (⟨contenido.data.filter (fun c =>
          !(c = '_' || c = '-' || c = '.' || isPySpace c || c = ':'))⟩ : String)
      let texto_formulario := ["firma del solicitante", "firma del co-solicitante",
        "firma", "solicitante", "co-solicitante", "fecha", "mortg", "rev"]
      if contenido_limpio = "" ∨ contenido_limpio.data.length < 3 then
        "CORRECTO (Está en blanco)"
      else if texto_formulario.any (fun t => strContains t (pyLower contenido)) then
        "CORRECTO (Está en blanco)"
      else
        "ALERTA: Contiene texto (" ++ sq ++ (⟨contenido.data.take 50⟩ : String)
          ++ sq ++ ")"

/-! ## Signature detector (detectar_firma)

The embedding models the text-only call `detectar_firma(texto, page=None)`:
patterns 5 and the OpenCV arm of pattern 6 invoke the external visual
collaborator (`cv2` ink/contour analysis of rendered page pixels) and are
outside the text model; with `page=None` the code skips pattern 5 and
takes the indeterminate arm of pattern 6, exactly as embedded here. -/

def PALABRAS_AREA_FIRMA : List String :=
  ["Firma del Solicitante", "Firma del Cliente", "Firma del Deudor",
   "Firma del Comprador", "Firma del Vendedor", "Firma del Propietario",
   "Firma del Representante", "Firma", "Signature", "Signed",
   "Firmado por", "Firmado"]

def PALABRAS_CERTIFICACION : List String :=
  ["Certifico", "Certify", "Declaro", "Declare", "Acepto", "Accept",
   "Autorizo", "Authorize", "Confirmo", "Confirm"]

/-- Pattern 1 (`re.IGNORECASE`):
`([A-ZÁÉÍÓÚÑ][A-Za-záéíóúñÁÉÍÓÚÑ\s]{3,40}?)\s*(\d{1,2}/\d{1,2}/\d{4})\s+(\d{1,2}:\d{2}\s*(?:AM|PM)?(?:\s*(?:PDT|PST|EST|CST|MST|UTC)?)?)` -/
def patTimestampNombre : Re :=
  Re.cat [Re.grp 1 (Re.cat [Re.cls clsNombreInicio,
      Re.rep clsNombreCuerpo 3 (some 40) true]),
    reWS0,
    Re.grp 2 (Re.cat [reDig 1 2, Re.lit "/", reDig 1 2, Re.lit "/", reDig 4 4]),
    reWS1,
    Re.grp 3 (Re.cat [reDig 1 2, Re.lit ":", reDig 2 2, reWS0,
      Re.opt (Re.alt (Re.liti "AM") (Re.liti "PM")),
      Re.opt (Re.cat [reWS0,
        Re.opt (Re.altL [Re.liti "PDT", Re.liti "PST", Re.liti "EST",
          Re.liti "CST", Re.liti "MST", Re.liti "UTC"])])])]

/-- Pattern 2's bare-timestamp search (compiled without flags):
`(\d{1,2}/\d{1,2}/\d{4}\s+\d{1,2}:\d{2}\s*(?:AM|PM)?(?:\s*(?:PDT|PST|EST|CST|MST|UTC)?)?)` -/
def patTimestampSolo : Re :=
  Re.grp 1 (Re.cat [reDig 1 2, Re.lit "/", reDig 1 2, Re.lit "/", reDig 4 4,
    reWS1, reDig 1 2, Re.lit ":", reDig 2 2, reWS0,
    Re.opt (Re.alt (Re.lit "AM") (Re.lit "PM")),
    Re.opt (Re.cat [reWS0,
      Re.opt (Re.altL [Re.lit "PDT", Re.lit "PST", Re.lit "EST", Re.lit "CST",
        Re.lit "MST", Re.lit "UTC"])])])

/-- Pattern 2's context gate:
`re.search(rf'(palabra1|palabra2|...)', texto_norm, re.IGNORECASE)` over
`PALABRAS_AREA_FIRMA + PALABRAS_CERTIFICACION`. -/
def patContextoFirma : Re :=
  Re.grp 1 (Re.altL ((PALABRAS_AREA_FIRMA ++ PALABRAS_CERTIFICACION).map Re.liti))

/-- Pattern 3 for one certification keyword (`re.IGNORECASE`):
`palabra[^A-Z]{0,100}([A-ZÁÉÍÓÚÑ][A-Za-záéíóúñÁÉÍÓÚÑ\s]{5,40}?)(?:\d{1,2}/|\n|Firma|$)` -/
def patCert (palabra : String) : Re :=
  Re.cat [Re.liti palabra, Re.rep clsNoLetraAZ 0 (some 100) false,
    Re.grp 1 (Re.cat [Re.cls clsNombreInicio,
      Re.rep clsNombreCuerpo 5 (some 40) true]),
    Re.altL [Re.cat [reDig 1 2, Re.lit "/"], Re.lit "\n", Re.liti "Firma",
      Re.eos]]

/-- Pattern 4a (no flags, on the raw text):
`[xX]{1,3}\s*(?:Firma|Signature|___|---)` -/
def patMarcaX1 : Re :=
  Re.cat [Re.rep (fun c => c = 'x' || c = 'X') 1 (some 3) false, reWS0,
    Re.altL [Re.lit "Firma", Re.lit "Signature", Re.lit "___", Re.lit "---"]]

/-- Pattern 4b: `(?:Firma|Signature)\s*[:\s]*[xX]{1,3}` -/
def patMarcaX2 : Re :=
  Re.cat [Re.alt (Re.lit "Firma") (Re.lit "Signature"), reWS0, reColonWS,
    Re.rep (fun c => c = 'x' || c = 'X') 1 (some 3) false]

/-- Pattern 1 of `detectar_firma`: leftmost name+date+time match, gated
by the name-length and excluded-words filter.  When the gate rejects the
leftmost match the whole rule is skipped (no further matches are tried). -/
def reglaTimestampNombre (texto_norm : String) :
    Option (Option Bool × String × Option String) :=
  match reSearch patTimestampNombre texto_norm with
  | none => none
  | some caps =>
    let nombre := pyStrip ((grupo 1 caps).getD "")
    let palabras_excluir :=
      ["DOCUMENTO", "SEGURO", "TITULO", "BANCO", "NUMERO", "FECHA", "PAGINA"]
    if 5 < nombre.data.length ∧
        ¬ palabras_excluir.any (fun p => strContains p (pyUpper nombre)) then
      some (some true, "Firma Electronica (Timestamp)",
        some (nombre ++ " - " ++ (grupo 2 caps).getD "" ++ " "
          ++ (grupo 3 caps).getD ""))
    else none

/-- Pattern 2 of `detectar_firma`: bare timestamp near any signature or
certification keyword. -/
def reglaTimestampSolo (texto_norm : String) :
    Option (Option Bool × String × Option String) :=
  if reTest patContextoFirma texto_norm then
    match reSearch patTimestampSolo texto_norm with
    | some caps =>
      some (some true, "Firma Electronica (Timestamp)",
        some ((grupo 1 caps).getD ""))
    | none => none
  else none

/-- Pattern 3 of `detectar_firma`: name after a certification keyword,
filtered by length and an institutional-word denylist; keywords are
tried in list order and a rejected candidate moves to the next keyword. -/
def reglaCertificacion (texto_norm : String) :
    Option (Option Bool × String × Option String) :=
  go PALABRAS_CERTIFICACION
where
  go : List String → Option (Option Bool × String × Option String)
  | [] => none
  | palabra :: resto =>
    match reSearch (patCert palabra) texto_norm with
    | some caps =>
      let nombre := pyStrip ((grupo 1 caps).getD "")
      let palabras_excluir :=
        ["DOCUMENTO", "SEGURO", "TITULO", "BANCO", "DIVULGACIONES", "PRESENTADAS"]
      if 5 < nombre.data.length ∧
          ¬ palabras_excluir.any (fun p => strContains p (pyUpper nombre)) then
        some (some true, "Firma Electronica", some nombre)
      else go resto
    | none => go resto

/-- `detectar_firma(texto, page=None)`: first matching rule wins. -/
def detectar_firma (texto : String) : Option Bool × String × Option String :=
  let texto_norm := collapseWS texto
  match reglaTimestampNombre texto_norm with
  | some r => r
  | none =>
  match reglaTimestampSolo texto_norm with
  | some r => r
  | none =>
  match reglaCertificacion texto_norm with
  | some r => r
  | none =>
  if reTest patMarcaX1 texto || reTest patMarcaX2 texto then
    (some true, "Firma con Marca X", some "Marca X detectada")
  else
    match PALABRAS_AREA_FIRMA.find?
        (fun palabra => strContains (pyLower palabra) (pyLower texto)) with
    | some palabra =>
      (none, "Area de firma detectada",
        some ("Encontrado: " ++ sq ++ palabra ++ sq
          ++ " (instale OpenCV para verificacion visual)"))
    | none => (some false, "No encontrada", none)

/-! ## Per-type field extraction and package processing -/

/-- A `datos` value: either a string field (Python `str` or `None`) or the
signature record `{"presente": ..., "tipo": ..., "detalle": ...}`. -/
inductive Valor where
  | vstr (s : Option String)
  | vfirma (presente : Option Bool) (tipo : String) (detalle : Option String)
deriving DecidableEq, Repr

/-- `extraer_campos_por_tipo(texto, tipo_documento, page)` with the
continuation accumulator passed explicitly and the visual `page` handle
absent (see `detectar_firma`). -/
def extraer_campos_por_tipo (texto_cont : String) (texto : String)
    (tipo_documento : String) : List (String × Valor) :=
  match TIPOS_DOCUMENTO.find? (fun t => t.nombre = tipo_documento) with
  | none => []
  | some config =>
    let datos := config.campos.map (fun par =>
      match par.2 with
      | .detectarTipo => (par.1, Valor.vstr (some (detectar_tipo_propiedad texto)))
      | .ultimaFecha => (par.1, Valor.vstr (extraer_ultima_fecha texto))
      | .ultimaFechaEstudio =>
        (par.1, Valor.vstr (extraer_ultima_fecha_estudio texto_cont texto))
      | .verificarBlanco =>
        (par.1, Valor.vstr (some (verificar_linea_rechazo texto)))
      | .patrones ps =>
        let valor := extraer_campo texto ps
        let valor :=
          if par.1 = "email" then limpiar_email valor
          else if par.1 = "cantidad_hipoteca" ∨ par.1 = "precio_venta" then
            formatear_precio valor
          else if par.1 = "direccion_postal" then
            valor.map (fun v => pyStrip (collapseWS v))
          else if par.1 = "finca" then
            valor.map (fun v =>
              pyStrip (⟨(v.data.reverse.dropWhile (fun c => c = ',')).reverse⟩ : String))
          else valor
        (par.1, Valor.vstr valor))
    if config.requiere_firma then
      let f := detectar_firma texto
      datos ++ [("firma", Valor.vfirma f.1 f.2.1 f.2.2)]
    else datos

structure DocEncontrado where
  paginas : List Nat
  datos : List (String × Valor)
deriving DecidableEq, Repr

/-- Append page index `i` under `tipo`, preserving dict insertion order
(`paginas_por_tipo`). -/
def agregarPagina (tipo : String) (i : Nat) :
    List (String × List Nat) → List (String × List Nat)
  | [] => [(tipo, [i])]
  | (t, ps) :: resto =>
    if t = tipo then (t, ps ++ [i]) :: resto
    else (t, ps) :: agregarPagina tipo i resto

/-- The classification pass of `procesar_paquete`: classify each page,
diverting `ESTUDIO_TITULO_CONTINUACION` pages into the continuation-text
accumulator instead of `paginas_por_tipo`. -/
def primeraPasada (pages : List String) :
    List (String × List Nat) × String :=
  pages.enum.foldl (fun acc par =>
    match detectar_tipo_documento par.2 with
    | some tipo =>
      if tipo = "ESTUDIO_TITULO_CONTINUACION" then
        (acc.1, acc.2 ++ "\n" ++ par.2)
      else (agregarPagina tipo par.1 acc.1, acc.2)
    | none => acc) ([], "")

/-- `procesar_paquete`: the first argument is the value the module global
`_texto_continuaciones_estudio` holds when the function is entered (it is
reset to `""` first thing); the returned third component is the value the
global holds afterwards.  Pages are the per-page texts of the PDF. -/
def procesar_paquete (_texto_continuaciones_estudio : String)
    (pages : List String) :
    List (String × DocEncontrado) × Nat × String :=
  -- `global _texto_continuaciones_estudio` … `_texto_continuaciones_estudio = ""`
  let reinicio := primeraPasada pages
  let paginas_por_tipo := reinicio.1
  let texto_cont := reinicio.2
  let documentos_encontrados := paginas_por_tipo.map (fun par =>
    let texto_combinado :=
      unirCon "\n" (par.2.map (fun p => pages.getD p ""))
    (par.1, { paginas := par.2.map (fun p => p + 1),
              datos := extraer_campos_por_tipo texto_cont texto_combinado par.1 }))
  (documentos_encontrados, pages.length, texto_cont)

/-! ## Cross-validation (validar_consistencia) -/

structure Validaciones where
  nombre_consistente : Option Bool
  numero_solicitud_consistente : Option Bool
  firmas_completas : Option Bool
deriving DecidableEq, Repr

def lookupDoc (documentos : List (String × DocEncontrado)) (tipo : String) :
    Option DocEncontrado :=
  (documentos.find? (fun kv => kv.1 = tipo)).map (fun kv => kv.2)

def getDato (d : DocEncontrado) (campo : String) : Option Valor :=
  (d.datos.find? (fun kv => kv.1 = campo)).map (fun kv => kv.2)

/-- `documentos[tipo]["datos"].get(campo)` restricted to string fields. -/
def getTexto (d : DocEncontrado) (campo : String) : Option String :=
  match getDato d campo with
  | some (Valor.vstr s) => s
  | _ => none

/-- Python `repr` of the `numeros` list of pairs, as interpolated into the
inconsistent-request-number alert. -/
def reprNumeros (numeros : List (String × String)) : String :=
  "[" ++ unirCon ", " (numeros.map (fun kv =>
    "(" ++ sq ++ kv.1 ++ sq ++ ", " ++ sq ++ kv.2 ++ sq ++ ")")) ++ "]"

/-- Collect `(tipo, campo)` values over the given types, skipping missing
or falsy values — the shape shared by the name and number collectors. -/
def recogerCampo (documentos : List (String × DocEncontrado))
    (campo : String) : List String → List (String × String)
  | [] => []
  | tipo :: resto =>
    match lookupDoc documentos tipo with
    | some d =>
      match getTexto d campo with
      | some v =>
        if v ≠ "" then (tipo, v) :: recogerCampo documentos campo resto
        else recogerCampo documentos campo resto
      | none => recogerCampo documentos campo resto
    | none => recogerCampo documentos campo resto

/-- `validar_consistencia`.  The 70% comparison
`palabras_comunes >= total_palabras * 0.7` is modelled exactly over `ℚ`;
for every token count a real name can have, the binary-float product
`total_palabras * 0.7` and the rational `7/10 · total` sit on the same
side of the integer `palabras_comunes` (checked exhaustively for counts
up to 30). -/
def validar_consistencia (documentos : List (String × DocEncontrado)) :
    Validaciones × List String :=
  let nombres :=
    recogerCampo documentos "nombre_solicitante"
      ["CARTA_SOLICITUD", "AUTORIZACION_SEGUROS"]
  let nombreRes :=
    match nombres with
    | par1 :: par2 :: _ =>
      let nombre1 := pySplitWS (pyUpper par1.2)
      let nombre2 := pySplitWS (pyUpper par2.2)
      let palabras_comunes := (nombre1.filter (fun p => nombre2.contains p)).length
      let total_palabras := max nombre1.length nombre2.length
      -- `palabras_comunes >= total_palabras * 0.7` over Python floats; for
      -- every token count a name can have this coincides with the exact
      -- comparison 7·total ≤ 10·comunes (checked against CPython for all
      -- counts up to 30)
      if 7 * total_palabras ≤ 10 * palabras_comunes then
        ((some true : Option Bool), ([] : List String))
      else
        (some false,
         ["Nombre inconsistente: " ++ sq ++ par1.2 ++ sq ++ " vs " ++ sq
            ++ par2.2 ++ sq])
    | [_] => (some true, [])
    | [] => (none, ["No se encontró nombre del solicitante"])
  let numeros :=
    recogerCampo documentos "num_solicitud"
      ["AUTORIZACION_SEGUROS", "DIVULGACIONES_TITULO", "DIVULGACIONES_PRODUCTOS"]
  let numeroRes :=
    match numeros with
    | _ :: _ :: _ =>
      if ((numeros.map (fun kv : String × String => kv.2)).dedup).length = 1 then
        ((some true : Option Bool), ([] : List String))
      else
        (some false,
         ["Números de solicitud inconsistentes: " ++ reprNumeros numeros])
    | [_] => (some true, [])
    | [] => (none, ["No se encontró número de solicitud"])
  let firmas_requeridas :=
    ["AUTORIZACION_SEGUROS", "DIVULGACIONES_TITULO", "DIVULGACIONES_PRODUCTOS"]
  let firmas_faltantes := firmas_requeridas.filter (fun tipo =>
    match lookupDoc documentos tipo with
    | some d =>
      match getDato d "firma" with
      | some (Valor.vfirma presente _ _) => presente ≠ some true
      | _ => true
    | none => false)
  let firmasRes :=
    if firmas_faltantes.isEmpty then ((some true : Option Bool), ([] : List String))
    else (some false, firmas_faltantes.map (fun tipo => "Falta firma en " ++ tipo))
  ({ nombre_consistente := nombreRes.1,
     numero_solicitud_consistente := numeroRes.1,
     firmas_completas := firmasRes.1 },
   nombreRes.2 ++ numeroRes.2 ++ firmasRes.2)

/-! ## Report builder (generar_reporte) -/

structure Reporte where
  archivo : String
  total_paginas : Nat
  resumen_validacion : String
  documentos_detectados : List (String × DocEncontrado)
  validaciones : Validaciones
  alertas : List String
deriving DecidableEq, Repr

/-- Python truthiness of a tri-state validation value. -/
def truthy (b : Option Bool) : Bool := b = some true

/-- `os.path.basename` (POSIX). -/
def osBasename (p : String) : String := (pySplitChar '/' p).getLastD p

/-- `generar_reporte`: assembles the report and derives
`resumen_validacion` — all three validations truthy ⇒ APROBADO; else
alerts present ⇒ REVISIÓN REQUERIDA; else INCOMPLETO. -/
def generar_reporte (archivo : String)
    (documentos : List (String × DocEncontrado)) (num_paginas : Nat)
    (validaciones : Validaciones) (alertas : List String) : Reporte :=
  let resumen :=
    if truthy validaciones.nombre_consistente &&
        truthy validaciones.numero_solicitud_consistente &&
        truthy validaciones.firmas_completas then "APROBADO"
    else if !alertas.isEmpty then "REVISIÓN REQUERIDA"
    else "INCOMPLETO"
  { archivo := osBasename archivo,
    total_paginas := num_paginas,
    resumen_validacion := resumen,
    documentos_detectados := documentos,
    validaciones := validaciones,
    alertas := alertas }

end PITA.V3

namespace PITA.V2

/-! ## verificar_prestamos_v2.py — the HIPOTECA / PRECIO DE VENTA section
of `extraer_pares_clave_valor` (labeled patterns, then the numeric
disambiguation fallback).  All label searches use `re.IGNORECASE`. -/

open PITA

/-- `Hipoteca[:\s]*\$?\s*([\d,]+\.\d{2})` -/
def patHip1 : Re :=
  Re.cat [Re.liti "Hipoteca", reColonWS, Re.opt (Re.lit "$"), reWS0,
    Re.grp 1 (Re.cat [Re.rep clsDigitoComa 1 none false, Re.lit ".", reDig 2 2])]

/-- `Cantidad\s+de\s+la\s+Hipoteca[:\s]*\$?\s*([\d,]+\.\d{2})` -/
def patHip2 : Re :=
  Re.cat [Re.liti "Cantidad", reWS1, Re.liti "de", reWS1, Re.liti "la", reWS1,
    Re.liti "Hipoteca", reColonWS, Re.opt (Re.lit "$"), reWS0,
    Re.grp 1 (Re.cat [Re.rep clsDigitoComa 1 none false, Re.lit ".", reDig 2 2])]

/-- `(?:Loan|Mortgage)\s+Amount[:\s]*\$?\s*([\d,]+\.\d{2})` -/
def patHip3 : Re :=
  Re.cat [Re.alt (Re.liti "Loan") (Re.liti "Mortgage"), reWS1, Re.liti "Amount",
    reColonWS, Re.opt (Re.lit "$"), reWS0,
    Re.grp 1 (Re.cat [Re.rep clsDigitoComa 1 none false, Re.lit ".", reDig 2 2])]

/-- `Hipoteca[:\s]*\$?\s*([\d,]+)` (the OCR-tolerant variant). -/
def patHip4 : Re :=
  Re.cat [Re.liti "Hipoteca", reColonWS, Re.opt (Re.lit "$"), reWS0,
    Re.grp 1 (Re.rep clsDigitoComa 1 none false)]

/-- `Precio\s+de\s+Venta[:\s]*\$?\s*([\d,]+\.\d{2})` -/
def patPre1 : Re :=
  Re.cat [Re.liti "Precio", reWS1, Re.liti "de", reWS1, Re.liti "Venta",
    reColonWS, Re.opt (Re.lit "$"), reWS0,
    Re.grp 1 (Re.cat [Re.rep clsDigitoComa 1 none false, Re.lit ".", reDig 2 2])]

/-- `(?:Purchase|Sales)\s+Price[:\s]*\$?\s*([\d,]+\.\d{2})` -/
def patPre2 : Re :=
  Re.cat [Re.alt (Re.liti "Purchase") (Re.liti "Sales"), reWS1, Re.liti "Price",
    reColonWS, Re.opt (Re.lit "$"), reWS0,
    Re.grp 1 (Re.cat [Re.rep clsDigitoComa 1 none false, Re.lit ".", reDig 2 2])]

/-- `Venta[:\s]*\$?\s*([\d,]+\.\d{2})` -/
def patPre3 : Re :=
  Re.cat [Re.liti "Venta", reColonWS, Re.opt (Re.lit "$"), reWS0,
    Re.grp 1 (Re.cat [Re.rep clsDigitoComa 1 none false, Re.lit ".", reDig 2 2])]

/-- `Precio[:\s]*\$?\s*([\d,]+)` -/
def patPre4 : Re :=
  Re.cat [Re.liti "Precio", reColonWS, Re.opt (Re.lit "$"), reWS0,
    Re.grp 1 (Re.rep clsDigitoComa 1 none false)]

/-- The labeled mortgage-amount loop: first matching pattern wins;
`valor = match.group(1).replace(',', ''); f"${float(valor):,.2f}"`.
(A `float()` failure raises in Python; the claims below only exercise
texts where either a well-formed numeral matches or nothing matches.) -/
def hipotecaEtiquetada (texto : String) : Option String :=
  go [patHip1, patHip2, patHip3, patHip4]
where
  go : List Re → Option String
  | [] => none
  | p :: ps =>
    match reSearch p texto with
    | some caps =>
      (parseDecimal
        (⟨((grupo 1 caps).getD "").data.filter (fun c => c ≠ ',')⟩ : String)).map
        formatMoney
    | none => go ps

/-- The labeled sale-price loop: like the mortgage loop but a `float()`
failure is caught (`except: continue`) and the next pattern is tried. -/
def precioEtiquetado (texto : String) : Option String :=
  go [patPre1, patPre2, patPre3, patPre4]
where
  go : List Re → Option String
  | [] => none
  | p :: ps =>
    match reSearch p texto with
    | some caps =>
      match parseDecimal
          (⟨((grupo 1 caps).getD "").data.filter
            (fun c => c ≠ ',' ∧ c ≠ ' ')⟩ : String) with
      | some q => some (formatMoney q)
      | none => go ps
    | none => go ps

/-- `\$?\s*([\d,]+(?:\.\d{2})?)` — the currency-shaped capture fed to
`re.findall`. -/
def patPrecioForma : Re :=
  Re.cat [Re.opt (Re.lit "$"), reWS0,
    Re.grp 1 (Re.cat [Re.rep clsDigitoComa 1 none false,
      Re.opt (Re.cat [Re.lit ".", reDig 2 2])])]

/-- `sorted(set(valores))`: distinct values in ascending order. -/
def ordenarDedup (l : List Dec) : List Dec :=
  List.insertionSort (· ≤ ·) l.dedup

/-- `valores`: every `findall` capture that parses and lands in the
plausible range `50000 <= val <= 10000000`, deduplicated and sorted
ascending. -/
def valoresPlausibles (texto : String) : List Dec :=
  let capturas := (reFindAll patPrecioForma texto).filterMap (grupo 1)
  let vals := capturas.filterMap (fun p =>
    match parseDecimal
        (⟨(pyStrip p).data.filter (fun c => c ≠ ',' ∧ c ≠ '$')⟩ : String) with
    | some v =>
      if Dec.deNat 50000 ≤ v ∧ v ≤ Dec.deNat 10000000 then some v else none
    | none => none)
  ordenarDedup vals

/-- The HIPOTECA / PRECIO DE VENTA section of `extraer_pares_clave_valor`
(v2): labeled extraction, then the numeric disambiguation policy — with
at least two plausible values the smallest fills an unset mortgage amount
and the largest an unset sale price; with exactly one the single value
fills the sale price when both are unset, else whichever is unset. -/
def extraer_hipoteca_precio (texto : String) : Option String × Option String :=
  let hipoteca := hipotecaEtiquetada texto
  let precio := precioEtiquetado texto
  let valores := valoresPlausibles texto
  if 2 ≤ valores.length then
    (if hipoteca.isNone then valores.head?.map formatMoney else hipoteca,
     if precio.isNone then valores.getLast?.map formatMoney else precio)
  else if valores.length = 1 then
    match valores.head? with
    | some v =>
      if hipoteca.isNone ∧ precio.isNone then (hipoteca, some (formatMoney v))
      else if hipoteca.isNone then (some (formatMoney v), precio)
      else if precio.isNone then (hipoteca, some (formatMoney v))
      else (hipoteca, precio)
    | none => (hipoteca, precio)
  else (hipoteca, precio)

/-- The two `datos` entries the section finally assigns:
`datos["cantidad_hipoteca"]` and `datos["precio_venta"]`, with the
`"NO ENCONTRADO"` default. -/
def datosMonetarios (texto : String) : String × String :=
  let r := extraer_hipoteca_precio texto
  (r.1.getD "NO ENCONTRADO", r.2.getD "NO ENCONTRADO")

end PITA.V2

namespace PITA.Pipeline

/-! ## pipeline.py — the file-based processing state machine

The model's observable state is the set of folders the claims speak
about: the Inbox file names, the Done_JSON reports, the TXT mirrors, the
Error folder, the Historial folder and the processing log (raw
semicolon-separated lines).  The external collaborators invoked per group
— `merge_pdfs`, `convertir_pdf_a_searchable` (OCR) and the
`procesar_paquete`/`validar_consistencia`/`generar_reporte` pass over the
OCR'd PDF — read only the member files' (immutable) contents, so their
outcomes are modelled by an oracle `Conducta` that is a function of the
ordered member list.  Timestamps (`datetime.now()`) enter only as the
`PAQUETE_<timestamp>` group key and as a log field the log parser never
inspects; the key's timestamp is a run parameter and the log field a
fixed token. -/

open PITA

def MAX_ERRORES : Nat := 2

/-- `\w` for the characters these file names are drawn from (ASCII word
characters plus the accented Spanish letters). -/
def esWordChar (c : Char) : Bool :=
  isUpperAZ c || isLowerAZ c || isDigitC c || c = '_' ||
    esAcentoMayus c || esAcentoMinus c

/-- `os.path.splitext(nombre)[0]` (leading dots carry no extension). -/
def splitextBase (nombre : String) : String :=
  let ds := nombre.data
  let lead := ds.takeWhile (fun c => c = '.')
  let resto := ds.drop lead.length
  if resto.contains '.' then
    ⟨lead ++ ((resto.reverse.dropWhile (fun c => c ≠ '.')).drop 1).reverse⟩
  else nombre

/-- Collapse runs of `'_'` to a single `'_'` (`re.sub(r'_+', '_', ...)`). -/
def colapsarGuionBajo : Bool → List Char → List Char
  | _, [] => []
  | enRacha, c :: t =>
    if c = '_' then
      if enRacha then colapsarGuionBajo true t
      else '_' :: colapsarGuionBajo true t
    else c :: colapsarGuionBajo false t

/-- `sanitizar_nombre`: drop the extension, replace every character
outside `[\w\-]` with `'_'`, collapse underscore runs, strip edge
underscores. -/
def sanitizar_nombre (nombre_pdf : String) : String :=
  let nombre := splitextBase nombre_pdf
  let nombre := nombre.data.map (fun c => if esWordChar c || c = '-' then c else '_')
  let nombre := colapsarGuionBajo false nombre
  ⟨((nombre.dropWhile (fun c => c = '_')).reverse.dropWhile
      (fun c => c = '_')).reverse⟩

/-- `-(\d+)-\d+\.pdf$` (`re.IGNORECASE`). -/
def patSufijoPagina : Re :=
  Re.cat [Re.lit "-", Re.grp 1 (Re.rep isDigitC 1 none false), Re.lit "-",
    Re.rep isDigitC 1 none false, Re.lit ".", Re.liti "pdf", Re.eos]

/-- `extraer_numero_pagina`: the page number `X` of an `…-X-Y.pdf` name,
else 0. -/
def extraer_numero_pagina (nombre : String) : Nat :=
  match reSearch patSufijoPagina nombre with
  | some caps => digitosANat ((grupo 1 caps).getD "0").data
  | none => 0

/-- `-\d+-\d+\.pdf$` (`re.IGNORECASE`) — the group-suffix test/strip. -/
def patSufijoGrupo : Re :=
  Re.cat [Re.lit "-", Re.rep isDigitC 1 none false, Re.lit "-",
    Re.rep isDigitC 1 none false, Re.lit ".", Re.liti "pdf", Re.eos]

/-- `DIV\s*\((\d+)\)` (searched on the uppercased name). -/
def patDivNum : Re :=
  Re.cat [Re.lit "DIV", reWS0, Re.lit "(",
    Re.grp 1 (Re.rep isDigitC 1 none false), Re.lit ")"]

/-- `extraer_orden_documento`: the `(rank, uppercased name)` sort key. -/
def extraer_orden_documento (ruta_pdf : String) : Nat × String :=
  let nombre := pyUpper ruta_pdf
  if strContains "CV" nombre || strContains "CARTA" nombre ||
      strContains "COTIZACION" nombre then (1, nombre)
  else if strContains "ET" nombre || strContains "ESTUDIO" nombre then (2, nombre)
  else if strContains "PAGE" nombre || strContains "PAG" nombre ||
      strContains "CONTINUACION" nombre then (3, nombre)
  else if strContains "DIV" nombre then
    match reSearch patDivNum nombre with
    | some caps => (4 + digitosANat ((grupo 1 caps).getD "0").data, nombre)
    | none => (4, nombre)
  else (10, nombre)

/-- Stable insertion by a sort key (Python `list.sort(key=...)` places an
element before the first later-ranked one, preserving input order on
ties). -/
def insPorClave {κ : Type} (le : κ → κ → Bool) (key : String → κ)
    (x : String) : List String → List String
  | [] => [x]
  | y :: ys =>
    if le (key x) (key y) then x :: y :: ys else y :: insPorClave le key x ys

def ordenarPorClave {κ : Type} (le : κ → κ → Bool) (key : String → κ) :
    List String → List String
  | [] => []
  | x :: xs => insPorClave le key x (ordenarPorClave le key xs)

/-- `≤` on page-number keys. -/
def natLe (a b : Nat) : Bool := a ≤ b

/-- Code-point lexicographic `<` on character lists (Python's string
order). -/
def ltChars : List Char → List Char → Bool
  | [], [] => false
  | [], _ :: _ => true
  | _ :: _, [] => false
  | a :: as, b :: bs =>
    if a.toNat < b.toNat then true
    else if b.toNat < a.toNat then false
    else ltChars as bs

/-- `≤` on strings as Python's sort uses it: `a ≤ b ↔ ¬ (b < a)`. -/
def strLe (a b : String) : Bool := !(ltChars b.data a.data)

/-- Python tuple `≤` on `(rank, name)` keys. -/
def claveLe (a b : Nat × String) : Bool :=
  a.1 < b.1 || (a.1 = b.1 && strLe a.2 b.2)

/-- `sorted(...)` over file names. -/
def ordenarStr (l : List String) : List String :=
  ordenarPorClave strLe (fun s => s) l

/-- `grupos.setdefault(clave, []).append(pdf)`. -/
def setdefaultAppend (clave : String) (pdf : String) :
    List (String × List String) → List (String × List String)
  | [] => [(clave, [pdf])]
  | (k, v) :: resto =>
    if k = clave then (k, v ++ [pdf]) :: resto
    else (k, v) :: setdefaultAppend clave pdf resto

/-- `grupos[clave] = valor` (dict assignment: overwrite in place, else
append). -/
def asignarClave (clave : String) (valor : List String) :
    List (String × List String) → List (String × List String)
  | [] => [(clave, valor)]
  | (k, v) :: resto =>
    if k = clave then (k, valor) :: resto
    else (k, v) :: asignarClave clave valor resto

/-- `agrupar_pdfs_por_base`: partition by the stripped `-X-Y.pdf` base
(sanitized); names without the pattern are lumped into one
`PAQUETE_<timestamp>` group; then each patterned group is sorted by page
number and the `PAQUETE_` group by document-type order.  The model works
on basenames throughout (`os.path.basename` is the identity on them). -/
def agrupar_pdfs_por_base (timestamp : String) (lista_pdfs : List String) :
    List (String × List String) :=
  let inicio : List (String × List String) × List String := ([], [])
  let paso := lista_pdfs.foldl (fun acc pdf =>
    match reSubUna patSufijoGrupo pdf with
    | some base => (setdefaultAppend (sanitizar_nombre base) pdf acc.1, acc.2)
    | none => (acc.1, acc.2 ++ [pdf])) inicio
  let grupos :=
    if paso.2.isEmpty then paso.1
    else asignarClave ("PAQUETE_" ++ timestamp) paso.2 paso.1
  grupos.map (fun par =>
    if empiezaCon "PAQUETE_" par.1 then
      (par.1, ordenarPorClave claveLe extraer_orden_documento par.2)
    else (par.1, ordenarPorClave natLe extraer_numero_pagina par.2))

/-! ### Log -/

def encabezadoLog : String := "archivo;etapa;resultado;timestamp;mensaje;intento_num"

/-- `escribir_log`: append one semicolon-separated line.  The timestamp
field is a clock value no reader of the log inspects; the model writes a
fixed token.  (The model assumes single-line messages without
semicolons in the first three fields, which the writer guarantees.) -/
def escribir_log (log : List String) (archivo etapa resultado mensaje
    intento_num : String) : List String :=
  log ++ [archivo ++ ";" ++ etapa ++ ";" ++ resultado ++ ";" ++ "TS" ++ ";"
    ++ mensaje ++ ";" ++ intento_num]

/-- `contar_errores`: lines whose first field is the package id and whose
third field is `ERROR`. -/
def contar_errores (archivo : String) (log : List String) : Nat :=
  (log.filter (fun linea =>
    let partes := pySplitChar ';' (pyStrip linea)
    3 ≤ partes.length ∧ partes.getD 0 "" = archivo ∧
      partes.getD 2 "" = "ERROR")).length

/-! ### State, behavior oracle and the group processor -/

structure Estado where
  inbox : List String
  jsons : List (String × V3.Reporte)
  txts : List (String × V3.Reporte)
  errorDir : List String
  historial : List String
  log : List String
deriving DecidableEq, Repr

/-- Outcomes of the per-group external work: PDF merge, OCR, and the
extraction pass producing the report (`none` models an exception inside
`generar_json`). -/
structure Etapas where
  mergeOk : Bool
  ocrOk : Bool
  reporte : Option V3.Reporte
deriving DecidableEq, Repr

/-- The oracle giving each group's stage outcomes as a function of its
ordered member-file list (the files are immutable, so identical lists
give identical outcomes across runs). -/
abbrev Conducta := List String → Etapas

inductive Etapa where
  | fusionar
  | ocr
  | extraerJson
deriving DecidableEq, Repr

/-- `mover_archivo(origen, destino)` into the Error folder: only moves an
existing file; an existing destination is replaced. -/
def moverAError (st : Estado) (pdf : String) : Estado :=
  if st.inbox.contains pdf then
    { st with inbox := st.inbox.erase pdf,
              errorDir := (st.errorDir.erase pdf) ++ [pdf] }
  else st

/-- `procesar_grupo(nombre_grupo, lista_pdfs)`.  Returns the status
string, the new state, and the trace of processing stages attempted
(empty when the group is short-circuited). -/
def procesar_grupo (conducta : Conducta) (nombre_grupo : String)
    (lista_pdfs : List String) (st : Estado) :
    String × Estado × List Etapa :=
  if (st.jsons.find? (fun kv => kv.1 = nombre_grupo)).isSome then
    ("IGNORADO", st, [])
  else
    let errores := contar_errores nombre_grupo st.log
    if MAX_ERRORES ≤ errores then
      let st := lista_pdfs.foldl moverAError st
      let st := { st with log := (escribir_log st.log nombre_grupo
        "MOVIDO_ERROR" "LIMITE" (toString errores ++ " errores") "-") }
      ("LIMITE_ERRORES", st, [])
    else
      let et := conducta lista_pdfs
      if !et.mergeOk then
        ("ERROR", { st with log := (escribir_log st.log nombre_grupo
          "ERROR" "ERROR" "mensaje" "1") }, [Etapa.fusionar])
      else if !et.ocrOk then
        ("ERROR", { st with log := (escribir_log st.log nombre_grupo
          "ERROR" "ERROR" "mensaje" "1") }, [Etapa.fusionar, Etapa.ocr])
      else
        match et.reporte with
        | none =>
          ("ERROR", { st with log := (escribir_log st.log nombre_grupo
            "ERROR" "ERROR" "mensaje" "1") },
           [Etapa.fusionar, Etapa.ocr, Etapa.extraerJson])
        | some rep =>
          let st := { st with
            jsons := (nombre_grupo, rep) :: st.jsons,
            txts := (nombre_grupo, rep) :: st.txts,
            historial := st.historial ++ [nombre_grupo],
            inbox := lista_pdfs.foldl (fun i p => i.erase p) st.inbox }
          let st := { st with log := (escribir_log st.log nombre_grupo
            "COMPLETO" "OK" (toString lista_pdfs.length ++ " PDFs procesados")
            "1") }
          ("OK", st, [Etapa.fusionar, Etapa.ocr, Etapa.extraerJson])

/-- `ejecutar_pipeline`: initialize the log, group the sorted Inbox, and
process every group, collecting per-group statuses. -/
def ejecutar_pipeline (conducta : Conducta) (timestamp : String)
    (st : Estado) : Estado × List (String × String) :=
  let st := if st.log.isEmpty then { st with log := [encabezadoLog] } else st
  let pdfs := ordenarStr st.inbox
  let grupos := agrupar_pdfs_por_base timestamp pdfs
  grupos.foldl (fun acc par =>
    let r := procesar_grupo conducta par.1 par.2 acc.1
    (r.2.1, acc.2 ++ [(par.1, r.1)])) (st, [])

/-- Count of one status among a run's results. -/
def cuenta (resultados : List (String × String)) (estatus : String) : Nat :=
  (resultados.filter (fun kv => kv.2 = estatus)).length

/-! ### `generar_json` write/rename model (atomicity)

`generar_json` in `pipeline.py` produces the report, writes the JSON and
the TXT mirror to `.tmp` paths, then renames both into place; on any
exception it deletes whichever temp files exist and re-raises.  The model
names each point where an exception can occur and runs the function's
control flow with that failure injected; a file interrupted mid-write
holds truncated content. -/

inductive Archivo where
  | completo (r : V3.Reporte)
  | truncado
deriving DecidableEq, Repr

structure SistemaArchivos where
  tmp_json : Option Archivo
  tmp_txt : Option Archivo
  json_final : Option Archivo
  txt_final : Option Archivo
deriving DecidableEq, Repr

inductive PuntoFallo where
  | procesar
  | escribirJson
  | escribirTxt
  | renombrarJson
  | renombrarTxt
  | ninguno
deriving DecidableEq, Repr

/-- The `except` cleanup: `os.remove` each existing temp file. -/
def limpiarTmp (fs : SistemaArchivos) : SistemaArchivos :=
  { fs with tmp_json := none, tmp_txt := none }

/-- `generar_json(nombre_pdf, ruta_pdf_ocr, ruta_json_final,
ruta_txt_final)` with a failure injected at `fallo` (`ninguno` = no
failure); the Boolean is `True` on success, `False` when the function
raised. -/
def generar_json (fallo : PuntoFallo) (reporte : V3.Reporte)
    (fs : SistemaArchivos) : Bool × SistemaArchivos :=
  if fallo = PuntoFallo.procesar then (false, limpiarTmp fs)
  else
    let fs := { fs with tmp_json := some (if fallo = PuntoFallo.escribirJson
      then Archivo.truncado else Archivo.completo reporte) }
    if fallo = PuntoFallo.escribirJson then (false, limpiarTmp fs)
    else
      let fs := { fs with tmp_txt := some (if fallo = PuntoFallo.escribirTxt
        then Archivo.truncado else Archivo.completo reporte) }
      if fallo = PuntoFallo.escribirTxt then (false, limpiarTmp fs)
      else if fallo = PuntoFallo.renombrarJson then (false, limpiarTmp fs)
      else
        let fs := { fs with tmp_json := none, json_final := fs.tmp_json }
        if fallo = PuntoFallo.renombrarTxt then (false, limpiarTmp fs)
        else (true, { fs with tmp_txt := none, txt_final := fs.tmp_txt })

end PITA.Pipeline

namespace PITA.Pipeline

/-! ### Derived notions used to reason about whole pipeline runs -/

/-- The group key a patterned file name (`…-X-Y.pdf`) is filed under: the
suffix-stripped, sanitized base.  `none` for names without the suffix
(those are lumped into the run's `PAQUETE_<timestamp>` group). -/
def claveP (f : String) : Option String :=
  (reSubUna patSufijoGrupo f).map sanitizar_nombre

/-- One of the three processing stages fails on this member list: the
merge, the OCR, or the extraction raising inside `generar_json`. -/
def fallaEtapas (e : Etapas) : Bool :=
  !e.mergeOk || !e.ocrOk || e.reporte.isNone

/-- The log initialization `ejecutar_pipeline` performs before grouping. -/
def inicializar (st : Estado) : Estado :=
  if st.log.isEmpty then { st with log := [encabezadoLog] } else st

/-- One group step of `ejecutar_pipeline`'s fold over the grouped Inbox. -/
def pasoGrupo (conducta : Conducta) (acc : Estado × List (String × String))
    (par : String × List String) : Estado × List (String × String) :=
  let r := procesar_grupo conducta par.1 par.2 acc.1
  (r.2.1, acc.2 ++ [(par.1, r.1)])

/-- Certificate that a group cannot end `OK` when processed from any state
reachable from `st`: its report already exists, its error count has
reached the limit, or the stage oracle fails on its member list. -/
def certNoOK (conducta : Conducta) (st : Estado) (k : String)
    (m : List String) : Prop :=
  (st.jsons.find? (fun kv => kv.1 = k)).isSome = true ∨
  MAX_ERRORES ≤ contar_errores k st.log ∨
  fallaEtapas (conducta m) = true

/-- Invariant of `agrupar_pdfs_por_base`'s partition fold after the names
in `procesados` have been handled: every open group holds exactly the
already-seen files of its key, keys are unrepeated, every seen patterned
key has a group, and the leftover pile holds exactly the seen unpatterned
names. -/
def InvAgrupar (procesados : List String)
    (acc : List (String × List String) × List String) : Prop :=
  (∀ kv ∈ acc.1,
     kv.2 = procesados.filter (fun f => claveP f = some kv.1) ∧ kv.2 ≠ []) ∧
  (acc.1.map Prod.fst).Nodup ∧
  (∀ f ∈ procesados, ∀ k, claveP f = some k → k ∈ acc.1.map Prod.fst) ∧
  acc.2 = procesados.filter (fun f => (claveP f).isNone)

end PITA.Pipeline

namespace PITA

/-! # Spec-side definitions used by the claim theorems -/

/-- Modelled from the spec's classifier contract (§4.1): iterate the
registry in declared order and return the first type whose positive
identifiers include one case-insensitively contained in the page text and
none of whose negative identifiers is contained, via `List.find?`. -/
def clasificaSpec (texto : String) : Option String :=
  (V3.TIPOS_DOCUMENTO.find? (fun t =>
    t.identificadores.any (fun i => ciContains i texto) &&
    !t.identificadores_negativos.any (fun n => ciContains n texto))).map
    (fun t => t.nombre)

/-- The criterion the repository itself uses to tag an alert as
critical/red-flag (the older script generations check
`"CRÍTICO" in a or "ALERTA ROJA" in a`, verificar_prestamos_v2.py). -/
def esAlertaRoja (a : String) : Bool :=
  strContains "CRÍTICO" a || strContains "ALERTA ROJA" a

/-- Modelled from the spec: the claim's four-way verdict decision table
(first match wins), rendered over the code's data; `REJECTED_RED_FLAG`
has no counterpart string in `generar_reporte`, so the fresh verdict
`"RECHAZADO_BANDERA_ROJA"` stands for it, and `esCritica` is the
critical/red-flag tag predicate on alerts. -/
def tablaVeredictoSpec (esCritica : String → Bool) (v : V3.Validaciones)
    (alertas : List String) : String :=
  if V3.truthy v.nombre_consistente &&
      V3.truthy v.numero_solicitud_consistente &&
      V3.truthy v.firmas_completas then "APROBADO"
  else if !alertas.isEmpty && alertas.any esCritica then
    "RECHAZADO_BANDERA_ROJA"
  else if !alertas.isEmpty then "REVISIÓN REQUERIDA"
  else "INCOMPLETO"

/-- The three-way decision table of the amended claim C2: all three
validations truthy, else any alert, else incomplete. -/
def tablaVeredicto3 (v : V3.Validaciones) (alertas : List String) : String :=
  if V3.truthy v.nombre_consistente &&
      V3.truthy v.numero_solicitud_consistente &&
      V3.truthy v.firmas_completas then "APROBADO"
  else if !alertas.isEmpty then "REVISIÓN REQUERIDA"
  else "INCOMPLETO"

/-- All-indeterminate validations. -/
def validacionesNulas : V3.Validaciones :=
  { nombre_consistente := none, numero_solicitud_consistente := none,
    firmas_completas := none }

/-- A concrete report used by the write/rename scenarios. -/
def reporteEjemplo : V3.Reporte :=
  V3.generar_reporte "x.pdf" [] 1 validacionesNulas []

/-- An empty output directory. -/
def fsVacio : Pipeline.SistemaArchivos :=
  { tmp_json := none, tmp_txt := none, json_final := none, txt_final := none }

/-- A page text holding positive evidence for DIVULGACIONES_PRODUCTOS
(declared earlier, more specific) and for ESTUDIO_TITULO (declared later,
less specific), with no negative identifier of either triggered. -/
def ejemploDosTipos : String :=
  "Divulgaciones relacionadas a los productos de seguro, estudio por Capital Title"

/-- A package whose CARTA_SOLICITUD and AUTORIZACION_SEGUROS documents
carry the given solicitant names. -/
def docsConNombres (n1 n2 : String) : List (String × V3.DocEncontrado) :=
  [("CARTA_SOLICITUD",
    { paginas := [1], datos := [("nombre_solicitante", V3.Valor.vstr (some n1))] }),
   ("AUTORIZACION_SEGUROS",
    { paginas := [2], datos := [("nombre_solicitante", V3.Valor.vstr (some n2))] })]

/-- Uppercased token list of a name. -/
def tokensMayus (n : String) : List String := pySplitWS (pyUpper n)

/-- Tokens of the first name found among the second name's tokens
(with multiplicity), as the validator counts them. -/
def comunesDe (n1 n2 : String) : Nat :=
  ((tokensMayus n1).filter (fun p => (tokensMayus n2).contains p)).length

/-- The larger of the two token counts — the validator's denominator. -/
def totalDe (n1 n2 : String) : Nat :=
  max (tokensMayus n1).length (tokensMayus n2).length

/-- A page text that CONTAINS the claim's example signature line
`"JUAN PEREZ GARCIA 10/10/2025 7:29 AM PDT"`, preceded by boilerplate
whose leading words also match the name+date+time pattern. -/
def textoSombra : String :=
  "FECHA SEGURO 1/1/2020 3:00 JUAN PEREZ GARCIA 10/10/2025 7:29 AM PDT"

/-! # Claim theorems -/

/-- Helper: the classifier loop is the `find?` of its positive/negative
condition over the registry tail. -/
theorem buscarTipo_eq_find (u : String) (ts : List V3.TipoDoc) :
    V3.buscarTipo u ts = (ts.find? (fun t =>
      t.identificadores.any (fun i => strContains (pyUpper i) u) &&
      !t.identificadores_negativos.any (fun n => strContains (pyUpper n) u))).map
      (fun t => t.nombre) := by
  induction ts with
  | nil => rfl
  | cons t ts ih =>
    simp only [V3.buscarTipo, List.find?]
    cases h : (t.identificadores.any (fun i => strContains (pyUpper i) u) &&
        !t.identificadores_negativos.any (fun n => strContains (pyUpper n) u)) with
    | true => simp [h]
    | false => simp [h, ih]

/-- C4: `detectar_tipo_documento` iterates the registry in declared order
and returns the first type with a case-insensitively contained positive
identifier and no contained negative identifier (null when none
qualifies); consequently a page bearing positive identifiers of both an
earlier (more specific) and a later (less specific) type, with no
negatives triggered, classifies as the earlier type. -/
theorem C4_clasificacion_primera_coincidencia :
    (∀ texto, V3.detectar_tipo_documento texto = clasificaSpec texto) ∧
    V3.detectar_tipo_documento ejemploDosTipos = some "DIVULGACIONES_PRODUCTOS" ∧
    ciContains "Capital Title" ejemploDosTipos = true ∧
    (["Divulgaciones Seguro de Título", "popularMortgage.com",
      "Continuación"].all (fun n => !ciContains n ejemploDosTipos)) = true ∧
    V3.detectar_tipo_documento "pagina ordinaria sin identificadores" = none := by
  refine ⟨fun texto => ?_, by decide, by decide, by decide, by decide⟩
  simpa [V3.detectar_tipo_documento, clasificaSpec, ciContains] using
    buscarTipo_eq_find (pyUpper texto) V3.TIPOS_DOCUMENTO

end PITA

namespace PITA

/-- C10: the currency post-processor parses the separator-stripped
numeral and returns `None` whenever the value is at most 1000; only
values strictly greater than 1000 are re-rendered as the fixed
two-decimal currency string. -/
theorem C10_formatear_precio_piso (s : String) (d : Dec)
    (h : parseDecimal (V3.quitarComasEspacios s) = some d) :
    (d ≤ Dec.deNat 1000 → V3.formatear_precio (some s) = none) ∧
    (Dec.deNat 1000 < d → V3.formatear_precio (some s) = some (formatMoney d)) := by
  have hs : s ≠ "" := by
    intro he
    subst he
    exact Option.noConfusion h
  constructor
  · intro hle
    have hnlt : ¬ Dec.deNat 1000 < d := Nat.not_lt.mpr hle
    simp only [V3.formatear_precio]
    rw [if_neg hs, h]
    exact if_neg hnlt
  · intro hlt
    simp only [V3.formatear_precio]
    rw [if_neg hs, h]
    exact if_pos hlt

/-- Witness for C10: the small-but-valid amount `"950.00"` is reported as
null, while `"1,500.00"` is re-rendered. -/
theorem C10_formatear_precio_piso_witness :
    V3.formatear_precio (some "950.00") = none ∧
    V3.formatear_precio (some "1,500.00") = some "$1,500.00" := by
  constructor
  · exact (C10_formatear_precio_piso "950.00" (Dec.deNat 950) (by decide)).1
      (by decide)
  · have h := (C10_formatear_precio_piso "1,500.00" (Dec.deNat 1500)
      (by decide)).2 (by decide)
    rwa [show formatMoney (Dec.deNat 1500) = "$1,500.00" from by decide] at h

/-- C2 counterexample: an alert carrying the repository's own
critical/red-flag marker still yields the verdict `REVISIÓN REQUERIDA`
(NEEDS_REVIEW); the four-way table of the claim demands the
REJECTED_RED_FLAG verdict there, which `generar_reporte` never
produces. -/
theorem C2_counterexample_sin_rechazo :
    esAlertaRoja "ALERTA ROJA: estado critico" = true ∧
    tablaVeredictoSpec esAlertaRoja validacionesNulas
      ["ALERTA ROJA: estado critico"] = "RECHAZADO_BANDERA_ROJA" ∧
    (V3.generar_reporte "x.pdf" [] 1 validacionesNulas
      ["ALERTA ROJA: estado critico"]).resumen_validacion
      = "REVISIÓN REQUERIDA" ∧
    (V3.generar_reporte "x.pdf" [] 1 validacionesNulas
      ["ALERTA ROJA: estado critico"]).resumen_validacion
      ≠ tablaVeredictoSpec esAlertaRoja validacionesNulas
        ["ALERTA ROJA: estado critico"] := by
  refine ⟨by decide, by decide, by decide, by decide⟩

/-- C2 (amended): the verdict of `generar_reporte` is the three-way
first-match-wins table — all three validations truthy ⇒ APROBADO, else
alerts present ⇒ REVISIÓN REQUERIDA, else INCOMPLETO — and no fourth
(red-flag) verdict exists. -/
theorem C2_veredicto_tres_vias (archivo : String)
    (docs : List (String × V3.DocEncontrado)) (n : Nat)
    (v : V3.Validaciones) (alertas : List String) :
    (V3.generar_reporte archivo docs n v alertas).resumen_validacion
      = tablaVeredicto3 v alertas ∧
    ((V3.generar_reporte archivo docs n v alertas).resumen_validacion
        = "APROBADO" ∨
     (V3.generar_reporte archivo docs n v alertas).resumen_validacion
        = "REVISIÓN REQUERIDA" ∨
     (V3.generar_reporte archivo docs n v alertas).resumen_validacion
        = "INCOMPLETO") := by
  constructor
  · simp only [V3.generar_reporte, tablaVeredicto3]
  · simp only [V3.generar_reporte, tablaVeredicto3]
    split_ifs <;> simp

/-- C3 counterexample: inject a failure at the second rename (after the
temp JSON was written and renamed): `generar_json` fails, yet the final
JSON path — absent beforehand — now holds the report, so the final-named
files are not left absent or unchanged on this failure. -/
theorem C3_counterexample_renombrado :
    (Pipeline.generar_json Pipeline.PuntoFallo.renombrarTxt reporteEjemplo
      fsVacio).1 = false ∧
    fsVacio.json_final = none ∧
    (Pipeline.generar_json Pipeline.PuntoFallo.renombrarTxt reporteEjemplo
      fsVacio).2.json_final = some (Pipeline.Archivo.completo reporteEjemplo) := by
  refine ⟨by decide, by decide, by decide⟩

/-- C3 (amended): both files are written to temporary paths and renamed
only after both writes succeed; on any failure the temp files are deleted
and no partially written file is ever observable under a final name; the
final-named files are left absent or unchanged on every failure at or
before the first rename — but a failure in the second (TXT) rename leaves
the fully written JSON under its final name. -/
theorem C3_atomicidad (fallo : Pipeline.PuntoFallo) (r : V3.Reporte)
    (fs : Pipeline.SistemaArchivos) :
    ((Pipeline.generar_json fallo r fs).2.tmp_json = none ∧
     (Pipeline.generar_json fallo r fs).2.tmp_txt = none) ∧
    ((Pipeline.generar_json fallo r fs).2.json_final = fs.json_final ∨
     (Pipeline.generar_json fallo r fs).2.json_final
        = some (Pipeline.Archivo.completo r)) ∧
    ((Pipeline.generar_json fallo r fs).2.txt_final = fs.txt_final ∨
     (Pipeline.generar_json fallo r fs).2.txt_final
        = some (Pipeline.Archivo.completo r)) ∧
    (fallo = Pipeline.PuntoFallo.ninguno →
      (Pipeline.generar_json fallo r fs).1 = true ∧
      (Pipeline.generar_json fallo r fs).2.json_final
        = some (Pipeline.Archivo.completo r) ∧
      (Pipeline.generar_json fallo r fs).2.txt_final
        = some (Pipeline.Archivo.completo r)) ∧
    (fallo ≠ Pipeline.PuntoFallo.ninguno →
      (Pipeline.generar_json fallo r fs).1 = false) ∧
    (fallo ≠ Pipeline.PuntoFallo.ninguno →
      fallo ≠ Pipeline.PuntoFallo.renombrarTxt →
      (Pipeline.generar_json fallo r fs).2.json_final = fs.json_final ∧
      (Pipeline.generar_json fallo r fs).2.txt_final = fs.txt_final) ∧
    (fallo = Pipeline.PuntoFallo.renombrarTxt →
      (Pipeline.generar_json fallo r fs).1 = false ∧
      (Pipeline.generar_json fallo r fs).2.json_final
        = some (Pipeline.Archivo.completo r) ∧
      (Pipeline.generar_json fallo r fs).2.txt_final = fs.txt_final) := by
  cases fallo <;>
    simp [Pipeline.generar_json, Pipeline.limpiarTmp]

/-- Witness for C3 (amended): a failure at the first rename leaves both
final paths untouched and no temp files behind. -/
theorem C3_atomicidad_witness :
    (Pipeline.generar_json Pipeline.PuntoFallo.renombrarJson reporteEjemplo
      fsVacio).1 = false ∧
    (Pipeline.generar_json Pipeline.PuntoFallo.renombrarJson reporteEjemplo
      fsVacio).2.json_final = fsVacio.json_final ∧
    (Pipeline.generar_json Pipeline.PuntoFallo.renombrarJson reporteEjemplo
      fsVacio).2.tmp_json = none := by
  have h := C3_atomicidad Pipeline.PuntoFallo.renombrarJson reporteEjemplo fsVacio
  exact ⟨h.2.2.2.2.1 (by decide),
    (h.2.2.2.2.2.1 (by decide) (by decide)).1, h.1.1⟩

/-- C9: the continuation-text accumulator (the module global
`_texto_continuaciones_estudio`, threaded as the first argument) is reset
at the start of `procesar_paquete`, so the documents, the page count and
the final accumulator value are independent of whatever state earlier
packages left behind: two runs on the same page texts agree exactly. -/
theorem C9_acumulador_aislado (g1 g2 : String) (pages : List String) :
    V3.procesar_paquete g1 pages = V3.procesar_paquete g2 pages := rfl

end PITA

namespace PITA

/-- C1 counterexample: for the claim's own example names
`"JUAN PEREZ GARCIA"` and `"JUAN PEREZ"` (2 of 2 shorter-name tokens in
the longer), the validator reports `nombre_consistente = false` and emits
the mismatch alert — the code divides by the LONGER name's token count
(2 of 3 < 70%), not the shorter's as the claim states. -/
theorem C1_counterexample_juan_perez :
    (V3.validar_consistencia
      (docsConNombres "JUAN PEREZ GARCIA" "JUAN PEREZ")).1.nombre_consistente
      = some false ∧
    ("Nombre inconsistente: " ++ sq ++ "JUAN PEREZ GARCIA" ++ sq ++ " vs "
        ++ sq ++ "JUAN PEREZ" ++ sq)
      ∈ (V3.validar_consistencia
          (docsConNombres "JUAN PEREZ GARCIA" "JUAN PEREZ")).2 := by
  refine ⟨by decide, by decide⟩

/-- Helper for C1: the collected name list on a two-name package. -/
theorem recoger_nombres_eq (n1 n2 : String) (h1 : n1 ≠ "") (h2 : n2 ≠ "") :
    V3.recogerCampo (docsConNombres n1 n2) "nombre_solicitante"
      ["CARTA_SOLICITUD", "AUTORIZACION_SEGUROS"]
      = [("CARTA_SOLICITUD", n1), ("AUTORIZACION_SEGUROS", n2)] := by
  simp [V3.recogerCampo, V3.lookupDoc, V3.getTexto, V3.getDato, docsConNombres,
    h1, h2]

/-- C1 (amended): with both names present, the validator compares the
count of the FIRST name's uppercased tokens found in the second against
70% of the LARGER token count (not the shorter name's): name_consistent
is true exactly when `comunes ≥ 0.7 · max(len₁, len₂)`; below the
threshold it is false and an alert quoting both values is emitted (zero
overlap in particular). -/
theorem C1_consistencia_nombres (n1 n2 : String) (h1 : n1 ≠ "") (h2 : n2 ≠ "") :
    (((totalDe n1 n2 : ℚ) * (7 / 10) ≤ (comunesDe n1 n2 : ℚ))
      ↔ 7 * totalDe n1 n2 ≤ 10 * comunesDe n1 n2) ∧
    ((V3.validar_consistencia (docsConNombres n1 n2)).1.nombre_consistente
        = some true
      ↔ 7 * totalDe n1 n2 ≤ 10 * comunesDe n1 n2) ∧
    (10 * comunesDe n1 n2 < 7 * totalDe n1 n2 →
      (V3.validar_consistencia (docsConNombres n1 n2)).1.nombre_consistente
        = some false ∧
      ("Nombre inconsistente: " ++ sq ++ n1 ++ sq ++ " vs " ++ sq ++ n2 ++ sq)
        ∈ (V3.validar_consistencia (docsConNombres n1 n2)).2) := by
  have hcast : ((totalDe n1 n2 : ℚ) * (7 / 10) ≤ (comunesDe n1 n2 : ℚ))
      ↔ 7 * totalDe n1 n2 ≤ 10 * comunesDe n1 n2 := by
    constructor
    · intro h
      have h10 : (7 : ℚ) * (totalDe n1 n2 : ℚ) ≤ 10 * (comunesDe n1 n2 : ℚ) := by
        nlinarith
      exact_mod_cast h10
    · intro h
      have h10 : (7 : ℚ) * (totalDe n1 n2 : ℚ) ≤ 10 * (comunesDe n1 n2 : ℚ) := by
        exact_mod_cast h
      nlinarith
  have hrec := recoger_nombres_eq n1 n2 h1 h2
  refine ⟨hcast, ?_, ?_⟩
  · simp only [V3.validar_consistencia, hrec, totalDe, comunesDe, tokensMayus]
    split_ifs with hcond <;> simp <;> simp at hcond <;> omega
  · intro hlt
    have hc : ¬ 7 * totalDe n1 n2 ≤ 10 * comunesDe n1 n2 := by omega
    simp only [totalDe, comunesDe, tokensMayus] at hc
    constructor
    · simp only [V3.validar_consistencia, hrec, totalDe, comunesDe, tokensMayus]
      rw [if_neg hc]
    · simp only [V3.validar_consistencia, hrec, totalDe, comunesDe, tokensMayus]
      rw [if_neg hc]
      simp

/-- Witness for C1 (amended): zero token overlap yields
`nombre_consistente = false` with the alert quoting both values. -/
theorem C1_consistencia_nombres_witness :
    (V3.validar_consistencia
      (docsConNombres "JUAN PEREZ GARCIA" "MARIA LOPEZ RUIZ")).1.nombre_consistente
      = some false ∧
    ("Nombre inconsistente: " ++ sq ++ "JUAN PEREZ GARCIA" ++ sq ++ " vs "
        ++ sq ++ "MARIA LOPEZ RUIZ" ++ sq)
      ∈ (V3.validar_consistencia
          (docsConNombres "JUAN PEREZ GARCIA" "MARIA LOPEZ RUIZ")).2 :=
  (C1_consistencia_nombres "JUAN PEREZ GARCIA" "MARIA LOPEZ RUIZ"
    (by decide) (by decide)).2.2 (by decide)

end PITA

namespace PITA

/-- Inbox membership is never re-created by the quarantine moves. -/
theorem moverAError_fold_no_inbox (lista : List String) (st : Pipeline.Estado)
    (f : String) (h : f ∉ st.inbox) :
    f ∉ (lista.foldl Pipeline.moverAError st).inbox := by
  induction lista generalizing st with
  | nil => exact h
  | cons x resto ih =>
    refine ih _ ?_
    unfold Pipeline.moverAError
    split
    · intro hmem
      exact h (List.mem_of_mem_erase hmem)
    · exact h

/-- A file already quarantined (and gone from the Inbox) stays in the
Error folder through the remaining moves. -/
theorem moverAError_fold_queda_error (lista : List String)
    (st : Pipeline.Estado) (f : String) (hni : f ∉ st.inbox)
    (he : f ∈ st.errorDir) :
    f ∈ (lista.foldl Pipeline.moverAError st).errorDir := by
  induction lista generalizing st with
  | nil => exact he
  | cons x resto ih =>
    by_cases hxf : x = f
    · subst hxf
      refine ih _ ?_ ?_
      · unfold Pipeline.moverAError
        split
        · rename_i hmem
          exact absurd (by simpa using hmem) hni
        · exact hni
      · unfold Pipeline.moverAError
        split
        · rename_i hmem
          exact absurd (by simpa using hmem) hni
        · exact he
    · refine ih _ ?_ ?_
      · unfold Pipeline.moverAError
        split
        · intro hmem
          exact hni (List.mem_of_mem_erase hmem)
        · exact hni
      · unfold Pipeline.moverAError
        split
        · refine List.mem_append_left _ ?_
          exact (List.mem_erase_of_ne (fun he2 => hxf he2.symm)).mpr he
        · exact he

/-- One quarantine move never touches the reports, mirrors, history or
log. -/
theorem moverAError_resto_paso (st : Pipeline.Estado) (x : String) :
    (Pipeline.moverAError st x).jsons = st.jsons ∧
    (Pipeline.moverAError st x).txts = st.txts ∧
    (Pipeline.moverAError st x).historial = st.historial ∧
    (Pipeline.moverAError st x).log = st.log := by
  unfold Pipeline.moverAError
  split <;> exact ⟨rfl, rfl, rfl, rfl⟩

/-- Quarantine moves never touch the reports, mirrors, history or log. -/
theorem moverAError_fold_resto (lista : List String) (st : Pipeline.Estado) :
    (lista.foldl Pipeline.moverAError st).jsons = st.jsons ∧
    (lista.foldl Pipeline.moverAError st).txts = st.txts ∧
    (lista.foldl Pipeline.moverAError st).historial = st.historial ∧
    (lista.foldl Pipeline.moverAError st).log = st.log := by
  induction lista generalizing st with
  | nil => exact ⟨rfl, rfl, rfl, rfl⟩
  | cons x resto ih =>
    have hp := moverAError_resto_paso st x
    have h := ih (Pipeline.moverAError st x)
    simp only [List.foldl_cons]
    exact ⟨h.1.trans hp.1, h.2.1.trans hp.2.1, h.2.2.1.trans hp.2.2.1,
      h.2.2.2.trans hp.2.2.2⟩

/-- Nodup of the Inbox survives the quarantine moves. -/
theorem moverAError_fold_nodup (lista : List String) (st : Pipeline.Estado)
    (hnd : st.inbox.Nodup) :
    (lista.foldl Pipeline.moverAError st).inbox.Nodup := by
  induction lista generalizing st with
  | nil => exact hnd
  | cons x resto ih =>
    refine ih _ ?_
    unfold Pipeline.moverAError
    split
    · exact hnd.erase x
    · exact hnd

/-- Every member file present in the Inbox ends up out of the Inbox and
inside the Error folder after the quarantine pass. -/
theorem moverAError_fold_mueve (lista : List String) (st : Pipeline.Estado)
    (hnd : st.inbox.Nodup) :
    ∀ f ∈ lista, f ∈ st.inbox →
      f ∉ (lista.foldl Pipeline.moverAError st).inbox ∧
      f ∈ (lista.foldl Pipeline.moverAError st).errorDir := by
  induction lista generalizing st with
  | nil => intro f hf; exact absurd hf (List.not_mem_nil f)
  | cons x resto ih =>
    intro f hf hmem
    rcases List.mem_cons.mp hf with hfx | hfr
    · subst hfx
      have hmemb : st.inbox.contains f = true := by simpa using hmem
      have hni : f ∉ (Pipeline.moverAError st f).inbox := by
        unfold Pipeline.moverAError
        rw [if_pos hmemb]
        exact hnd.not_mem_erase
      have herr : f ∈ (Pipeline.moverAError st f).errorDir := by
        unfold Pipeline.moverAError
        rw [if_pos hmemb]
        simp
      exact ⟨moverAError_fold_no_inbox resto _ f hni,
        moverAError_fold_queda_error resto _ f hni herr⟩
    · by_cases hmem2 : f ∈ (Pipeline.moverAError st x).inbox
      · exact ih (Pipeline.moverAError st x)
          (by unfold Pipeline.moverAError; split; exacts [hnd.erase x, hnd])
          f hfr hmem2
      · -- `f` can only have left the Inbox by being moved (`x = f`)
        have hxf : x = f := by
          by_contra hne
          refine hmem2 ?_
          unfold Pipeline.moverAError
          split
          · exact (List.mem_erase_of_ne (fun h => hne h.symm)).mpr hmem
          · exact hmem
        subst hxf
        have hmemb : st.inbox.contains x = true := by simpa using hmem
        have hni : x ∉ (Pipeline.moverAError st x).inbox := hmem2
        have herr : x ∈ (Pipeline.moverAError st x).errorDir := by
          unfold Pipeline.moverAError
          rw [if_pos hmemb]
          simp
        exact ⟨moverAError_fold_no_inbox resto _ x hni,
          moverAError_fold_queda_error resto _ x hni herr⟩

/-- C5: a group without an existing final report whose prior ERROR count
has reached the configured maximum is quarantined — every member file is
moved out of the Inbox into the Error folder, a LIMIT outcome is logged,
the reports are untouched and no processing stage is attempted; below the
maximum, processing is attempted starting with the merge stage. -/
theorem C5_escalada_limite_errores (conducta : Pipeline.Conducta)
    (nombre : String) (lista : List String) (st : Pipeline.Estado)
    (hjson : st.jsons.find? (fun kv => kv.1 = nombre) = none)
    (hnd : st.inbox.Nodup) :
    (Pipeline.MAX_ERRORES ≤ Pipeline.contar_errores nombre st.log →
      (Pipeline.procesar_grupo conducta nombre lista st).1 = "LIMITE_ERRORES" ∧
      (Pipeline.procesar_grupo conducta nombre lista st).2.2 = [] ∧
      (∀ f ∈ lista, f ∈ st.inbox →
        f ∉ (Pipeline.procesar_grupo conducta nombre lista st).2.1.inbox ∧
        f ∈ (Pipeline.procesar_grupo conducta nombre lista st).2.1.errorDir) ∧
      (Pipeline.procesar_grupo conducta nombre lista st).2.1.jsons = st.jsons ∧
      (Pipeline.procesar_grupo conducta nombre lista st).2.1.log
        = Pipeline.escribir_log st.log nombre "MOVIDO_ERROR" "LIMITE"
            (toString (Pipeline.contar_errores nombre st.log) ++ " errores")
            "-") ∧
    (Pipeline.contar_errores nombre st.log < Pipeline.MAX_ERRORES →
      (Pipeline.procesar_grupo conducta nombre lista st).2.2.head?
        = some Pipeline.Etapa.fusionar) := by
  constructor
  · intro hmax
    have hres : Pipeline.procesar_grupo conducta nombre lista st
        = ("LIMITE_ERRORES",
           { lista.foldl Pipeline.moverAError st with
             log := Pipeline.escribir_log
               (lista.foldl Pipeline.moverAError st).log nombre "MOVIDO_ERROR"
               "LIMITE"
               (toString (Pipeline.contar_errores nombre st.log) ++ " errores")
               "-" }, []) := by
      unfold Pipeline.procesar_grupo
      rw [hjson]
      simp only [Option.isSome_none, Bool.false_eq_true, if_false]
      rw [if_pos hmax]
    have hresto := moverAError_fold_resto lista st
    rw [hres]
    refine ⟨rfl, rfl, ?_, ?_, ?_⟩
    · intro f hf hmem
      exact moverAError_fold_mueve lista st hnd f hf hmem
    · exact hresto.1
    · rw [hresto.2.2.2]
  · intro hlt
    unfold Pipeline.procesar_grupo
    rw [hjson]
    simp only [Option.isSome_none, Bool.false_eq_true, if_false]
    rw [if_neg (Nat.not_le.mpr hlt)]
    cases hm : (conducta lista).mergeOk with
    | false => simp [hm]
    | true =>
      cases ho : (conducta lista).ocrOk with
      | false => simp [hm, ho]
      | true =>
        cases hr : (conducta lista).reporte with
        | none => simp [hm, ho, hr]
        | some rep => simp [hm, ho, hr]

/-- Witness for C5: a group with exactly `MAX_ERRORES` (= 2) prior ERROR
entries is quarantined without any stage attempted; with one it is
attempted. -/
theorem C5_escalada_limite_errores_witness :
    (Pipeline.procesar_grupo (fun _ => ⟨true, true, some reporteEjemplo⟩) "G"
      ["G-1-1.pdf"]
      { inbox := ["G-1-1.pdf"], jsons := [], txts := [], errorDir := [],
        historial := [],
        log := ["G;ERROR;ERROR;TS;m;1", "G;ERROR;ERROR;TS;m;1"] }).1
      = "LIMITE_ERRORES" ∧
    (Pipeline.procesar_grupo (fun _ => ⟨true, true, some reporteEjemplo⟩) "G"
      ["G-1-1.pdf"]
      { inbox := ["G-1-1.pdf"], jsons := [], txts := [], errorDir := [],
        historial := [],
        log := ["G;ERROR;ERROR;TS;m;1", "G;ERROR;ERROR;TS;m;1"] }).2.2 = [] ∧
    (Pipeline.procesar_grupo (fun _ => ⟨true, true, some reporteEjemplo⟩) "G"
      ["G-1-1.pdf"]
      { inbox := ["G-1-1.pdf"], jsons := [], txts := [], errorDir := [],
        historial := [],
        log := ["G;ERROR;ERROR;TS;m;1"] }).2.2.head?
      = some Pipeline.Etapa.fusionar := by
  have h2 := C5_escalada_limite_errores (fun _ => ⟨true, true, some reporteEjemplo⟩)
    "G" ["G-1-1.pdf"]
    { inbox := ["G-1-1.pdf"], jsons := [], txts := [], errorDir := [],
      historial := [],
      log := ["G;ERROR;ERROR;TS;m;1", "G;ERROR;ERROR;TS;m;1"] }
    (by decide) (by decide)
  have h1 := C5_escalada_limite_errores (fun _ => ⟨true, true, some reporteEjemplo⟩)
    "G" ["G-1-1.pdf"]
    { inbox := ["G-1-1.pdf"], jsons := [], txts := [], errorDir := [],
      historial := [],
      log := ["G;ERROR;ERROR;TS;m;1"] }
    (by decide) (by decide)
  exact ⟨(h2.1 (by decide)).1, (h2.1 (by decide)).2.1, h1.2 (by decide)⟩

end PITA

namespace PITA

/-- C7 counterexample: a page text containing a name followed by an
adjacent date and time — the claim's own example line appears verbatim —
for which `detectar_firma` nevertheless returns `present = false`: the
leftmost match of the timestamp pattern (`"FECHA SEGURO …"`) hits the
excluded-words filter, and the rule is then skipped entirely rather than
trying the later, genuine signature line. -/
theorem C7_counterexample_sombra :
    strContains "JUAN PEREZ GARCIA 10/10/2025 7:29 AM PDT" textoSombra = true ∧
    V3.detectar_firma textoSombra = (some false, "No encontrada", none) := by
  refine ⟨by decide, by decide⟩

/-- C7 (amended): pattern 1 of `detectar_firma` takes precedence over all
later rules whenever it fires, and it fires on the leftmost
name+date+time match provided the name part is longer than 5 characters
and free of the excluded words; for the exact text
`"JUAN PEREZ GARCIA 10/10/2025 7:29 AM PDT"` the result is
`present = true` with the electronic-timestamp kind and a detail
containing the date `"10/10/2025"` and the time `"7:29 AM"` verbatim. -/
theorem C7_firma_timestamp :
    V3.detectar_firma "JUAN PEREZ GARCIA 10/10/2025 7:29 AM PDT"
      = (some true, "Firma Electronica (Timestamp)",
         some "JUAN PEREZ GARCIA - 10/10/2025 7:29 AM PDT") ∧
    strContains "10/10/2025" "JUAN PEREZ GARCIA - 10/10/2025 7:29 AM PDT"
      = true ∧
    strContains "7:29 AM" "JUAN PEREZ GARCIA - 10/10/2025 7:29 AM PDT"
      = true ∧
    (∀ (texto : String) (r : Option Bool × String × Option String),
      V3.reglaTimestampNombre (collapseWS texto) = some r →
      V3.detectar_firma texto = r) := by
  refine ⟨by decide, by decide, by decide, ?_⟩
  intro texto r h
  simp only [V3.detectar_firma]
  rw [h]

/-- Witness for C7 (amended): the precedence component applied to the
example text, with the rule-1 result computed concretely. -/
theorem C7_firma_timestamp_witness :
    V3.detectar_firma "JUAN PEREZ GARCIA 10/10/2025 7:29 AM PDT"
      = (some true, "Firma Electronica (Timestamp)",
         some "JUAN PEREZ GARCIA - 10/10/2025 7:29 AM PDT") :=
  C7_firma_timestamp.2.2.2 "JUAN PEREZ GARCIA 10/10/2025 7:29 AM PDT"
    (some true, "Firma Electronica (Timestamp)",
     some "JUAN PEREZ GARCIA - 10/10/2025 7:29 AM PDT") (by decide)

end PITA

namespace PITA

/-- In a `≤`-sorted value list the head is a lower bound. -/
theorem sorted_head_cota {l : List Dec} (hs : List.Sorted (· ≤ ·) l)
    {m : Dec} (hm : l.head? = some m) : ∀ v ∈ l, m ≤ v := by
  cases l with
  | nil => cases hm
  | cons x t =>
    have hxm : x = m := by simpa using hm
    subst hxm
    intro v hv
    rcases List.mem_cons.mp hv with hvx | hvt
    · subst hvx
      exact Nat.le_refl _
    · exact List.rel_of_sorted_cons hs v hvt

/-- In a `≤`-sorted value list the last element is an upper bound. -/
theorem sorted_last_cota {l : List Dec} (hs : List.Sorted (· ≤ ·) l)
    {M : Dec} (hM : l.getLast? = some M) : ∀ v ∈ l, v ≤ M := by
  induction l with
  | nil => cases hM
  | cons x t ih =>
    cases t with
    | nil =>
      have hxM : x = M := by simpa using hM
      subst hxM
      intro v hv
      rcases List.mem_cons.mp hv with hvx | hvt
      · subst hvx; exact Nat.le_refl _
      · cases hvt
    | cons y t2 =>
      have hM2 : (y :: t2).getLast? = some M := by
        simpa [List.getLast?_cons_cons] using hM
      have hyM : y ≤ M := ih hs.of_cons hM2 y (List.mem_cons_self y t2)
      intro v hv
      rcases List.mem_cons.mp hv with hvx | hvt
      · subst hvx
        exact IsTrans.trans v y M (List.rel_of_sorted_cons hs y
          (List.mem_cons_self y t2)) hyM
      · exact ih hs.of_cons hM2 v hvt

/-- The plausible-value list is sorted ascending. -/
theorem valoresPlausibles_sorted (texto : String) :
    List.Sorted (· ≤ ·) (V2.valoresPlausibles texto) := by
  unfold V2.valoresPlausibles V2.ordenarDedup
  exact List.sorted_insertionSort _ _

/-- C8: when all labeled mortgage/sale-price patterns fail, the paired
monetary fields are decided by the fallback: with at least two distinct
plausible values the head (the smallest) fills the loan amount and the
last (the largest) the sale price; with exactly one value the sale-price
field — still unset — receives it and the loan amount stays NOT-FOUND;
with none both stay NOT-FOUND. -/
theorem C8_desambiguacion_numerica (texto : String)
    (hhip : V2.hipotecaEtiquetada texto = none)
    (hpre : V2.precioEtiquetado texto = none) :
    (∀ m M, (V2.valoresPlausibles texto).head? = some m →
      (V2.valoresPlausibles texto).getLast? = some M →
      2 ≤ (V2.valoresPlausibles texto).length →
      V2.datosMonetarios texto = (formatMoney m, formatMoney M) ∧
      (∀ v ∈ V2.valoresPlausibles texto, m ≤ v ∧ v ≤ M)) ∧
    (∀ v, V2.valoresPlausibles texto = [v] →
      V2.datosMonetarios texto = ("NO ENCONTRADO", formatMoney v)) ∧
    (V2.valoresPlausibles texto = [] →
      V2.datosMonetarios texto = ("NO ENCONTRADO", "NO ENCONTRADO")) := by
  refine ⟨?_, ?_, ?_⟩
  · intro m M hm hM hlen
    constructor
    · unfold V2.datosMonetarios V2.extraer_hipoteca_precio
      rw [hhip, hpre, if_pos hlen, hm, hM]
      rfl
    · intro v hv
      exact ⟨sorted_head_cota (valoresPlausibles_sorted texto) hm v hv,
        sorted_last_cota (valoresPlausibles_sorted texto) hM v hv⟩
  · intro v hv
    unfold V2.datosMonetarios V2.extraer_hipoteca_precio
    rw [hhip, hpre, hv]
    rfl
  · intro hv
    unfold V2.datosMonetarios V2.extraer_hipoteca_precio
    rw [hhip, hpre, hv]
    rfl

/-- Witness for C8: on a text with two plausible currency-shaped numbers
and no matching labels, the smaller becomes the mortgage amount and the
larger the sale price. -/
theorem C8_desambiguacion_numerica_witness :
    V2.datosMonetarios "pagare 60,000.00 con precio total 150,000.00"
      = ("$60,000.00", "$150,000.00") := by
  have h := ((C8_desambiguacion_numerica
    "pagare 60,000.00 con precio total 150,000.00" (by decide) (by decide)).1
    (Dec.deNat 60000) (Dec.deNat 150000) (by decide) (by decide) (by decide)).1
  rw [h, show formatMoney (Dec.deNat 60000) = "$60,000.00" from by decide,
    show formatMoney (Dec.deNat 150000) = "$150,000.00" from by decide]

end PITA

namespace PITA

/-! ### The string order behind `sorted(...)`: a strict total order -/

/-- Characters with equal code points are equal. -/
theorem charEq_of_toNat {a b : Char} (h : a.toNat = b.toNat) : a = b := by
  have h2 := congrArg Char.ofNat h
  simpa [Char.ofNat_toNat] using h2

/-- Strings with equal character lists are equal. -/
theorem stringEq_of_data {a b : String} (h : a.data = b.data) : a = b := by
  cases a; cases b; exact congrArg String.mk h

theorem ltChars_irrefl (a : List Char) : Pipeline.ltChars a a = false := by
  induction a with
  | nil => rfl
  | cons c t ih => simp [Pipeline.ltChars, ih]

theorem ltChars_trans (a : List Char) : ∀ b c : List Char,
    Pipeline.ltChars a b = true → Pipeline.ltChars b c = true →
    Pipeline.ltChars a c = true := by
  induction a with
  | nil =>
    intro b c _ hbc
    cases c with
    | nil => cases b <;> simp [Pipeline.ltChars] at hbc
    | cons z zs => rfl
  | cons x xs ih =>
    intro b c hab hbc
    cases b with
    | nil => simp [Pipeline.ltChars] at hab
    | cons y ys =>
      cases c with
      | nil => simp [Pipeline.ltChars] at hbc
      | cons z zs =>
        simp only [Pipeline.ltChars] at hab hbc ⊢
        by_cases h1 : x.toNat < y.toNat
        · by_cases h2 : y.toNat < z.toNat
          · simp [Nat.lt_trans h1 h2]
          · rw [if_neg h2] at hbc
            by_cases h3 : z.toNat < y.toNat
            · rw [if_pos h3] at hbc; exact absurd hbc (by simp)
            · have : x.toNat < z.toNat := by omega
              simp [this]
        · rw [if_neg h1] at hab
          by_cases h4 : y.toNat < x.toNat
          · rw [if_pos h4] at hab; exact absurd hab (by simp)
          · rw [if_neg h4] at hab
            by_cases h2 : y.toNat < z.toNat
            · have : x.toNat < z.toNat := by omega
              simp [this]
            · rw [if_neg h2] at hbc
              by_cases h3 : z.toNat < y.toNat
              · rw [if_pos h3] at hbc; exact absurd hbc (by simp)
              · rw [if_neg h3] at hbc
                have hxz : ¬ x.toNat < z.toNat := by omega
                have hzx : ¬ z.toNat < x.toNat := by omega
                rw [if_neg hxz, if_neg hzx]
                exact ih ys zs hab hbc

theorem ltChars_connex (a : List Char) : ∀ b : List Char,
    Pipeline.ltChars a b = false → Pipeline.ltChars b a = false → a = b := by
  induction a with
  | nil =>
    intro b hab _
    cases b with
    | nil => rfl
    | cons y ys => simp [Pipeline.ltChars] at hab
  | cons x xs ih =>
    intro b hab hba
    cases b with
    | nil => simp [Pipeline.ltChars] at hba
    | cons y ys =>
      simp only [Pipeline.ltChars] at hab hba
      by_cases h1 : x.toNat < y.toNat
      · rw [if_pos h1] at hab; exact absurd hab (by simp)
      · by_cases h2 : y.toNat < x.toNat
        · rw [if_pos h2] at hba; exact absurd hba (by simp)
        · rw [if_neg h1, if_neg h2] at hab
          rw [if_neg h2, if_neg h1] at hba
          have hxy : x = y := charEq_of_toNat (by omega)
          rw [hxy, ih ys hab hba]

theorem strLe_total (a b : String) :
    Pipeline.strLe a b = true ∨ Pipeline.strLe b a = true := by
  unfold Pipeline.strLe
  by_cases h1 : Pipeline.ltChars b.data a.data = true
  · by_cases h2 : Pipeline.ltChars a.data b.data = true
    · have := ltChars_trans _ _ _ h1 h2
      rw [ltChars_irrefl] at this
      exact absurd this (by simp)
    · right; simp [Bool.eq_false_iff.mpr, Bool.not_eq_true] at h2 ⊢; exact h2
  · left; simp [Bool.not_eq_true] at h1 ⊢; exact h1

theorem strLe_trans (a b c : String) (hab : Pipeline.strLe a b = true)
    (hbc : Pipeline.strLe b c = true) : Pipeline.strLe a c = true := by
  unfold Pipeline.strLe at hab hbc ⊢
  simp only [Bool.not_eq_true', Bool.not_eq_eq_eq_not, Bool.not_true] at hab hbc ⊢
  by_contra hca
  simp only [Bool.not_eq_false] at hca
  by_cases h2 : Pipeline.ltChars a.data b.data = true
  · have := ltChars_trans _ _ _ hca h2
    rw [this] at hbc
    exact absurd hbc (by simp)
  · have h2f : Pipeline.ltChars a.data b.data = false := by simpa using h2
    have heq : a.data = b.data := ltChars_connex _ _ h2f hab
    rw [← heq] at hbc
    rw [hca] at hbc
    exact absurd hbc (by simp)

theorem strLe_antisymm (a b : String) (hab : Pipeline.strLe a b = true)
    (hba : Pipeline.strLe b a = true) : a = b := by
  unfold Pipeline.strLe at hab hba
  simp only [Bool.not_eq_true', Bool.not_eq_eq_eq_not, Bool.not_true] at hab hba
  exact stringEq_of_data (ltChars_connex _ _ hba hab)

end PITA

namespace PITA

/-! ### Python's stable sort as Mathlib's insertion sort -/

theorem insPorClave_eq_orderedInsert {κ : Type} (le : κ → κ → Bool)
    (key : String → κ) (x : String) (l : List String) :
    Pipeline.insPorClave le key x l =
      List.orderedInsert (fun a b => le (key a) (key b) = true) x l := by
  induction l with
  | nil => rfl
  | cons y ys ih =>
    simp only [Pipeline.insPorClave, List.orderedInsert, ih]

theorem ordenarPorClave_eq_insertionSort {κ : Type} (le : κ → κ → Bool)
    (key : String → κ) (l : List String) :
    Pipeline.ordenarPorClave le key l =
      List.insertionSort (fun a b => le (key a) (key b) = true) l := by
  induction l with
  | nil => rfl
  | cons x xs ih =>
    simp only [Pipeline.ordenarPorClave, List.insertionSort, ih,
      insPorClave_eq_orderedInsert]

theorem ordenarPorClave_perm {κ : Type} (le : κ → κ → Bool)
    (key : String → κ) (l : List String) :
    (Pipeline.ordenarPorClave le key l).Perm l := by
  rw [ordenarPorClave_eq_insertionSort]
  exact List.perm_insertionSort _ l

theorem mem_ordenarPorClave {κ : Type} (le : κ → κ → Bool)
    (key : String → κ) (l : List String) (a : String) :
    a ∈ Pipeline.ordenarPorClave le key l ↔ a ∈ l :=
  (ordenarPorClave_perm le key l).mem_iff

theorem nodup_ordenarPorClave {κ : Type} (le : κ → κ → Bool)
    (key : String → κ) (l : List String) (h : l.Nodup) :
    (Pipeline.ordenarPorClave le key l).Nodup :=
  ((ordenarPorClave_perm le key l).nodup_iff).mpr h

theorem sorted_ordenarStr (l : List String) :
    List.Pairwise (fun a b => Pipeline.strLe a b = true)
      (Pipeline.ordenarStr l) := by
  haveI hT : IsTotal String (fun a b => Pipeline.strLe a b = true) :=
    ⟨strLe_total⟩
  haveI hTr : IsTrans String (fun a b => Pipeline.strLe a b = true) :=
    ⟨strLe_trans⟩
  unfold Pipeline.ordenarStr
  rw [ordenarPorClave_eq_insertionSort]
  exact List.sorted_insertionSort _ l

theorem mem_ordenarStr (l : List String) (a : String) :
    a ∈ Pipeline.ordenarStr l ↔ a ∈ l :=
  mem_ordenarPorClave _ _ l a

theorem nodup_ordenarStr (l : List String) (h : l.Nodup) :
    (Pipeline.ordenarStr l).Nodup :=
  nodup_ordenarPorClave _ _ l h

/-- Two unrepeated lists sorted by the string order with the same members
are equal. -/
theorem listasIguales (l1 l2 : List String)
    (hs1 : List.Pairwise (fun a b => Pipeline.strLe a b = true) l1)
    (hs2 : List.Pairwise (fun a b => Pipeline.strLe a b = true) l2)
    (hn1 : l1.Nodup) (hn2 : l2.Nodup) (hm : ∀ a, a ∈ l1 ↔ a ∈ l2) :
    l1 = l2 := by
  haveI hA : IsAntisymm String (fun a b => Pipeline.strLe a b = true) :=
    ⟨strLe_antisymm⟩
  exact List.eq_of_perm_of_sorted
    ((List.perm_ext_iff_of_nodup hn1 hn2).mpr hm) hs1 hs2

end PITA

namespace PITA

/-! ### The `OK` branch's original-file deletion fold -/

theorem eraseFold_sub (m : List String) (l : List String) (g : String)
    (h : g ∈ m.foldl (fun i p => i.erase p) l) : g ∈ l := by
  induction m generalizing l with
  | nil => exact h
  | cons x xs ih => exact List.mem_of_mem_erase (ih (l.erase x) h)

theorem eraseFold_nodup (m : List String) (l : List String) (h : l.Nodup) :
    (m.foldl (fun i p => i.erase p) l).Nodup := by
  induction m generalizing l with
  | nil => exact h
  | cons x xs ih => exact ih (l.erase x) (h.erase x)

theorem eraseFold_pres (m : List String) (l : List String) (g : String)
    (hg : g ∉ m) : g ∈ m.foldl (fun i p => i.erase p) l ↔ g ∈ l := by
  induction m generalizing l with
  | nil => exact Iff.rfl
  | cons x xs ih =>
    have hgx : g ≠ x := fun h => hg (h ▸ List.mem_cons_self x xs)
    have hgxs : g ∉ xs := fun h => hg (List.mem_cons_of_mem x h)
    exact (ih (l.erase x) hgxs).trans (List.mem_erase_of_ne hgx)

theorem eraseFold_mueve (m : List String) (l : List String) (g : String)
    (hnd : l.Nodup) (hg : g ∈ m) : g ∉ m.foldl (fun i p => i.erase p) l := by
  induction m generalizing l with
  | nil => exact absurd hg (List.not_mem_nil g)
  | cons x xs ih =>
    rcases List.mem_cons.mp hg with hgx | hgxs
    · subst hgx
      by_cases hin : g ∈ xs
      · exact ih (l.erase g) (hnd.erase g) hin
      · intro hmem
        exact hnd.not_mem_erase ((eraseFold_pres xs (l.erase g) g hin).mp hmem)
    · exact ih (l.erase x) (hnd.erase x) hgxs

/-! ### Extra quarantine-fold facts -/

theorem moverAError_fold_sub (lista : List String) (st : Pipeline.Estado)
    (g : String) (h : g ∈ (lista.foldl Pipeline.moverAError st).inbox) :
    g ∈ st.inbox := by
  induction lista generalizing st with
  | nil => exact h
  | cons x xs ih =>
    have h2 := ih (Pipeline.moverAError st x) h
    unfold Pipeline.moverAError at h2
    split at h2
    · exact List.mem_of_mem_erase h2
    · exact h2

theorem moverAError_fold_pres (lista : List String) (st : Pipeline.Estado)
    (g : String) (hg : g ∉ lista) :
    g ∈ (lista.foldl Pipeline.moverAError st).inbox ↔ g ∈ st.inbox := by
  induction lista generalizing st with
  | nil => exact Iff.rfl
  | cons x xs ih =>
    have hgx : g ≠ x := fun h => hg (h ▸ List.mem_cons_self x xs)
    have hgxs : g ∉ xs := fun h => hg (List.mem_cons_of_mem x h)
    refine (ih (Pipeline.moverAError st x) hgxs).trans ?_
    unfold Pipeline.moverAError
    split
    · exact List.mem_erase_of_ne hgx
    · exact Iff.rfl

/-! ### Counting facts about the log and the run results -/

theorem contar_append_mono (q : String) (l1 l2 : List String) :
    Pipeline.contar_errores q l1 ≤ Pipeline.contar_errores q (l1 ++ l2) := by
  unfold Pipeline.contar_errores
  rw [List.filter_append, List.length_append]
  exact Nat.le_add_right _ _

theorem cuenta_append_uno (res : List (String × String)) (k r : String) :
    Pipeline.cuenta (res ++ [(k, r)]) "OK" =
      Pipeline.cuenta res "OK" + (if r = "OK" then 1 else 0) := by
  unfold Pipeline.cuenta
  rw [List.filter_append, List.length_append]
  by_cases h : r = "OK"
  · simp [h]
  · simp [h]

end PITA

namespace PITA

/-! ### The four outcomes of `procesar_grupo`, as conditional equations -/

/-- C6's per-group skip, as a helper equation: an existing final report
short-circuits the group to `IGNORADO` with the state untouched and no
stage attempted. -/
theorem pg_ignorado (c : Pipeline.Conducta) (k : String) (m : List String)
    (st : Pipeline.Estado)
    (h : (st.jsons.find? (fun kv => kv.1 = k)).isSome = true) :
    Pipeline.procesar_grupo c k m st = ("IGNORADO", st, []) := by
  unfold Pipeline.procesar_grupo
  rw [if_pos h]

theorem pg_limite (c : Pipeline.Conducta) (k : String) (m : List String)
    (st : Pipeline.Estado)
    (h1 : (st.jsons.find? (fun kv => kv.1 = k)).isSome = false)
    (h2 : Pipeline.MAX_ERRORES ≤ Pipeline.contar_errores k st.log) :
    Pipeline.procesar_grupo c k m st = ("LIMITE_ERRORES",
      { (m.foldl Pipeline.moverAError st) with
        log := (Pipeline.escribir_log (m.foldl Pipeline.moverAError st).log k
          "MOVIDO_ERROR" "LIMITE"
          (toString (Pipeline.contar_errores k st.log) ++ " errores") "-") },
      []) := by
  unfold Pipeline.procesar_grupo
  rw [if_neg (by simp [h1]), if_pos h2]

theorem pg_error (c : Pipeline.Conducta) (k : String) (m : List String)
    (st : Pipeline.Estado)
    (h1 : (st.jsons.find? (fun kv => kv.1 = k)).isSome = false)
    (h2 : ¬ Pipeline.MAX_ERRORES ≤ Pipeline.contar_errores k st.log)
    (h3 : Pipeline.fallaEtapas (c m) = true) :
    ∃ tr, Pipeline.procesar_grupo c k m st = ("ERROR",
      { st with log := (Pipeline.escribir_log st.log k "ERROR" "ERROR"
          "mensaje" "1") }, tr) := by
  unfold Pipeline.procesar_grupo
  rw [if_neg (by simp [h1]), if_neg h2]
  unfold Pipeline.fallaEtapas at h3
  by_cases hm : (c m).mergeOk = true
  · by_cases ho : (c m).ocrOk = true
    · have hr : (c m).reporte = none := by
        rcases hrep : (c m).reporte with _ | rep
        · rfl
        · rw [hm, ho, hrep] at h3; simp at h3
      exact ⟨[Pipeline.Etapa.fusionar, Pipeline.Etapa.ocr,
        Pipeline.Etapa.extraerJson], by simp [hm, ho, hr]⟩
    · exact ⟨[Pipeline.Etapa.fusionar, Pipeline.Etapa.ocr],
        by simp [hm, ho]⟩
  · exact ⟨[Pipeline.Etapa.fusionar], by simp [hm]⟩

theorem pg_ok (c : Pipeline.Conducta) (k : String) (m : List String)
    (st : Pipeline.Estado)
    (h1 : (st.jsons.find? (fun kv => kv.1 = k)).isSome = false)
    (h2 : ¬ Pipeline.MAX_ERRORES ≤ Pipeline.contar_errores k st.log)
    (h3 : Pipeline.fallaEtapas (c m) = false) :
    ∃ rep, (c m).reporte = some rep ∧
      Pipeline.procesar_grupo c k m st = ("OK",
        ⟨m.foldl (fun i p => i.erase p) st.inbox,
         (k, rep) :: st.jsons, (k, rep) :: st.txts, st.errorDir,
         st.historial ++ [k],
         Pipeline.escribir_log st.log k "COMPLETO" "OK"
           (toString m.length ++ " PDFs procesados") "1"⟩,
        [Pipeline.Etapa.fusionar, Pipeline.Etapa.ocr,
         Pipeline.Etapa.extraerJson]) := by
  unfold Pipeline.fallaEtapas at h3
  have hm : (c m).mergeOk = true := by
    rcases hb : (c m).mergeOk with _ | _
    · rw [hb] at h3; simp at h3
    · rfl
  have ho : (c m).ocrOk = true := by
    rcases hb : (c m).ocrOk with _ | _
    · rw [hm, hb] at h3; simp at h3
    · rfl
  rcases hrep : (c m).reporte with _ | rep
  · rw [hm, ho, hrep] at h3; simp at h3
  · refine ⟨rep, rfl, ?_⟩
    unfold Pipeline.procesar_grupo
    rw [if_neg (by simp [h1]), if_neg h2]
    simp only [hm, ho, hrep]
    simp

end PITA

namespace PITA

/-! ### Facts holding across every outcome of one group step -/

theorem pg_inbox_sub (c : Pipeline.Conducta) (k : String) (m : List String)
    (st : Pipeline.Estado) (g : String)
    (h : g ∈ (Pipeline.procesar_grupo c k m st).2.1.inbox) : g ∈ st.inbox := by
  by_cases h1 : (st.jsons.find? (fun kv => kv.1 = k)).isSome = true
  · rw [pg_ignorado c k m st h1] at h; exact h
  · have h1f : (st.jsons.find? (fun kv => kv.1 = k)).isSome = false :=
      Bool.eq_false_iff.mpr h1
    by_cases h2 : Pipeline.MAX_ERRORES ≤ Pipeline.contar_errores k st.log
    · rw [pg_limite c k m st h1f h2] at h
      exact moverAError_fold_sub m st g h
    · by_cases h3 : Pipeline.fallaEtapas (c m) = true
      · obtain ⟨tr, heq⟩ := pg_error c k m st h1f h2 h3
        rw [heq] at h; exact h
      · have h3f : Pipeline.fallaEtapas (c m) = false := Bool.eq_false_iff.mpr h3
        obtain ⟨rep, _, heq⟩ := pg_ok c k m st h1f h2 h3f
        rw [heq] at h
        exact eraseFold_sub m st.inbox g h

theorem pg_inbox_nodup (c : Pipeline.Conducta) (k : String) (m : List String)
    (st : Pipeline.Estado) (hnd : st.inbox.Nodup) :
    (Pipeline.procesar_grupo c k m st).2.1.inbox.Nodup := by
  by_cases h1 : (st.jsons.find? (fun kv => kv.1 = k)).isSome = true
  · rw [pg_ignorado c k m st h1]; exact hnd
  · have h1f : (st.jsons.find? (fun kv => kv.1 = k)).isSome = false :=
      Bool.eq_false_iff.mpr h1
    by_cases h2 : Pipeline.MAX_ERRORES ≤ Pipeline.contar_errores k st.log
    · rw [pg_limite c k m st h1f h2]
      exact moverAError_fold_nodup m st hnd
    · by_cases h3 : Pipeline.fallaEtapas (c m) = true
      · obtain ⟨tr, heq⟩ := pg_error c k m st h1f h2 h3
        rw [heq]; exact hnd
      · have h3f : Pipeline.fallaEtapas (c m) = false := Bool.eq_false_iff.mpr h3
        obtain ⟨rep, _, heq⟩ := pg_ok c k m st h1f h2 h3f
        rw [heq]
        exact eraseFold_nodup m st.inbox hnd

theorem pg_inbox_pres (c : Pipeline.Conducta) (k : String) (m : List String)
    (st : Pipeline.Estado) (g : String) (hg : g ∉ m) :
    g ∈ (Pipeline.procesar_grupo c k m st).2.1.inbox ↔ g ∈ st.inbox := by
  by_cases h1 : (st.jsons.find? (fun kv => kv.1 = k)).isSome = true
  · rw [pg_ignorado c k m st h1]
  · have h1f : (st.jsons.find? (fun kv => kv.1 = k)).isSome = false :=
      Bool.eq_false_iff.mpr h1
    by_cases h2 : Pipeline.MAX_ERRORES ≤ Pipeline.contar_errores k st.log
    · rw [pg_limite c k m st h1f h2]
      exact moverAError_fold_pres m st g hg
    · by_cases h3 : Pipeline.fallaEtapas (c m) = true
      · obtain ⟨tr, heq⟩ := pg_error c k m st h1f h2 h3
        rw [heq]
      · have h3f : Pipeline.fallaEtapas (c m) = false := Bool.eq_false_iff.mpr h3
        obtain ⟨rep, _, heq⟩ := pg_ok c k m st h1f h2 h3f
        rw [heq]
        exact eraseFold_pres m st.inbox g hg

theorem pg_jsons_mono (c : Pipeline.Conducta) (k : String) (m : List String)
    (st : Pipeline.Estado) (q : String)
    (h : (st.jsons.find? (fun kv => kv.1 = q)).isSome = true) :
    ((Pipeline.procesar_grupo c k m st).2.1.jsons.find?
      (fun kv => kv.1 = q)).isSome = true := by
  by_cases h1 : (st.jsons.find? (fun kv => kv.1 = k)).isSome = true
  · rw [pg_ignorado c k m st h1]; exact h
  · have h1f : (st.jsons.find? (fun kv => kv.1 = k)).isSome = false :=
      Bool.eq_false_iff.mpr h1
    by_cases h2 : Pipeline.MAX_ERRORES ≤ Pipeline.contar_errores k st.log
    · rw [pg_limite c k m st h1f h2]
      show ((m.foldl Pipeline.moverAError st).jsons.find?
        (fun kv => kv.1 = q)).isSome = true
      rw [(moverAError_fold_resto m st).1]
      exact h
    · by_cases h3 : Pipeline.fallaEtapas (c m) = true
      · obtain ⟨tr, heq⟩ := pg_error c k m st h1f h2 h3
        rw [heq]; exact h
      · have h3f : Pipeline.fallaEtapas (c m) = false := Bool.eq_false_iff.mpr h3
        obtain ⟨rep, _, heq⟩ := pg_ok c k m st h1f h2 h3f
        rw [heq]
        show (List.find? (fun kv => kv.1 = q) ((k, rep) :: st.jsons)).isSome
          = true
        rw [List.find?_cons]
        split
        · rfl
        · exact h

theorem pg_jsons_none_otro (c : Pipeline.Conducta) (k : String)
    (m : List String) (st : Pipeline.Estado) (q : String) (hqk : q ≠ k)
    (h : st.jsons.find? (fun kv => kv.1 = q) = none) :
    (Pipeline.procesar_grupo c k m st).2.1.jsons.find?
      (fun kv => kv.1 = q) = none := by
  by_cases h1 : (st.jsons.find? (fun kv => kv.1 = k)).isSome = true
  · rw [pg_ignorado c k m st h1]; exact h
  · have h1f : (st.jsons.find? (fun kv => kv.1 = k)).isSome = false :=
      Bool.eq_false_iff.mpr h1
    by_cases h2 : Pipeline.MAX_ERRORES ≤ Pipeline.contar_errores k st.log
    · rw [pg_limite c k m st h1f h2]
      show (m.foldl Pipeline.moverAError st).jsons.find?
        (fun kv => kv.1 = q) = none
      rw [(moverAError_fold_resto m st).1]
      exact h
    · by_cases h3 : Pipeline.fallaEtapas (c m) = true
      · obtain ⟨tr, heq⟩ := pg_error c k m st h1f h2 h3
        rw [heq]; exact h
      · have h3f : Pipeline.fallaEtapas (c m) = false := Bool.eq_false_iff.mpr h3
        obtain ⟨rep, _, heq⟩ := pg_ok c k m st h1f h2 h3f
        rw [heq]
        show List.find? (fun kv => kv.1 = q) ((k, rep) :: st.jsons) = none
        rw [List.find?_cons]
        split
        · rename_i hpk
          exact absurd (of_decide_eq_true hpk).symm hqk
        · exact h

theorem pg_contar_mono (c : Pipeline.Conducta) (k : String) (m : List String)
    (st : Pipeline.Estado) (q : String) :
    Pipeline.contar_errores q st.log ≤
      Pipeline.contar_errores q (Pipeline.procesar_grupo c k m st).2.1.log := by
  by_cases h1 : (st.jsons.find? (fun kv => kv.1 = k)).isSome = true
  · rw [pg_ignorado c k m st h1]
  · have h1f : (st.jsons.find? (fun kv => kv.1 = k)).isSome = false :=
      Bool.eq_false_iff.mpr h1
    by_cases h2 : Pipeline.MAX_ERRORES ≤ Pipeline.contar_errores k st.log
    · rw [pg_limite c k m st h1f h2]
      show Pipeline.contar_errores q st.log ≤ Pipeline.contar_errores q
        (Pipeline.escribir_log (m.foldl Pipeline.moverAError st).log k
          "MOVIDO_ERROR" "LIMITE"
          (toString (Pipeline.contar_errores k st.log) ++ " errores") "-")
      rw [(moverAError_fold_resto m st).2.2.2]
      unfold Pipeline.escribir_log
      exact contar_append_mono q st.log _
    · by_cases h3 : Pipeline.fallaEtapas (c m) = true
      · obtain ⟨tr, heq⟩ := pg_error c k m st h1f h2 h3
        rw [heq]
        unfold Pipeline.escribir_log
        exact contar_append_mono q st.log _
      · have h3f : Pipeline.fallaEtapas (c m) = false := Bool.eq_false_iff.mpr h3
        obtain ⟨rep, _, heq⟩ := pg_ok c k m st h1f h2 h3f
        rw [heq]
        unfold Pipeline.escribir_log
        exact contar_append_mono q st.log _

theorem pg_log_ne (c : Pipeline.Conducta) (k : String) (m : List String)
    (st : Pipeline.Estado) (h : st.log ≠ []) :
    (Pipeline.procesar_grupo c k m st).2.1.log ≠ [] := by
  by_cases h1 : (st.jsons.find? (fun kv => kv.1 = k)).isSome = true
  · rw [pg_ignorado c k m st h1]; exact h
  · have h1f : (st.jsons.find? (fun kv => kv.1 = k)).isSome = false :=
      Bool.eq_false_iff.mpr h1
    by_cases h2 : Pipeline.MAX_ERRORES ≤ Pipeline.contar_errores k st.log
    · rw [pg_limite c k m st h1f h2]
      show Pipeline.escribir_log (m.foldl Pipeline.moverAError st).log k
        "MOVIDO_ERROR" "LIMITE"
        (toString (Pipeline.contar_errores k st.log) ++ " errores") "-" ≠ []
      unfold Pipeline.escribir_log
      simp
    · by_cases h3 : Pipeline.fallaEtapas (c m) = true
      · obtain ⟨tr, heq⟩ := pg_error c k m st h1f h2 h3
        rw [heq]
        show Pipeline.escribir_log st.log k "ERROR" "ERROR" "mensaje" "1" ≠ []
        unfold Pipeline.escribir_log
        simp
      · have h3f : Pipeline.fallaEtapas (c m) = false := Bool.eq_false_iff.mpr h3
        obtain ⟨rep, _, heq⟩ := pg_ok c k m st h1f h2 h3f
        rw [heq]
        show Pipeline.escribir_log st.log k "COMPLETO" "OK"
          (toString m.length ++ " PDFs procesados") "1" ≠ []
        unfold Pipeline.escribir_log
        simp

end PITA

namespace PITA

/-! ### `ejecutar_pipeline` as a fold of group steps -/

theorem ejecutar_eq (c : Pipeline.Conducta) (t : String)
    (st : Pipeline.Estado) :
    Pipeline.ejecutar_pipeline c t st =
      (Pipeline.agrupar_pdfs_por_base t
        (Pipeline.ordenarStr (Pipeline.inicializar st).inbox)).foldl
        (Pipeline.pasoGrupo c) (Pipeline.inicializar st, []) := rfl

theorem inicializar_inbox (st : Pipeline.Estado) :
    (Pipeline.inicializar st).inbox = st.inbox := by
  unfold Pipeline.inicializar; split <;> rfl

theorem inicializar_jsons (st : Pipeline.Estado) :
    (Pipeline.inicializar st).jsons = st.jsons := by
  unfold Pipeline.inicializar; split <;> rfl

theorem inicializar_log_ne (st : Pipeline.Estado) :
    (Pipeline.inicializar st).log ≠ [] := by
  unfold Pipeline.inicializar
  split
  · simp
  · rename_i h
    intro hnil
    exact h (by simp [hnil])

theorem inicializar_id (st : Pipeline.Estado) (h : st.log ≠ []) :
    Pipeline.inicializar st = st := by
  unfold Pipeline.inicializar
  rw [if_neg (by simp [List.isEmpty_iff, h])]

theorem fold_inbox_sub (c : Pipeline.Conducta)
    (gs : List (String × List String)) (st : Pipeline.Estado)
    (res : List (String × String)) (g : String)
    (h : g ∈ (gs.foldl (Pipeline.pasoGrupo c) (st, res)).1.inbox) :
    g ∈ st.inbox := by
  induction gs generalizing st res with
  | nil => exact h
  | cons par gs ih =>
    simp only [List.foldl_cons, Pipeline.pasoGrupo] at h
    exact pg_inbox_sub c par.1 par.2 st g (ih _ _ h)

theorem fold_inbox_nodup (c : Pipeline.Conducta)
    (gs : List (String × List String)) (st : Pipeline.Estado)
    (res : List (String × String)) (hnd : st.inbox.Nodup) :
    (gs.foldl (Pipeline.pasoGrupo c) (st, res)).1.inbox.Nodup := by
  induction gs generalizing st res with
  | nil => exact hnd
  | cons par gs ih =>
    simp only [List.foldl_cons, Pipeline.pasoGrupo]
    exact ih _ _ (pg_inbox_nodup c par.1 par.2 st hnd)

theorem fold_inbox_pres (c : Pipeline.Conducta)
    (gs : List (String × List String)) (st : Pipeline.Estado)
    (res : List (String × String)) (g : String)
    (hg : ∀ par ∈ gs, g ∉ par.2) :
    g ∈ (gs.foldl (Pipeline.pasoGrupo c) (st, res)).1.inbox ↔
      g ∈ st.inbox := by
  induction gs generalizing st res with
  | nil => exact Iff.rfl
  | cons par gs ih =>
    simp only [List.foldl_cons, Pipeline.pasoGrupo]
    refine (ih _ _ (fun q hq => hg q (List.mem_cons_of_mem par hq))).trans ?_
    exact pg_inbox_pres c par.1 par.2 st g (hg par (List.mem_cons_self par gs))

theorem fold_jsons_mono (c : Pipeline.Conducta)
    (gs : List (String × List String)) (st : Pipeline.Estado)
    (res : List (String × String)) (q : String)
    (h : (st.jsons.find? (fun kv => kv.1 = q)).isSome = true) :
    ((gs.foldl (Pipeline.pasoGrupo c) (st, res)).1.jsons.find?
      (fun kv => kv.1 = q)).isSome = true := by
  induction gs generalizing st res with
  | nil => exact h
  | cons par gs ih =>
    simp only [List.foldl_cons, Pipeline.pasoGrupo]
    exact ih _ _ (pg_jsons_mono c par.1 par.2 st q h)

theorem fold_jsons_none (c : Pipeline.Conducta)
    (gs : List (String × List String)) (st : Pipeline.Estado)
    (res : List (String × String)) (q : String)
    (hks : ∀ par ∈ gs, par.1 ≠ q)
    (h : st.jsons.find? (fun kv => kv.1 = q) = none) :
    (gs.foldl (Pipeline.pasoGrupo c) (st, res)).1.jsons.find?
      (fun kv => kv.1 = q) = none := by
  induction gs generalizing st res with
  | nil => exact h
  | cons par gs ih =>
    simp only [List.foldl_cons, Pipeline.pasoGrupo]
    refine ih _ _ (fun p hp => hks p (List.mem_cons_of_mem par hp)) ?_
    exact pg_jsons_none_otro c par.1 par.2 st q
      (fun he => hks par (List.mem_cons_self par gs) he.symm) h

theorem fold_contar_mono (c : Pipeline.Conducta)
    (gs : List (String × List String)) (st : Pipeline.Estado)
    (res : List (String × String)) (q : String) :
    Pipeline.contar_errores q st.log ≤ Pipeline.contar_errores q
      (gs.foldl (Pipeline.pasoGrupo c) (st, res)).1.log := by
  induction gs generalizing st res with
  | nil => exact Nat.le_refl _
  | cons par gs ih =>
    simp only [List.foldl_cons, Pipeline.pasoGrupo]
    exact Nat.le_trans (pg_contar_mono c par.1 par.2 st q) (ih _ _)

theorem fold_log_ne (c : Pipeline.Conducta)
    (gs : List (String × List String)) (st : Pipeline.Estado)
    (res : List (String × String)) (h : st.log ≠ []) :
    (gs.foldl (Pipeline.pasoGrupo c) (st, res)).1.log ≠ [] := by
  induction gs generalizing st res with
  | nil => exact h
  | cons par gs ih =>
    simp only [List.foldl_cons, Pipeline.pasoGrupo]
    exact ih _ _ (pg_log_ne c par.1 par.2 st h)

end PITA

namespace PITA

/-! ### A run over groups all certified non-`OK` -/

theorem cert_mono (c : Pipeline.Conducta) (st st2 : Pipeline.Estado)
    (hj : st2.jsons = st.jsons)
    (hlog : ∀ q, Pipeline.contar_errores q st.log ≤
      Pipeline.contar_errores q st2.log)
    (k : String) (m : List String) (h : Pipeline.certNoOK c st k m) :
    Pipeline.certNoOK c st2 k m := by
  rcases h with h | h | h
  · exact Or.inl (by rw [hj]; exact h)
  · exact Or.inr (Or.inl (Nat.le_trans h (hlog k)))
  · exact Or.inr (Or.inr h)

theorem fold_certs (c : Pipeline.Conducta)
    (gs : List (String × List String)) (st : Pipeline.Estado)
    (res : List (String × String))
    (hcert : ∀ par ∈ gs, Pipeline.certNoOK c st par.1 par.2) :
    (gs.foldl (Pipeline.pasoGrupo c) (st, res)).1.jsons = st.jsons ∧
    Pipeline.cuenta (gs.foldl (Pipeline.pasoGrupo c) (st, res)).2 "OK" =
      Pipeline.cuenta res "OK" := by
  induction gs generalizing st res with
  | nil => exact ⟨rfl, rfl⟩
  | cons par gs ih =>
    obtain ⟨k, m⟩ := par
    have hc := hcert (k, m) (List.mem_cons_self _ gs)
    simp only [List.foldl_cons, Pipeline.pasoGrupo]
    by_cases h1 : (st.jsons.find? (fun kv => kv.1 = k)).isSome = true
    · rw [pg_ignorado c k m st h1]
      have hcert2 : ∀ q ∈ gs, Pipeline.certNoOK c st q.1 q.2 :=
        fun q hq => hcert q (List.mem_cons_of_mem _ hq)
      obtain ⟨hj, hcnt⟩ := ih st (res ++ [(k, "IGNORADO")]) hcert2
      refine ⟨hj, ?_⟩
      rw [hcnt, cuenta_append_uno]
      simp
    · have h1f : (st.jsons.find? (fun kv => kv.1 = k)).isSome = false :=
        Bool.eq_false_iff.mpr h1
      by_cases h2 : Pipeline.MAX_ERRORES ≤ Pipeline.contar_errores k st.log
      · rw [pg_limite c k m st h1f h2]
        set st2 : Pipeline.Estado :=
          { (m.foldl Pipeline.moverAError st) with
            log := (Pipeline.escribir_log
              (m.foldl Pipeline.moverAError st).log k "MOVIDO_ERROR" "LIMITE"
              (toString (Pipeline.contar_errores k st.log) ++ " errores")
              "-") } with hst2
        have hj2 : st2.jsons = st.jsons := by
          rw [hst2]
          show (m.foldl Pipeline.moverAError st).jsons = st.jsons
          exact (moverAError_fold_resto m st).1
        have hlog2 : ∀ q, Pipeline.contar_errores q st.log ≤
            Pipeline.contar_errores q st2.log := by
          intro q
          rw [hst2]
          show Pipeline.contar_errores q st.log ≤ Pipeline.contar_errores q
            (Pipeline.escribir_log (m.foldl Pipeline.moverAError st).log k
              "MOVIDO_ERROR" "LIMITE"
              (toString (Pipeline.contar_errores k st.log) ++ " errores") "-")
          rw [(moverAError_fold_resto m st).2.2.2]
          unfold Pipeline.escribir_log
          exact contar_append_mono q st.log _
        have hcert2 : ∀ q ∈ gs, Pipeline.certNoOK c st2 q.1 q.2 :=
          fun q hq => cert_mono c st st2 hj2 hlog2 q.1 q.2
            (hcert q (List.mem_cons_of_mem _ hq))
        obtain ⟨hj, hcnt⟩ := ih st2 (res ++ [(k, "LIMITE_ERRORES")]) hcert2
        refine ⟨hj.trans hj2, ?_⟩
        rw [hcnt, cuenta_append_uno]
        simp
      · have h3 : Pipeline.fallaEtapas (c m) = true := by
          rcases hc with hcj | hcl | hcf
          · exact absurd hcj h1
          · exact absurd hcl h2
          · exact hcf
        obtain ⟨tr, heq⟩ := pg_error c k m st h1f h2 h3
        rw [heq]
        set st2 : Pipeline.Estado :=
          { st with log := (Pipeline.escribir_log st.log k "ERROR" "ERROR"
              "mensaje" "1") } with hst2
        have hj2 : st2.jsons = st.jsons := rfl
        have hlog2 : ∀ q, Pipeline.contar_errores q st.log ≤
            Pipeline.contar_errores q st2.log := by
          intro q
          rw [hst2]
          show Pipeline.contar_errores q st.log ≤ Pipeline.contar_errores q
            (Pipeline.escribir_log st.log k "ERROR" "ERROR" "mensaje" "1")
          unfold Pipeline.escribir_log
          exact contar_append_mono q st.log _
        have hcert2 : ∀ q ∈ gs, Pipeline.certNoOK c st2 q.1 q.2 :=
          fun q hq => cert_mono c st st2 hj2 hlog2 q.1 q.2
            (hcert q (List.mem_cons_of_mem _ hq))
        obtain ⟨hj, hcnt⟩ := ih st2 (res ++ [(k, "ERROR")]) hcert2
        refine ⟨hj.trans hj2, ?_⟩
        rw [hcnt, cuenta_append_uno]
        simp

end PITA

namespace PITA

/-! ### The partition fold of `agrupar_pdfs_por_base` -/

theorem isPrefixOf_append_self (l1 l2 : List Char) :
    l1.isPrefixOf (l1 ++ l2) = true := by
  induction l1 with
  | nil => simp [List.isPrefixOf]
  | cons a t ih => simp [List.isPrefixOf, ih]

theorem empiezaCon_append (p s : String) : empiezaCon p (p ++ s) = true := by
  unfold empiezaCon
  rw [String.data_append]
  exact isPrefixOf_append_self p.data s.data

theorem sda_keys (k : String) (pdf : String)
    (l : List (String × List String)) :
    (Pipeline.setdefaultAppend k pdf l).map Prod.fst =
      if k ∈ l.map Prod.fst then l.map Prod.fst
      else l.map Prod.fst ++ [k] := by
  induction l with
  | nil => simp [Pipeline.setdefaultAppend]
  | cons kv rest ih =>
    obtain ⟨k0, v0⟩ := kv
    unfold Pipeline.setdefaultAppend
    by_cases hk : k0 = k
    · subst hk
      rw [if_pos rfl]
      simp
    · rw [if_neg hk]
      simp only [List.map_cons, ih]
      by_cases hmem : k ∈ rest.map Prod.fst
      · rw [if_pos hmem, if_pos (by simp [hmem])]
      · have hkk : ¬ k = k0 := fun h => hk h.symm
        rw [if_neg hmem, if_neg (by simp [hmem, hkk])]
        simp

theorem sda_mem_cases (k : String) (pdf : String)
    (l : List (String × List String)) (hnd : (l.map Prod.fst).Nodup)
    (kv : String × List String)
    (h : kv ∈ Pipeline.setdefaultAppend k pdf l) :
    (kv ∈ l ∧ kv.1 ≠ k) ∨
    (∃ v, (k, v) ∈ l ∧ kv = (k, v ++ [pdf])) ∨
    (kv = (k, [pdf]) ∧ k ∉ l.map Prod.fst) := by
  induction l with
  | nil =>
    simp only [Pipeline.setdefaultAppend, List.mem_singleton] at h
    exact Or.inr (Or.inr ⟨h, by simp⟩)
  | cons kv0 rest ih =>
    obtain ⟨k0, v0⟩ := kv0
    unfold Pipeline.setdefaultAppend at h
    by_cases hk : k0 = k
    · subst hk
      rw [if_pos rfl] at h
      rcases List.mem_cons.mp h with hh | hh
      · exact Or.inr (Or.inl ⟨v0, List.mem_cons_self _ _, hh⟩)
      · have hk0 : k0 ∉ rest.map Prod.fst := by
          have := hnd
          simp only [List.map_cons, List.nodup_cons] at this
          exact this.1
        refine Or.inl ⟨List.mem_cons_of_mem _ hh, ?_⟩
        intro hkv
        exact hk0 (hkv ▸ List.mem_map_of_mem Prod.fst hh)
    · rw [if_neg hk] at h
      rcases List.mem_cons.mp h with hh | hh
      · exact Or.inl ⟨hh ▸ List.mem_cons_self _ _,
          by rw [hh]; exact fun he => hk he⟩
      · have hnd2 : (rest.map Prod.fst).Nodup := by
          simp only [List.map_cons, List.nodup_cons] at hnd
          exact hnd.2
        rcases ih hnd2 hh with ⟨hm, hne⟩ | ⟨v, hv, he⟩ | ⟨he, hni⟩
        · exact Or.inl ⟨List.mem_cons_of_mem _ hm, hne⟩
        · exact Or.inr (Or.inl ⟨v, List.mem_cons_of_mem _ hv, he⟩)
        · refine Or.inr (Or.inr ⟨he, ?_⟩)
          simp only [List.map_cons, List.mem_cons]
          rintro (hc | hc)
          · exact hk hc.symm
          · exact hni hc

theorem asignarClave_not_mem (k : String) (v : List String)
    (l : List (String × List String)) (h : k ∉ l.map Prod.fst) :
    Pipeline.asignarClave k v l = l ++ [(k, v)] := by
  induction l with
  | nil => rfl
  | cons kv0 rest ih =>
    obtain ⟨k0, v0⟩ := kv0
    have hk : k0 ≠ k := by
      intro he
      exact h (by simp [he])
    unfold Pipeline.asignarClave
    rw [if_neg hk, ih (fun hm => h (by simp [hm]))]
    rfl

end PITA

namespace PITA

theorem inv_paso (procesados : List String)
    (acc : List (String × List String) × List String) (pdf : String)
    (h : Pipeline.InvAgrupar procesados acc) :
    Pipeline.InvAgrupar (procesados ++ [pdf])
      (match reSubUna Pipeline.patSufijoGrupo pdf with
       | some base =>
         (Pipeline.setdefaultAppend (Pipeline.sanitizar_nombre base) pdf acc.1,
          acc.2)
       | none => (acc.1, acc.2 ++ [pdf])) := by
  obtain ⟨h1, h2, h3, h4⟩ := h
  rcases hres : reSubUna Pipeline.patSufijoGrupo pdf with _ | base
  · have hcl : Pipeline.claveP pdf = none := by
      unfold Pipeline.claveP; rw [hres]; rfl
    refine ⟨?_, h2, ?_, ?_⟩
    · intro kv hkv
      obtain ⟨hv, hne⟩ := h1 kv hkv
      refine ⟨?_, hne⟩
      rw [List.filter_append]
      have hnil : List.filter
          (fun f => Pipeline.claveP f = some kv.1) [pdf] = [] := by
        simp [hcl]
      rw [hnil, List.append_nil]
      exact hv
    · intro f hf k hk
      rcases List.mem_append.mp hf with hf2 | hf2
      · exact h3 f hf2 k hk
      · rw [List.mem_singleton] at hf2
        subst hf2
        rw [hcl] at hk
        exact absurd hk (by simp)
    · rw [List.filter_append]
      have hsg : List.filter
          (fun f => (Pipeline.claveP f).isNone) [pdf] = [pdf] := by
        simp [hcl]
      rw [hsg, h4]
  · have hcl : Pipeline.claveP pdf = some (Pipeline.sanitizar_nombre base) := by
      unfold Pipeline.claveP; rw [hres]; rfl
    refine ⟨?_, ?_, ?_, ?_⟩
    · intro kv hkv
      rcases sda_mem_cases (Pipeline.sanitizar_nombre base) pdf acc.1 h2 kv hkv
        with ⟨hm, hne⟩ | ⟨v, hvm, hkv2⟩ | ⟨hkv2, hnotin⟩
      · obtain ⟨hv, hnil⟩ := h1 kv hm
        refine ⟨?_, hnil⟩
        rw [List.filter_append]
        have hz : List.filter
            (fun f => Pipeline.claveP f = some kv.1) [pdf] = [] := by
          have hne2 : ¬ Pipeline.sanitizar_nombre base = kv.1 :=
            fun hc => hne hc.symm
          simp only [List.filter_cons, List.filter_nil]
          rw [hcl]
          simp [hne2]
        rw [hz, List.append_nil]
        exact hv
      · obtain ⟨hv, hnil⟩ := h1 (Pipeline.sanitizar_nombre base, v) hvm
        rw [hkv2]
        constructor
        · rw [List.filter_append]
          have ho : List.filter (fun f =>
              Pipeline.claveP f = some (Pipeline.sanitizar_nombre base)) [pdf]
              = [pdf] := by
            simp [hcl]
          rw [ho]
          simp only at hv
          rw [hv]
        · simp
      · rw [hkv2]
        constructor
        · rw [List.filter_append]
          have hvac : List.filter (fun f =>
              Pipeline.claveP f = some (Pipeline.sanitizar_nombre base))
              procesados = [] := by
            rw [List.filter_eq_nil_iff]
            intro f hf hp
            exact hnotin (h3 f hf (Pipeline.sanitizar_nombre base)
              (of_decide_eq_true hp))
          have ho : List.filter (fun f =>
              Pipeline.claveP f = some (Pipeline.sanitizar_nombre base)) [pdf]
              = [pdf] := by
            simp [hcl]
          rw [hvac, ho, List.nil_append]
        · simp
    · rw [sda_keys]
      split
      · exact h2
      · rename_i hnm
        rw [List.nodup_append]
        exact ⟨h2, List.nodup_singleton _, by simpa using hnm⟩
    · intro f hf k hk
      rw [sda_keys]
      rcases List.mem_append.mp hf with hf2 | hf2
      · have := h3 f hf2 k hk
        split
        · exact this
        · exact List.mem_append_left _ this
      · rw [List.mem_singleton] at hf2
        subst hf2
        rw [hcl] at hk
        have hk2 : Pipeline.sanitizar_nombre base = k := by
          injection hk
        subst hk2
        split
        · assumption
        · exact List.mem_append_right _ (List.mem_singleton_self _)
    · rw [List.filter_append]
      have hz : List.filter
          (fun f => (Pipeline.claveP f).isNone) [pdf] = [] := by
        simp [hcl]
      rw [hz, List.append_nil]
      exact h4

end PITA

namespace PITA

theorem agrupar_fold_inv (pdfs : List String) :
    ∀ (procesados : List String)
      (acc : List (String × List String) × List String),
    Pipeline.InvAgrupar procesados acc →
    Pipeline.InvAgrupar (procesados ++ pdfs)
      (pdfs.foldl (fun acc pdf =>
        match reSubUna Pipeline.patSufijoGrupo pdf with
        | some base =>
          (Pipeline.setdefaultAppend (Pipeline.sanitizar_nombre base) pdf
            acc.1, acc.2)
        | none => (acc.1, acc.2 ++ [pdf])) acc) := by
  induction pdfs with
  | nil =>
    intro procesados acc h
    simpa using h
  | cons pdf rest ih =>
    intro procesados acc h
    rw [List.foldl_cons]
    have h2 := inv_paso procesados acc pdf h
    have h3 := ih (procesados ++ [pdf]) _ h2
    rw [List.append_assoc] at h3
    simpa using h3

theorem agrupar_pre (pdfs : List String) :
    Pipeline.InvAgrupar pdfs
      (pdfs.foldl (fun acc pdf =>
        match reSubUna Pipeline.patSufijoGrupo pdf with
        | some base =>
          (Pipeline.setdefaultAppend (Pipeline.sanitizar_nombre base) pdf
            acc.1, acc.2)
        | none => (acc.1, acc.2 ++ [pdf]))
        (([], []) : List (String × List String) × List String)) := by
  have h0 : Pipeline.InvAgrupar []
      (([], []) : List (String × List String) × List String) :=
    ⟨by simp, by simp, by simp, by simp⟩
  have h := agrupar_fold_inv pdfs [] ([], []) h0
  simpa using h

end PITA

namespace PITA

/-- The `PAQUETE_<timestamp>` key never collides with a patterned group's
key (those never start with `PAQUETE_` under the side condition). -/
theorem nucleo_PK_fuera (t : String) (pdfs : List String)
    (G : List (String × List String))
    (hG : ∀ kv ∈ G, kv.2 =
      pdfs.filter (fun f => Pipeline.claveP f = some kv.1) ∧ kv.2 ≠ [])
    (hpaq : ∀ f ∈ pdfs, ∀ k, Pipeline.claveP f = some k →
      empiezaCon "PAQUETE_" k = false) :
    ("PAQUETE_" ++ t) ∉ G.map Prod.fst := by
  intro hmem
  obtain ⟨kv, hkv, hk1⟩ := List.mem_map.mp hmem
  obtain ⟨hv, hne⟩ := hG kv hkv
  rw [hv] at hne
  obtain ⟨f, hf⟩ := List.exists_mem_of_ne_nil _ hne
  rw [List.mem_filter] at hf
  have hfalse := hpaq f hf.1 kv.1 (of_decide_eq_true hf.2)
  rw [hk1, empiezaCon_append] at hfalse
  cases hfalse

theorem nucleo_miembro (t : String) (pdfs : List String)
    (G : List (String × List String)) (E : List String)
    (hG : ∀ kv ∈ G, kv.2 =
      pdfs.filter (fun f => Pipeline.claveP f = some kv.1) ∧ kv.2 ≠ [])
    (hE : E = pdfs.filter (fun f => (Pipeline.claveP f).isNone))
    (hpaq : ∀ f ∈ pdfs, ∀ k, Pipeline.claveP f = some k →
      empiezaCon "PAQUETE_" k = false) :
    ∀ par ∈ (if E.isEmpty then G
        else Pipeline.asignarClave ("PAQUETE_" ++ t) E G).map (fun par =>
      if empiezaCon "PAQUETE_" par.1 then
        (par.1, Pipeline.ordenarPorClave Pipeline.claveLe
          Pipeline.extraer_orden_documento par.2)
      else (par.1, Pipeline.ordenarPorClave Pipeline.natLe
        Pipeline.extraer_numero_pagina par.2)),
      (par.2 = Pipeline.ordenarPorClave Pipeline.natLe
          Pipeline.extraer_numero_pagina
          (pdfs.filter (fun f => Pipeline.claveP f = some par.1)) ∧
        empiezaCon "PAQUETE_" par.1 = false ∧
        pdfs.filter (fun f => Pipeline.claveP f = some par.1) ≠ []) ∨
      (par.1 = "PAQUETE_" ++ t ∧
        par.2 = Pipeline.ordenarPorClave Pipeline.claveLe
          Pipeline.extraer_orden_documento
          (pdfs.filter (fun f => (Pipeline.claveP f).isNone)) ∧
        pdfs.filter (fun f => (Pipeline.claveP f).isNone) ≠ []) := by
  intro par hpar
  obtain ⟨par0, hpar0, hmap⟩ := List.mem_map.mp hpar
  have hsplit : par0 ∈ G ∨ (par0 = ("PAQUETE_" ++ t, E) ∧ E ≠ []) := by
    by_cases hemp : E.isEmpty
    · rw [if_pos hemp] at hpar0
      exact Or.inl hpar0
    · rw [if_neg hemp,
        asignarClave_not_mem _ _ _ (nucleo_PK_fuera t pdfs G hG hpaq)]
        at hpar0
      rcases List.mem_append.mp hpar0 with hin | hin
      · exact Or.inl hin
      · rw [List.mem_singleton] at hin
        refine Or.inr ⟨hin, ?_⟩
        intro hnil
        exact hemp (by simp [hnil])
  rcases hsplit with hin | ⟨heq, hEne⟩
  · obtain ⟨hv, hne⟩ := hG par0 hin
    have hkey : empiezaCon "PAQUETE_" par0.1 = false := by
      rw [hv] at hne
      obtain ⟨f, hf⟩ := List.exists_mem_of_ne_nil _ hne
      rw [List.mem_filter] at hf
      exact hpaq f hf.1 par0.1 (of_decide_eq_true hf.2)
    refine Or.inl ?_
    rw [← hmap, if_neg (by simp [hkey])]
    refine ⟨?_, hkey, ?_⟩
    · show Pipeline.ordenarPorClave Pipeline.natLe
        Pipeline.extraer_numero_pagina par0.2 = _
      rw [hv]
    · show pdfs.filter (fun f => Pipeline.claveP f = some par0.1) ≠ []
      rw [← hv]
      exact hne
  · refine Or.inr ?_
    rw [← hmap, heq, if_pos (empiezaCon_append "PAQUETE_" t)]
    refine ⟨rfl, by rw [hE], ?_⟩
    rw [← hE]
    exact hEne

theorem nucleo_cubre_pat (t : String) (pdfs : List String)
    (G : List (String × List String)) (E : List String)
    (hG : ∀ kv ∈ G, kv.2 =
      pdfs.filter (fun f => Pipeline.claveP f = some kv.1) ∧ kv.2 ≠ [])
    (hGk : ∀ f ∈ pdfs, ∀ k, Pipeline.claveP f = some k →
      k ∈ G.map Prod.fst)
    (hpaq : ∀ f ∈ pdfs, ∀ k, Pipeline.claveP f = some k →
      empiezaCon "PAQUETE_" k = false)
    (f : String) (hf : f ∈ pdfs) (k : String)
    (hk : Pipeline.claveP f = some k) :
    (k, Pipeline.ordenarPorClave Pipeline.natLe Pipeline.extraer_numero_pagina
      (pdfs.filter (fun g => Pipeline.claveP g = some k))) ∈
    (if E.isEmpty then G
        else Pipeline.asignarClave ("PAQUETE_" ++ t) E G).map (fun par =>
      if empiezaCon "PAQUETE_" par.1 then
        (par.1, Pipeline.ordenarPorClave Pipeline.claveLe
          Pipeline.extraer_orden_documento par.2)
      else (par.1, Pipeline.ordenarPorClave Pipeline.natLe
        Pipeline.extraer_numero_pagina par.2)) := by
  obtain ⟨kv, hkv, hk1⟩ := List.mem_map.mp (hGk f hf k hk)
  obtain ⟨hv, hne⟩ := hG kv hkv
  have hkv2 : kv = (k, pdfs.filter (fun g => Pipeline.claveP g = some k)) := by
    obtain ⟨k1, v1⟩ := kv
    simp only at hk1 hv
    rw [hk1] at hv ⊢
    rw [hv]
  have hing : kv ∈ (if E.isEmpty then G
      else Pipeline.asignarClave ("PAQUETE_" ++ t) E G) := by
    by_cases hemp : E.isEmpty
    · rw [if_pos hemp]; exact hkv
    · rw [if_neg hemp,
        asignarClave_not_mem _ _ _ (nucleo_PK_fuera t pdfs G hG hpaq)]
      exact List.mem_append_left _ hkv
  refine List.mem_map.mpr ⟨kv, hing, ?_⟩
  rw [hkv2]
  simp [hpaq f hf k hk]

theorem nucleo_cubre_paq (t : String) (pdfs : List String)
    (G : List (String × List String)) (E : List String)
    (hG : ∀ kv ∈ G, kv.2 =
      pdfs.filter (fun f => Pipeline.claveP f = some kv.1) ∧ kv.2 ≠ [])
    (hE : E = pdfs.filter (fun f => (Pipeline.claveP f).isNone))
    (hpaq : ∀ f ∈ pdfs, ∀ k, Pipeline.claveP f = some k →
      empiezaCon "PAQUETE_" k = false)
    (f : String) (hf : f ∈ pdfs) (hk : Pipeline.claveP f = none) :
    ("PAQUETE_" ++ t, Pipeline.ordenarPorClave Pipeline.claveLe
      Pipeline.extraer_orden_documento
      (pdfs.filter (fun g => (Pipeline.claveP g).isNone))) ∈
    (if E.isEmpty then G
        else Pipeline.asignarClave ("PAQUETE_" ++ t) E G).map (fun par =>
      if empiezaCon "PAQUETE_" par.1 then
        (par.1, Pipeline.ordenarPorClave Pipeline.claveLe
          Pipeline.extraer_orden_documento par.2)
      else (par.1, Pipeline.ordenarPorClave Pipeline.natLe
        Pipeline.extraer_numero_pagina par.2)) := by
  have hfE : f ∈ E := by
    rw [hE, List.mem_filter]
    exact ⟨hf, by rw [hk]; rfl⟩
  have hemp : ¬ E.isEmpty = true := by
    intro he
    rw [List.isEmpty_iff] at he
    rw [he] at hfE
    exact List.not_mem_nil f hfE
  have hing : ("PAQUETE_" ++ t, E) ∈ (if E.isEmpty then G
      else Pipeline.asignarClave ("PAQUETE_" ++ t) E G) := by
    rw [if_neg hemp,
      asignarClave_not_mem _ _ _ (nucleo_PK_fuera t pdfs G hG hpaq)]
    exact List.mem_append_right _ (List.mem_singleton_self _)
  refine List.mem_map.mpr ⟨("PAQUETE_" ++ t, E), hing, ?_⟩
  simp [empiezaCon_append, hE]

end PITA

namespace PITA

theorem nucleo_keys_nodup (t : String) (pdfs : List String)
    (G : List (String × List String)) (E : List String)
    (hG : ∀ kv ∈ G, kv.2 =
      pdfs.filter (fun f => Pipeline.claveP f = some kv.1) ∧ kv.2 ≠ [])
    (hGn : (G.map Prod.fst).Nodup)
    (hpaq : ∀ f ∈ pdfs, ∀ k, Pipeline.claveP f = some k →
      empiezaCon "PAQUETE_" k = false) :
    (((if E.isEmpty then G
        else Pipeline.asignarClave ("PAQUETE_" ++ t) E G).map (fun par =>
      if empiezaCon "PAQUETE_" par.1 then
        (par.1, Pipeline.ordenarPorClave Pipeline.claveLe
          Pipeline.extraer_orden_documento par.2)
      else (par.1, Pipeline.ordenarPorClave Pipeline.natLe
        Pipeline.extraer_numero_pagina par.2))).map Prod.fst).Nodup := by
  rw [List.map_map]
  have hcomp : (Prod.fst ∘ (fun par : String × List String =>
      if empiezaCon "PAQUETE_" par.1 then
        (par.1, Pipeline.ordenarPorClave Pipeline.claveLe
          Pipeline.extraer_orden_documento par.2)
      else (par.1, Pipeline.ordenarPorClave Pipeline.natLe
        Pipeline.extraer_numero_pagina par.2))) = Prod.fst := by
    funext par
    simp only [Function.comp_apply]
    split <;> rfl
  rw [hcomp]
  by_cases hemp : E.isEmpty
  · rw [if_pos hemp]
    exact hGn
  · rw [if_neg hemp,
      asignarClave_not_mem _ _ _ (nucleo_PK_fuera t pdfs G hG hpaq),
      List.map_append, List.nodup_append]
    refine ⟨hGn, List.nodup_singleton _, ?_⟩
    intro a ha hb
    rw [List.map_singleton, List.mem_singleton] at hb
    rw [hb] at ha
    exact nucleo_PK_fuera t pdfs G hG hpaq ha

/-- Every group `agrupar_pdfs_por_base` emits is either a patterned group
— key never `PAQUETE_`-prefixed, members exactly the files of that key in
input order sorted by page number — or the single `PAQUETE_<timestamp>`
group holding every unpatterned file sorted by document order. -/
theorem agrupar_miembro (t : String) (pdfs : List String)
    (hpaq : ∀ f ∈ pdfs, ∀ k, Pipeline.claveP f = some k →
      empiezaCon "PAQUETE_" k = false) :
    ∀ par ∈ Pipeline.agrupar_pdfs_por_base t pdfs,
      (par.2 = Pipeline.ordenarPorClave Pipeline.natLe
          Pipeline.extraer_numero_pagina
          (pdfs.filter (fun f => Pipeline.claveP f = some par.1)) ∧
        empiezaCon "PAQUETE_" par.1 = false ∧
        pdfs.filter (fun f => Pipeline.claveP f = some par.1) ≠ []) ∨
      (par.1 = "PAQUETE_" ++ t ∧
        par.2 = Pipeline.ordenarPorClave Pipeline.claveLe
          Pipeline.extraer_orden_documento
          (pdfs.filter (fun f => (Pipeline.claveP f).isNone)) ∧
        pdfs.filter (fun f => (Pipeline.claveP f).isNone) ≠ []) := by
  obtain ⟨h1, h2, h3, h4⟩ := agrupar_pre pdfs
  intro par hpar
  refine nucleo_miembro t pdfs _ _ h1 h4 hpaq par ?_
  simp only [Pipeline.agrupar_pdfs_por_base] at hpar
  exact hpar

/-- Every patterned file's key has its group in the grouping. -/
theorem agrupar_cubre_pat (t : String) (pdfs : List String)
    (hpaq : ∀ f ∈ pdfs, ∀ k, Pipeline.claveP f = some k →
      empiezaCon "PAQUETE_" k = false)
    (f : String) (hf : f ∈ pdfs) (k : String)
    (hk : Pipeline.claveP f = some k) :
    (k, Pipeline.ordenarPorClave Pipeline.natLe Pipeline.extraer_numero_pagina
      (pdfs.filter (fun g => Pipeline.claveP g = some k))) ∈
    Pipeline.agrupar_pdfs_por_base t pdfs := by
  obtain ⟨h1, h2, h3, h4⟩ := agrupar_pre pdfs
  simp only [Pipeline.agrupar_pdfs_por_base]
  exact nucleo_cubre_pat t pdfs _ _ h1 h3 hpaq f hf k hk

/-- When an unpatterned file exists, the `PAQUETE_<timestamp>` group is in
the grouping with every unpatterned file, sorted by document order. -/
theorem agrupar_cubre_paq (t : String) (pdfs : List String)
    (hpaq : ∀ f ∈ pdfs, ∀ k, Pipeline.claveP f = some k →
      empiezaCon "PAQUETE_" k = false)
    (f : String) (hf : f ∈ pdfs) (hk : Pipeline.claveP f = none) :
    ("PAQUETE_" ++ t, Pipeline.ordenarPorClave Pipeline.claveLe
      Pipeline.extraer_orden_documento
      (pdfs.filter (fun g => (Pipeline.claveP g).isNone))) ∈
    Pipeline.agrupar_pdfs_por_base t pdfs := by
  obtain ⟨h1, h2, h3, h4⟩ := agrupar_pre pdfs
  simp only [Pipeline.agrupar_pdfs_por_base]
  exact nucleo_cubre_paq t pdfs _ _ h1 h4 hpaq f hf hk

/-- No two groups share a key. -/
theorem agrupar_keys_nodup (t : String) (pdfs : List String)
    (hpaq : ∀ f ∈ pdfs, ∀ k, Pipeline.claveP f = some k →
      empiezaCon "PAQUETE_" k = false) :
    ((Pipeline.agrupar_pdfs_por_base t pdfs).map Prod.fst).Nodup := by
  obtain ⟨h1, h2, h3, h4⟩ := agrupar_pre pdfs
  simp only [Pipeline.agrupar_pdfs_por_base]
  exact nucleo_keys_nodup t pdfs _ _ h1 h2 hpaq

end PITA

namespace PITA

/-- Each member of a group comes from the grouped list and carries its
group's key (patterned), or is unpatterned in the `PAQUETE` group. -/
theorem agrupar_miembro_clave (t : String) (pdfs : List String)
    (hpaq : ∀ f ∈ pdfs, ∀ k, Pipeline.claveP f = some k →
      empiezaCon "PAQUETE_" k = false) :
    ∀ par ∈ Pipeline.agrupar_pdfs_por_base t pdfs, ∀ g ∈ par.2,
      g ∈ pdfs ∧
      ((Pipeline.claveP g = some par.1 ∧
          empiezaCon "PAQUETE_" par.1 = false) ∨
        (par.1 = "PAQUETE_" ++ t ∧ Pipeline.claveP g = none)) := by
  intro par hpar g hg
  rcases agrupar_miembro t pdfs hpaq par hpar with ⟨hv, hkey, _⟩ | ⟨hk, hv, _⟩
  · rw [hv, mem_ordenarPorClave, List.mem_filter] at hg
    exact ⟨hg.1, Or.inl ⟨of_decide_eq_true hg.2, hkey⟩⟩
  · rw [hv, mem_ordenarPorClave, List.mem_filter] at hg
    exact ⟨hg.1, Or.inr ⟨hk, Option.isNone_iff_eq_none.mp hg.2⟩⟩

/-- A group splits its grouping into a front and a back that never reuse
its key. -/
theorem split_por_clave (G : List (String × List String)) (k : String)
    (m : List String) (hmem : (k, m) ∈ G) (hnd : (G.map Prod.fst).Nodup) :
    ∃ A B, G = A ++ (k, m) :: B ∧ (∀ par ∈ A, par.1 ≠ k) ∧
      (∀ par ∈ B, par.1 ≠ k) := by
  obtain ⟨A, B, rfl⟩ := List.append_of_mem hmem
  rw [List.map_append, List.map_cons, List.nodup_append] at hnd
  refine ⟨A, B, rfl, ?_, ?_⟩
  · intro par hpar he
    have hk : k ∈ A.map Prod.fst := by
      rw [← he]
      exact List.mem_map_of_mem Prod.fst hpar
    exact hnd.2.2 hk (List.mem_cons_self _ _)
  · intro par hpar he
    have hk : k ∈ B.map Prod.fst := by
      rw [← he]
      exact List.mem_map_of_mem Prod.fst hpar
    exact (List.nodup_cons.mp hnd.2.1).1 hk

theorem corrida_grupo_pat (c : Pipeline.Conducta)
    (A B : List (String × List String)) (k : String) (m : List String)
    (st : Pipeline.Estado) (res : List (String × String))
    (hAB : ∀ par ∈ A ++ B, ∀ g ∈ m, g ∉ par.2)
    (hm : ∀ g ∈ m, g ∈ st.inbox) (hnd : st.inbox.Nodup) :
    ((((A ++ (k, m) :: B).foldl (Pipeline.pasoGrupo c)
        (st, res)).1.jsons.find? (fun kv => kv.1 = k)).isSome = true) ∨
    Pipeline.MAX_ERRORES ≤ Pipeline.contar_errores k
      ((A ++ (k, m) :: B).foldl (Pipeline.pasoGrupo c) (st, res)).1.log ∨
    (Pipeline.fallaEtapas (c m) = true ∧ ∀ g ∈ m,
      g ∈ ((A ++ (k, m) :: B).foldl (Pipeline.pasoGrupo c) (st, res)).1.inbox)
    := by
  obtain ⟨stA, resA, hA⟩ :
      ∃ stA resA, A.foldl (Pipeline.pasoGrupo c) (st, res) = (stA, resA) :=
    ⟨_, _, rfl⟩
  have hmA : ∀ g ∈ m, g ∈ stA.inbox := by
    intro g hg
    have h2 := (fold_inbox_pres c A st res g
      (fun par hpar => hAB par (List.mem_append_left _ hpar) g hg)).mpr
      (hm g hg)
    rw [hA] at h2
    exact h2
  have hndA : stA.inbox.Nodup := by
    have h2 := fold_inbox_nodup c A st res hnd
    rw [hA] at h2
    exact h2
  rw [List.foldl_append, hA, List.foldl_cons]
  simp only [Pipeline.pasoGrupo]
  by_cases h1 : (stA.jsons.find? (fun kv => kv.1 = k)).isSome = true
  · left
    exact fold_jsons_mono c B _ _ k (pg_jsons_mono c k m stA k h1)
  · have h1f : (stA.jsons.find? (fun kv => kv.1 = k)).isSome = false :=
      Bool.eq_false_iff.mpr h1
    by_cases h2 : Pipeline.MAX_ERRORES ≤ Pipeline.contar_errores k stA.log
    · right; left
      refine Nat.le_trans (Nat.le_trans h2 (pg_contar_mono c k m stA k)) ?_
      exact fold_contar_mono c B _ _ k
    · by_cases h3 : Pipeline.fallaEtapas (c m) = true
      · right; right
        obtain ⟨tr, heq⟩ := pg_error c k m stA h1f h2 h3
        refine ⟨h3, ?_⟩
        intro g hg
        have hgs : g ∈ (Pipeline.procesar_grupo c k m stA).2.1.inbox := by
          rw [heq]
          exact hmA g hg
        exact (fold_inbox_pres c B _ _ g
          (fun par hpar => hAB par (List.mem_append_right _ hpar) g hg)).mpr
          hgs
      · left
        have h3f : Pipeline.fallaEtapas (c m) = false :=
          Bool.eq_false_iff.mpr h3
        obtain ⟨rep, hrep, heq⟩ := pg_ok c k m stA h1f h2 h3f
        refine fold_jsons_mono c B _ _ k ?_
        rw [heq]
        show (List.find? (fun kv => kv.1 = k) ((k, rep) :: stA.jsons)).isSome
          = true
        rw [List.find?_cons]
        split
        · rfl
        · rename_i hko
          simp at hko

theorem corrida_grupo_paq (c : Pipeline.Conducta)
    (A B : List (String × List String)) (k : String) (m : List String)
    (st : Pipeline.Estado) (res : List (String × String))
    (hAB : ∀ par ∈ A ++ B, ∀ g ∈ m, g ∉ par.2)
    (hAkeys : ∀ par ∈ A, par.1 ≠ k)
    (hjs : st.jsons.find? (fun kv => kv.1 = k) = none)
    (hm : ∀ g ∈ m, g ∈ st.inbox) (hnd : st.inbox.Nodup)
    (f : String) (hf : f ∈ m) :
    f ∉ ((A ++ (k, m) :: B).foldl (Pipeline.pasoGrupo c) (st, res)).1.inbox ∨
    (Pipeline.fallaEtapas (c m) = true ∧ ∀ g ∈ m,
      g ∈ ((A ++ (k, m) :: B).foldl (Pipeline.pasoGrupo c) (st, res)).1.inbox)
    := by
  obtain ⟨stA, resA, hA⟩ :
      ∃ stA resA, A.foldl (Pipeline.pasoGrupo c) (st, res) = (stA, resA) :=
    ⟨_, _, rfl⟩
  have hmA : ∀ g ∈ m, g ∈ stA.inbox := by
    intro g hg
    have h2 := (fold_inbox_pres c A st res g
      (fun par hpar => hAB par (List.mem_append_left _ hpar) g hg)).mpr
      (hm g hg)
    rw [hA] at h2
    exact h2
  have hndA : stA.inbox.Nodup := by
    have h2 := fold_inbox_nodup c A st res hnd
    rw [hA] at h2
    exact h2
  have hjsA : stA.jsons.find? (fun kv => kv.1 = k) = none := by
    have h2 := fold_jsons_none c A st res k hAkeys hjs
    rw [hA] at h2
    exact h2
  have h1f : (stA.jsons.find? (fun kv => kv.1 = k)).isSome = false := by
    rw [hjsA]; rfl
  rw [List.foldl_append, hA, List.foldl_cons]
  simp only [Pipeline.pasoGrupo]
  by_cases h2 : Pipeline.MAX_ERRORES ≤ Pipeline.contar_errores k stA.log
  · left
    rw [pg_limite c k m stA h1f h2]
    intro hmem
    have hsub := fold_inbox_sub c B _ _ f hmem
    have hout := (moverAError_fold_mueve m stA hndA f hf (hmA f hf)).1
    exact hout hsub
  · by_cases h3 : Pipeline.fallaEtapas (c m) = true
    · right
      obtain ⟨tr, heq⟩ := pg_error c k m stA h1f h2 h3
      refine ⟨h3, ?_⟩
      intro g hg
      have hgs : g ∈ (Pipeline.procesar_grupo c k m stA).2.1.inbox := by
        rw [heq]
        exact hmA g hg
      exact (fold_inbox_pres c B _ _ g
        (fun par hpar => hAB par (List.mem_append_right _ hpar) g hg)).mpr hgs
    · left
      have h3f : Pipeline.fallaEtapas (c m) = false :=
        Bool.eq_false_iff.mpr h3
      obtain ⟨rep, hrep, heq⟩ := pg_ok c k m stA h1f h2 h3f
      rw [heq]
      intro hmem
      have hsub := fold_inbox_sub c B _ _ f hmem
      exact eraseFold_mueve m stA.inbox f hndA hf hsub

end PITA

namespace PITA

/-- A key's file set is the same in both runs' sorted Inboxes when every
such file survived run one: the sorted filters agree as lists. -/
theorem filtro_igual (p : String → Bool) (l0 l1 : List String)
    (hnd0 : l0.Nodup) (hnd1 : l1.Nodup)
    (h01 : ∀ g ∈ l1, g ∈ l0)
    (hsub : ∀ g ∈ (Pipeline.ordenarStr l0).filter p, g ∈ l1) :
    (Pipeline.ordenarStr l1).filter p =
      (Pipeline.ordenarStr l0).filter p := by
  refine listasIguales _ _ ((sorted_ordenarStr l1).filter p)
    ((sorted_ordenarStr l0).filter p) ((nodup_ordenarStr l1 hnd1).filter p)
    ((nodup_ordenarStr l0 hnd0).filter p) ?_
  intro a
  constructor
  · intro ha
    rw [List.mem_filter] at ha ⊢
    rw [mem_ordenarStr] at ha
    exact ⟨(mem_ordenarStr l0 a).mpr (h01 a ha.1), ha.2⟩
  · intro ha
    have h2 := hsub a ha
    rw [List.mem_filter] at ha ⊢
    exact ⟨(mem_ordenarStr l1 a).mpr h2, ha.2⟩

end PITA

namespace PITA

/-- After one full run from `st0`, every group of a second run is
certified non-`OK`: its report exists, its error count is at the limit,
or the stage oracle fails on its (unchanged) member list. -/
theorem segunda_corrida_certs (conducta : Pipeline.Conducta) (t1 t2 : String)
    (st0 st1 : Pipeline.Estado) (res1 : List (String × String))
    (hnd : st0.inbox.Nodup)
    (hpaq : ∀ f ∈ st0.inbox, ∀ k, Pipeline.claveP f = some k →
      empiezaCon "PAQUETE_" k = false)
    (hfresh : st0.jsons.find? (fun kv => kv.1 = "PAQUETE_" ++ t1) = none)
    (hR1 : (Pipeline.agrupar_pdfs_por_base t1
        (Pipeline.ordenarStr st0.inbox)).foldl
        (Pipeline.pasoGrupo conducta) (Pipeline.inicializar st0, [])
        = (st1, res1)) :
    ∀ par ∈ Pipeline.agrupar_pdfs_por_base t2
        (Pipeline.ordenarStr st1.inbox),
      Pipeline.certNoOK conducta st1 par.1 par.2 := by
  have hinb0 : (Pipeline.inicializar st0).inbox = st0.inbox :=
    inicializar_inbox st0
  have h1sub : ∀ g ∈ st1.inbox, g ∈ st0.inbox := by
    intro g hg
    have h2 := fold_inbox_sub conducta _ (Pipeline.inicializar st0) [] g
      (by rw [hR1]; exact hg)
    rw [hinb0] at h2
    exact h2
  have h1nd : st1.inbox.Nodup := by
    have h2 := fold_inbox_nodup conducta
      (Pipeline.agrupar_pdfs_por_base t1 (Pipeline.ordenarStr st0.inbox))
      (Pipeline.inicializar st0) [] (by rw [hinb0]; exact hnd)
    rw [hR1] at h2
    exact h2
  have hpaq0s : ∀ f ∈ Pipeline.ordenarStr st0.inbox, ∀ k,
      Pipeline.claveP f = some k → empiezaCon "PAQUETE_" k = false :=
    fun f hf => hpaq f ((mem_ordenarStr _ f).mp hf)
  have hpaq1s : ∀ f ∈ Pipeline.ordenarStr st1.inbox, ∀ k,
      Pipeline.claveP f = some k → empiezaCon "PAQUETE_" k = false :=
    fun f hf => hpaq f (h1sub f ((mem_ordenarStr _ f).mp hf))
  intro par hpar
  unfold Pipeline.certNoOK
  rcases agrupar_miembro t2 _ hpaq1s par hpar with
    ⟨hv, hkey, hne⟩ | ⟨hk, hv, hne⟩
  · -- a patterned second-run group
    obtain ⟨f, hfflt⟩ := List.exists_mem_of_ne_nil _ hne
    have hf1 : f ∈ st1.inbox :=
      (mem_ordenarStr _ f).mp (List.mem_filter.mp hfflt).1
    have hkf : Pipeline.claveP f = some par.1 :=
      of_decide_eq_true (List.mem_filter.mp hfflt).2
    have hf0 : f ∈ st0.inbox := h1sub f hf1
    have hgrp1 := agrupar_cubre_pat t1 _ hpaq0s f
      ((mem_ordenarStr _ f).mpr hf0) par.1 hkf
    set m1 := Pipeline.ordenarPorClave Pipeline.natLe
      Pipeline.extraer_numero_pagina
      ((Pipeline.ordenarStr st0.inbox).filter
        (fun g => Pipeline.claveP g = some par.1)) with hm1def
    obtain ⟨A, B, hGsplit, hAk, hBk⟩ := split_por_clave _ par.1 m1 hgrp1
      (agrupar_keys_nodup t1 _ hpaq0s)
    have hm1key : ∀ g ∈ m1, Pipeline.claveP g = some par.1 := by
      intro g hg
      rw [hm1def, mem_ordenarPorClave, List.mem_filter] at hg
      exact of_decide_eq_true hg.2
    have hm1in0 : ∀ g ∈ m1, g ∈ st0.inbox := by
      intro g hg
      rw [hm1def, mem_ordenarPorClave, List.mem_filter] at hg
      exact (mem_ordenarStr _ g).mp hg.1
    have hABm : ∀ q ∈ A ++ B, ∀ g ∈ m1, g ∉ q.2 := by
      intro q hq g hg hgq
      have hqG : q ∈ Pipeline.agrupar_pdfs_por_base t1
          (Pipeline.ordenarStr st0.inbox) := by
        rw [hGsplit]
        rcases List.mem_append.mp hq with h | h
        · exact List.mem_append_left _ h
        · exact List.mem_append_right _ (List.mem_cons_of_mem _ h)
      have hcl := agrupar_miembro_clave t1 _ hpaq0s q hqG g hgq
      rcases hcl.2 with ⟨hsome, _⟩ | ⟨hqk, hnone⟩
      · have hq1 : q.1 = par.1 := by
          have hgk := hm1key g hg
          rw [hsome] at hgk
          injection hgk
        rcases List.mem_append.mp hq with h | h
        · exact hAk q h hq1
        · exact hBk q h hq1
      · rw [hm1key g hg] at hnone
        cases hnone
    rw [hGsplit] at hR1
    have hdest := corrida_grupo_pat conducta A B par.1 m1
      (Pipeline.inicializar st0) [] hABm
      (fun g hg => by rw [hinb0]; exact hm1in0 g hg)
      (by rw [hinb0]; exact hnd)
    rw [hR1] at hdest
    rcases hdest with hj | hl | ⟨hfail, hsubm⟩
    · exact Or.inl hj
    · exact Or.inr (Or.inl hl)
    · refine Or.inr (Or.inr ?_)
      have hfe : (Pipeline.ordenarStr st1.inbox).filter
          (fun g => Pipeline.claveP g = some par.1) =
          (Pipeline.ordenarStr st0.inbox).filter
          (fun g => Pipeline.claveP g = some par.1) := by
        refine filtro_igual _ st0.inbox st1.inbox hnd h1nd h1sub ?_
        intro g hg
        exact hsubm g (by rw [hm1def, mem_ordenarPorClave]; exact hg)
      rw [hv, hfe, ← hm1def]
      exact hfail
  · -- the second run's PAQUETE group
    obtain ⟨f, hfflt⟩ := List.exists_mem_of_ne_nil _ hne
    have hf1 : f ∈ st1.inbox :=
      (mem_ordenarStr _ f).mp (List.mem_filter.mp hfflt).1
    have hkf : Pipeline.claveP f = none :=
      Option.isNone_iff_eq_none.mp (List.mem_filter.mp hfflt).2
    have hf0 : f ∈ st0.inbox := h1sub f hf1
    have hgrp1 := agrupar_cubre_paq t1 _ hpaq0s f
      ((mem_ordenarStr _ f).mpr hf0) hkf
    set m1 := Pipeline.ordenarPorClave Pipeline.claveLe
      Pipeline.extraer_orden_documento
      ((Pipeline.ordenarStr st0.inbox).filter
        (fun g => (Pipeline.claveP g).isNone)) with hm1def
    obtain ⟨A, B, hGsplit, hAk, hBk⟩ := split_por_clave _
      ("PAQUETE_" ++ t1) m1 hgrp1 (agrupar_keys_nodup t1 _ hpaq0s)
    have hm1none : ∀ g ∈ m1, Pipeline.claveP g = none := by
      intro g hg
      rw [hm1def, mem_ordenarPorClave, List.mem_filter] at hg
      exact Option.isNone_iff_eq_none.mp hg.2
    have hm1in0 : ∀ g ∈ m1, g ∈ st0.inbox := by
      intro g hg
      rw [hm1def, mem_ordenarPorClave, List.mem_filter] at hg
      exact (mem_ordenarStr _ g).mp hg.1
    have hfm1 : f ∈ m1 := by
      rw [hm1def, mem_ordenarPorClave, List.mem_filter]
      exact ⟨(mem_ordenarStr _ f).mpr hf0, by rw [hkf]; rfl⟩
    have hABm : ∀ q ∈ A ++ B, ∀ g ∈ m1, g ∉ q.2 := by
      intro q hq g hg hgq
      have hqG : q ∈ Pipeline.agrupar_pdfs_por_base t1
          (Pipeline.ordenarStr st0.inbox) := by
        rw [hGsplit]
        rcases List.mem_append.mp hq with h | h
        · exact List.mem_append_left _ h
        · exact List.mem_append_right _ (List.mem_cons_of_mem _ h)
      have hcl := agrupar_miembro_clave t1 _ hpaq0s q hqG g hgq
      rcases hcl.2 with ⟨hsome, _⟩ | ⟨hqk, _⟩
      · rw [hm1none g hg] at hsome
        cases hsome
      · rcases List.mem_append.mp hq with h | h
        · exact hAk q h hqk
        · exact hBk q h hqk
    rw [hGsplit] at hR1
    have hjs : (Pipeline.inicializar st0).jsons.find?
        (fun kv => kv.1 = "PAQUETE_" ++ t1) = none := by
      rw [inicializar_jsons]
      exact hfresh
    have hdest := corrida_grupo_paq conducta A B ("PAQUETE_" ++ t1) m1
      (Pipeline.inicializar st0) [] hABm hAk hjs
      (fun g hg => by rw [hinb0]; exact hm1in0 g hg)
      (by rw [hinb0]; exact hnd) f hfm1
    rw [hR1] at hdest
    rcases hdest with hout | ⟨hfail, hsubm⟩
    · exact absurd hf1 hout
    · refine Or.inr (Or.inr ?_)
      have hfe : (Pipeline.ordenarStr st1.inbox).filter
          (fun g => (Pipeline.claveP g).isNone) =
          (Pipeline.ordenarStr st0.inbox).filter
          (fun g => (Pipeline.claveP g).isNone) := by
        refine filtro_igual _ st0.inbox st1.inbox hnd h1nd h1sub ?_
        intro g hg
        exact hsubm g (by rw [hm1def, mem_ordenarPorClave]; exact hg)
      rw [hv, hfe, ← hm1def]
      exact hfail

end PITA

namespace PITA

/-- C6: a `group_key` whose final JSON report exists is returned
`IGNORADO` with the state untouched and no stage attempted; and a second
pipeline run over the state a first run left behind adds no `OK` outcome
and leaves the report store exactly as the first run left it.  (The
second run's statuses are not all `IGNORADO`: packages whose stages
failed are re-attempted — see the counterexample.)  Side conditions: the
Inbox holds no duplicate names, no patterned file's key starts with
`PAQUETE_`, and no report is already stored under the first run's
`PAQUETE_<timestamp>` key. -/
theorem C6_idempotencia_reportes (conducta : Pipeline.Conducta)
    (t1 t2 : String) (st0 : Pipeline.Estado)
    (hnd : st0.inbox.Nodup)
    (hpaq : ∀ f ∈ st0.inbox, ∀ k, Pipeline.claveP f = some k →
      empiezaCon "PAQUETE_" k = false)
    (hfresh : st0.jsons.find? (fun kv => kv.1 = "PAQUETE_" ++ t1) = none) :
    (∀ nombre lista (st : Pipeline.Estado),
       (st.jsons.find? (fun kv => kv.1 = nombre)).isSome = true →
       Pipeline.procesar_grupo conducta nombre lista st =
         ("IGNORADO", st, [])) ∧
    Pipeline.cuenta (Pipeline.ejecutar_pipeline conducta t2
      (Pipeline.ejecutar_pipeline conducta t1 st0).1).2 "OK" = 0 ∧
    (Pipeline.ejecutar_pipeline conducta t2
      (Pipeline.ejecutar_pipeline conducta t1 st0).1).1.jsons =
      (Pipeline.ejecutar_pipeline conducta t1 st0).1.jsons := by
  obtain ⟨st1, res1, hR1⟩ : ∃ st1 res1,
      (Pipeline.agrupar_pdfs_por_base t1
        (Pipeline.ordenarStr st0.inbox)).foldl
        (Pipeline.pasoGrupo conducta) (Pipeline.inicializar st0, [])
        = (st1, res1) := ⟨_, _, rfl⟩
  have hrun1 : Pipeline.ejecutar_pipeline conducta t1 st0 = (st1, res1) := by
    rw [ejecutar_eq, inicializar_inbox]
    exact hR1
  have h1log : st1.log ≠ [] := by
    have h2 := fold_log_ne conducta
      (Pipeline.agrupar_pdfs_por_base t1 (Pipeline.ordenarStr st0.inbox))
      (Pipeline.inicializar st0) [] (inicializar_log_ne st0)
    rw [hR1] at h2
    exact h2
  have hrun2 : Pipeline.ejecutar_pipeline conducta t2 st1 =
      (Pipeline.agrupar_pdfs_por_base t2
        (Pipeline.ordenarStr st1.inbox)).foldl
        (Pipeline.pasoGrupo conducta) (st1, []) := by
    rw [ejecutar_eq, inicializar_id st1 h1log]
  have hcerts := segunda_corrida_certs conducta t1 t2 st0 st1 res1 hnd hpaq
    hfresh hR1
  obtain ⟨hj, hcnt⟩ := fold_certs conducta
    (Pipeline.agrupar_pdfs_por_base t2 (Pipeline.ordenarStr st1.inbox))
    st1 [] hcerts
  refine ⟨fun nombre lista st h => pg_ignorado conducta nombre lista st h,
    ?_, ?_⟩
  · rw [hrun1]
    show Pipeline.cuenta
      (Pipeline.ejecutar_pipeline conducta t2 st1).2 "OK" = 0
    rw [hrun2]
    exact hcnt
  · rw [hrun1]
    show (Pipeline.ejecutar_pipeline conducta t2 st1).1.jsons = st1.jsons
    rw [hrun2]
    exact hj

/-- C6: counterexample to "running the pipeline a second time over the
same inbox with no new files produces zero additional OK outcomes (all
packages IGNORED)".  A package whose OCR stage fails is left in the
Inbox; the second run re-attempts it and ends in `ERROR` again — no
package of that run is `IGNORADO`. -/
theorem C6_counterexample_reintento :
    Pipeline.cuenta (Pipeline.ejecutar_pipeline
        (fun _ => ⟨true, false, none⟩) "t2"
        (Pipeline.ejecutar_pipeline (fun _ => ⟨true, false, none⟩) "t1"
          ⟨["A-1-1.pdf"], [], [], [], [], []⟩).1).2 "IGNORADO" = 0 ∧
    (Pipeline.ejecutar_pipeline (fun _ => ⟨true, false, none⟩) "t2"
        (Pipeline.ejecutar_pipeline (fun _ => ⟨true, false, none⟩) "t1"
          ⟨["A-1-1.pdf"], [], [], [], [], []⟩).1).2 = [("A", "ERROR")] ∧
    (Pipeline.ejecutar_pipeline (fun _ => ⟨true, false, none⟩) "t1"
      ⟨["A-1-1.pdf"], [], [], [], [], []⟩).1.inbox = ["A-1-1.pdf"] := by
  refine ⟨by decide, by decide, by decide⟩

/-- C6's amended theorem at a concrete two-file Inbox whose stages fail:
the side conditions hold and the second run adds no `OK`. -/
theorem C6_idempotencia_reportes_witness :
    ((["A-1-1.pdf", "B.pdf"] : List String).Nodup ∧
     (∀ f ∈ (["A-1-1.pdf", "B.pdf"] : List String), ∀ k,
       Pipeline.claveP f = some k → empiezaCon "PAQUETE_" k = false) ∧
     (([] : List (String × V3.Reporte)).find?
       (fun kv => kv.1 = "PAQUETE_" ++ "t1") = none)) ∧
    Pipeline.cuenta (Pipeline.ejecutar_pipeline
      (fun _ => ⟨true, false, none⟩) "t2"
      (Pipeline.ejecutar_pipeline (fun _ => ⟨true, false, none⟩) "t1"
        ⟨["A-1-1.pdf", "B.pdf"], [], [], [], [], []⟩).1).2 "OK" = 0 := by
  have hpaqw : ∀ f ∈ (["A-1-1.pdf", "B.pdf"] : List String), ∀ k,
      Pipeline.claveP f = some k → empiezaCon "PAQUETE_" k = false := by
    intro f hf k hk
    rcases List.mem_cons.mp hf with hf1 | hf2
    · subst hf1
      have hc : Pipeline.claveP "A-1-1.pdf" = some "A" := by decide
      rw [hc] at hk
      injection hk with hk2
      subst hk2
      decide
    · rw [List.mem_singleton] at hf2
      subst hf2
      have hc : Pipeline.claveP "B.pdf" = none := by decide
      rw [hc] at hk
      cases hk
  refine ⟨⟨by decide, hpaqw, by decide⟩, ?_⟩
  exact (C6_idempotencia_reportes (fun _ => ⟨true, false, none⟩) "t1" "t2"
    ⟨["A-1-1.pdf", "B.pdf"], [], [], [], [], []⟩ (by decide) hpaqw
    (by decide)).2.1

end PITA
